import Mathlib

/-! # Route-rule synthesis of `wso2-apk-k8s-go-lib`

A shallow embedding of the Go packages `pkg/utils`, `pkg/generators/http` and
`pkg/generators/grpc`, followed by theorems about the embedded functions.

Conventions of the embedding.

* A Go `string` is modelled as the list of its Unicode code points (`GoString`).  The standard
  library functions used by the sources (`strings.Index`, `strings.Split`, `strings.TrimSpace`,
  `regexp`, `strconv.Atoi`) agree with their code-point versions on every valid UTF-8 string,
  because all separators they look for are ASCII.
* Go `int` is the 64-bit signed integer; it is modelled by `Int`, and the places where the range
  matters (`strconv.Atoi`) check it explicitly.
* A nilable pointer or interface is an `Option`.  A slice that the code compares with `nil` is an
  `Option (List _)`; a slice that is only appended to, ranged over or measured with `len` is a
  `List` (the nil slice is the empty list).
* A Go run-time panic is the `Except.error` of a `Fault`; a Go `(value, error)` result is a pair
  whose second component is the optional error message.
-/

namespace GwArtifacts

/-! ## Go strings -/

/-- A Go string, as the list of its code points. -/
abbrev GoString := List Char

/-- The run-time panics the embedded code can raise. -/
inductive Fault where
  | nilDereference
  deriving DecidableEq, Repr

instance instDecidableEqExcept {ε α : Type} [DecidableEq ε] [DecidableEq α] :
    DecidableEq (Except ε α)
  | .ok a, .ok b => if h : a = b then isTrue (by rw [h]) else isFalse (fun h2 => h (by cases h2; rfl))
  | .error a, .error b =>
    if h : a = b then isTrue (by rw [h]) else isFalse (fun h2 => h (by cases h2; rfl))
  | .ok _, .error _ => isFalse (fun h => by cases h)
  | .error _, .ok _ => isFalse (fun h => by cases h)

/-- Go `strings.HasPrefix`. -/
def hasPrefix (s pre : GoString) : Bool := pre.isPrefixOf s

/-- Go `strings.HasSuffix`. -/
def hasSuffix (s suf : GoString) : Bool := suf.isSuffixOf s

/-- Go `strings.Index(s, c)` for a one-character separator: the first position of `c`. -/
def indexChar (c : Char) : GoString → Option Nat
  | [] => none
  | x :: xs => if x = c then some 0 else (indexChar c xs).map (· + 1)

/-- Go `strings.LastIndex(s, c)` for a one-character separator: the last position of `c`. -/
def lastIndexChar (c : Char) : GoString → Option Nat
  | [] => none
  | x :: xs =>
    match lastIndexChar c xs with
    | some i => some (i + 1)
    | none => if x = c then some 0 else none

/-- Go `strings.Split(s, "/")`: the pieces between the slashes, empty pieces included. -/
def splitSlash : GoString → List GoString
  | [] => [[]]
  | x :: xs =>
    if x = '/' then [] :: splitSlash xs
    else
      match splitSlash xs with
      | [] => [[x]]
      | p :: ps => (x :: p) :: ps

/-- Go `unicode.IsSpace`: the code points with the Unicode White_Space property. -/
def isSpace (c : Char) : Bool :=
  let n := c.toNat
  (9 ≤ n && n ≤ 13) || n = 32 || n = 0x85 || n = 0xA0 || n = 0x1680 ||
  (0x2000 ≤ n && n ≤ 0x200A) || n = 0x2028 || n = 0x2029 || n = 0x202F || n = 0x205F ||
  n = 0x3000

/-- Go `strings.TrimSpace`: drops the leading and the trailing white space. -/
def trimSpace (s : GoString) : GoString :=
  ((s.dropWhile isSpace).reverse.dropWhile isSpace).reverse

/-- The decimal digits `0` to `9`. -/
def isDigit (c : Char) : Bool := 48 ≤ c.toNat && c.toNat ≤ 57

/-- The number written by a string of decimal digits. -/
def digitsValue (s : GoString) : Nat :=
  s.foldl (fun n c => n * 10 + (c.toNat - 48)) 0

/-- Go `strconv.Atoi`: an optional sign followed by at least one decimal digit, the value within
the range of a 64-bit `int`; `none` stands for the returned error. -/
def Atoi (s : GoString) : Option Int :=
  let negative := s.head? = some '-'
  let body := if s.head? = some '-' ∨ s.head? = some '+' then s.tail else s
  if body.isEmpty || !body.all isDigit then none
  else
    let n := digitsValue body
    if negative then (if n ≤ 2 ^ 63 then some (-(n : Int)) else none)
    else (if n < 2 ^ 63 then some (n : Int) else none)

/-- Go `strconv.Itoa`. -/
def Itoa (n : Int) : GoString :=
  if n < 0 then '-' :: Nat.toDigits 10 n.natAbs else Nat.toDigits 10 n.natAbs

/-! ### The regular expression `\{.*\}`

Go's `regexp` finds the leftmost match and makes `.*` greedy; `.` matches every code point but the
line feed.  A match therefore starts at an opening brace and ends at the last closing brace that
stands before the next line feed. -/

/-- With the opening brace just consumed: the number of further code points the match takes, which
is the position just after the last closing brace of the current line. -/
def braceMatchLength : GoString → Option Nat
  | [] => none
  | x :: xs =>
    if x = '\n' then none
    else
      match braceMatchLength xs with
      | some k => some (k + 1)
      | none => if x = '}' then some 1 else none

/-- Go `re.MatchString(s)` for `re = \{.*\}`. -/
def reMatchString : GoString → Bool
  | [] => false
  | x :: xs => (x = '{' && (braceMatchLength xs).isSome) || reMatchString xs

/-- The scan of `ReplaceAllString`: `skip` counts the code points of the current match that are
still to be dropped. -/
def reReplaceAux (repl : GoString) : Nat → GoString → GoString
  | _, [] => []
  | skip + 1, _ :: xs => reReplaceAux repl skip xs
  | 0, x :: xs =>
    if x = '{' then
      match braceMatchLength xs with
      | some k => repl ++ reReplaceAux repl k xs
      | none => x :: reReplaceAux repl 0 xs
    else x :: reReplaceAux repl 0 xs

/-- Go `re.ReplaceAllString(s, repl)` for `re = \{.*\}` and a replacement without `$`, which Go
inserts literally: every non-overlapping match, from the left, is replaced by `repl`. -/
def reReplaceAllString (s repl : GoString) : GoString := reReplaceAux repl 0 s

/-! ## `config/types` and `config/constants` -/

def SANDBOX_TYPE : GoString := "sandbox".toList
def PRODUCTION_TYPE : GoString := "production".toList

/-- EndpointDetails represents the details of an endpoint. -/
structure EndpointDetails where
  Name : GoString := []
  URL : GoString := []
  Namespace : GoString := []
  ServiceEntry : Bool := false
  deriving DecidableEq, Repr

/-- K8sService stores the coordinates of an in-cluster service. -/
structure K8sService where
  Name : GoString := []
  Namespace : GoString := []
  Port : GoString := []
  Protocol : GoString := []
  deriving DecidableEq, Repr

/-- The interface `types.Endpoint`, closed over its two implementations; the nil interface is the
`none` of `Option Endpoint`. -/
inductive Endpoint where
  | EndpointURL (url : GoString)
  | K8sService (svc : K8sService)
  deriving DecidableEq, Repr

/-- A value passed as `interface{}` to the helpers of `pkg/utils`, by dynamic type. -/
inductive AnyValue where
  | str (s : GoString)
  | endpointURL (url : GoString)
  | k8sService (svc : K8sService)
  | other
  deriving DecidableEq, Repr

/-- The conversion of a `types.Endpoint` to `interface{}`. -/
def AnyValue.ofEndpoint : Option Endpoint → AnyValue
  | some (.EndpointURL u) => .endpointURL u
  | some (.K8sService k) => .k8sService k
  | none => .other

/-- EndpointConfiguration: the endpoint of one environment.  The certificate, security and
rate-limit metadata are read by none of the embedded functions and are left out. -/
structure EndpointConfiguration where
  Endpoint : Option Endpoint := none
  deriving DecidableEq, Repr

/-- EndpointConfigurations holds production and sandbox endpoints. -/
structure EndpointConfigurations where
  Production : Option EndpointConfiguration := none
  Sandbox : Option EndpointConfiguration := none
  deriving DecidableEq, Repr

structure RedirectPolicy where
  URL : GoString := []
  StatusCode : Int := 0
  deriving DecidableEq, Repr

structure URLList where
  URLs : List GoString := []
  deriving DecidableEq, Repr

structure Header where
  HeaderName : GoString := []
  HeaderValue : GoString := []
  deriving DecidableEq, Repr

structure InterceptorService where
  BackendURL : GoString := []
  HeadersEnabled : Bool := false
  BodyEnabled : Bool := false
  TrailersEnabled : Bool := false
  ContextEnabled : Bool := false
  TLSSecretName : GoString := []
  TLSSecretKey : GoString := []
  deriving DecidableEq, Repr

structure BackendJWT where
  Encoding : GoString := []
  Header : GoString := []
  SigningAlgorithm : GoString := []
  TokenTTL : Int := 0
  deriving DecidableEq, Repr

/-- The interface `types.Parameter`, closed over the five payload types that implement it; the nil
interface is the `none` of `Option Parameter`. -/
inductive Parameter where
  | redirectPolicy (p : RedirectPolicy)
  | urlList (p : URLList)
  | header (p : Header)
  | interceptorService (p : InterceptorService)
  | backendJWT (p : BackendJWT)
  deriving DecidableEq, Repr

/-- OperationPolicy: a named policy and its payload. -/
structure OperationPolicy where
  PolicyName : GoString := []
  PolicyVersion : GoString := []
  PolicyID : GoString := []
  Parameters : Option Parameter := none
  deriving DecidableEq, Repr

/-- OperationPolicies: the request and the response policies; `none` is the nil slice. -/
structure OperationPolicies where
  Request : Option (List OperationPolicy) := none
  Response : Option (List OperationPolicy) := none
  deriving DecidableEq, Repr

structure RateLimit where
  RequestsPerUnit : Int := 0
  Unit : GoString := []
  deriving DecidableEq, Repr

/-- Operation: one API operation. -/
structure Operation where
  Target : GoString := []
  Verb : GoString := []
  Scopes : List GoString := []
  Secured : Bool := false
  EndpointConfigurations : Option EndpointConfigurations := none
  OperationPolicies : Option OperationPolicies := none
  RateLimit : Option RateLimit := none
  deriving DecidableEq, Repr

/-- APKConf: the API contract (the Go field `Type` is `Type_` here).  The authentication, CORS,
additional-property and AI-provider records are read by none of the embedded functions and are
left out. -/
structure APKConf where
  Name : GoString := []
  ID : GoString := []
  Version : GoString := []
  BasePath : GoString := []
  Type_ : GoString := []
  Environment : GoString := []
  DefaultVersion : Bool := false
  DefinitionPath : GoString := []
  EndpointConfigurations : Option EndpointConfigurations := none
  Operations : Option (List Operation) := none
  SubscriptionValidation : Bool := false
  RateLimit : Option RateLimit := none
  APIPolicies : Option OperationPolicies := none
  deriving DecidableEq, Repr

structure OrganizationProperty where
  Name : GoString := []
  Value : GoString := []
  deriving DecidableEq, Repr

structure Organization where
  UUID : GoString := []
  Name : GoString := []
  DisplayName : GoString := []
  OrganizationClaimValue : GoString := []
  Enabled : Bool := false
  ServiceListingNamespaces : List GoString := []
  Properties : List OrganizationProperty := []
  deriving DecidableEq, Repr

/-- Modelled from the spec: `types.GatewayConfigurations` is declared in no source file at hand;
its fields are the ones the generators and their tests use (gateway name, listener name,
hostname). -/
structure GatewayConfigurations where
  Name : GoString := []
  ListenerName : GoString := []
  Hostname : GoString := []
  deriving DecidableEq, Repr

/-! ## `pkg/utils/helpers.go` -/

/-- ConstructURlFromK8sService prepares the service URL from a K8sService; every other dynamic
type gives the empty string. -/
def ConstructURlFromK8sService (endpoint : AnyValue) : GoString :=
  match endpoint with
  | .k8sService k8sService =>
    k8sService.Protocol ++ "://".toList ++ k8sService.Name ++ ".".toList ++ k8sService.Namespace ++
      ".svc.cluster.local:".toList ++ k8sService.Port
  | _ => []

/-- GetHost extracts the host from a given URL. -/
def GetHost (endpoint : Option Endpoint) : GoString :=
  let url : GoString :=
    match endpoint with
    | some (.EndpointURL v) => v
    | some (.K8sService v) => ConstructURlFromK8sService (.k8sService v)
    | none => []
  if 8 ≤ url.length ∧ url.take 8 = "https://".toList then
    let host := url.drop 8
    match indexChar ':' host with
    | some indexOfColon => host.take indexOfColon
    | none =>
      match indexChar '/' host with
      | some indexOfSlash => host.take indexOfSlash
      | none => host
  else if 7 ≤ url.length ∧ url.take 7 = "http://".toList then
    let host := url.drop 7
    match indexChar ':' host with
    | some indexOfColon => host.take indexOfColon
    | none =>
      match indexChar '/' host with
      | some indexOfSlash => host.take indexOfSlash
      | none => host
  else []

/-- The second half of `GetPort`: from the text after the scheme to the port. -/
def portOfHostPort (hostPort : GoString) (protocol : GoString) : Int :=
  let hostPort :=
    match indexChar '/' hostPort with
    | some indexOfSlash => hostPort.take indexOfSlash
    | none => hostPort
  match indexChar ':' hostPort with
  | some indexOfColon =>
    match Atoi (hostPort.drop (indexOfColon + 1)) with
    | none => -1
    | some portInt => portInt
  | none => if protocol = "https".toList then 443 else 80

/-- GetPort extracts the port from a given URL. -/
def GetPort (endpoint : AnyValue) : Int :=
  let url : GoString :=
    match endpoint with
    | .str v => v
    | e => ConstructURlFromK8sService e
  if hasPrefix url "https://".toList then portOfHostPort (url.drop 8) "https".toList
  else if hasPrefix url "http://".toList then portOfHostPort (url.drop 7) "http".toList
  else -1

/-- GetProtocol extracts the protocol from a given URL. -/
def GetProtocol (endpoint : AnyValue) : GoString :=
  match endpoint with
  | .k8sService k8sService =>
    if k8sService.Protocol = [] then "http".toList else k8sService.Protocol
  | .str strEndpoint =>
    if hasPrefix strEndpoint "https://".toList then "https".toList else "http".toList
  | _ => "http".toList

/-- GetPath extracts the path from a given URL. -/
def GetPath (url : GoString) : GoString :=
  if hasPrefix url "https://".toList then
    let hostPort := url.drop 8
    match indexChar '/' hostPort with
    | some indexOfSlash => hostPort.drop indexOfSlash
    | none => []
  else if hasPrefix url "http://".toList then
    let hostPort := url.drop 7
    match indexChar '/' hostPort with
    | some indexOfSlash => hostPort.drop indexOfSlash
    | none => []
  else []

/-- The body of the loop of `RetrievePathPrefix`. -/
def retrievePathPrefixStep (generatedPath : GoString) (pathPart : GoString) : GoString :=
  let trimmedPathPart := trimSpace pathPart
  if trimmedPathPart.length > 0 then
    if reMatchString trimmedPathPart then
      generatedPath ++ "/".toList ++ reReplaceAllString trimmedPathPart "(.*)".toList
    else generatedPath ++ "/".toList ++ trimmedPathPart
  else generatedPath

/-- RetrievePathPrefix generates a path prefix based on the operation and basePath.  In the
wildcard branch Go slices at `strings.LastIndex`, which is never `-1` there because the sliced
text ends in a slash; the `none` case of the model is therefore never taken. -/
def RetrievePathPrefix (operation : GoString) (basePath : GoString) : GoString :=
  let splitValues := splitSlash operation
  if operation = "/*".toList then "(.*)".toList
  else if operation = "/".toList then "/".toList
  else
    let generatedPath := splitValues.foldl retrievePathPrefixStep []
    let generatedPath :=
      if hasSuffix generatedPath "/*".toList then
        match lastIndexChar '/' (generatedPath.take (generatedPath.length - 1)) with
        | some lastSlashIndex => generatedPath.take lastSlashIndex ++ "(.*)".toList
        | none => generatedPath
      else generatedPath
    basePath ++ trimSpace generatedPath

/-- The body of the loop of `GeneratePrefixMatch`, on the pair of `generatedPath` and
`pathParamCount`. -/
def generatePrefixMatchStep (state : GoString × Int) (value : GoString) : GoString × Int :=
  let trimmedValue := trimSpace value
  if trimmedValue.length > 0 then
    if reMatchString trimmedValue then
      (state.1 ++ "/".toList ++ reReplaceAllString trimmedValue ("\\".toList ++ Itoa state.2),
        state.2 + 1)
    else (state.1 ++ "/".toList ++ trimmedValue, state.2)
  else state

/-- GeneratePrefixMatch generates a prefix match based on the endpoint and operation.  As in
`RetrievePathPrefix`, `strings.LastIndex` is never `-1` where the result is sliced. -/
def GeneratePrefixMatch (endpointToUse : EndpointDetails) (operation : Operation) : GoString :=
  let target := if operation.Target = [] then "/*".toList else operation.Target
  let splitValues := splitSlash target
  let state : GoString × Int :=
    if target = "/*".toList then ("\\1".toList, 1)
    else if target = "/".toList then ("/".toList, 1)
    else splitValues.foldl generatePrefixMatchStep ([], 1)
  let generatedPath := state.1
  let pathParamCount := state.2
  let generatedPath :=
    if hasSuffix generatedPath "/*".toList then
      match lastIndexChar '/' generatedPath with
      | some lastSlashIndex =>
        generatedPath.take lastSlashIndex ++ "///".toList ++ Itoa pathParamCount
      | none => generatedPath
    else generatedPath
  if endpointToUse.ServiceEntry then trimSpace generatedPath else generatedPath

/-- A Go `map[string]EndpointDetails`, as the list of its entries. -/
abbrev EndpointMap := List (GoString × EndpointDetails)

/-- The map assignment `m[key] = value`. -/
def EndpointMap.set (m : EndpointMap) (key : GoString) (value : EndpointDetails) : EndpointMap :=
  (key, value) :: m.filter (fun entry => entry.1 ≠ key)

/-- The map lookup `value, ok := m[key]`. -/
def EndpointMap.get? (m : EndpointMap) (key : GoString) : Option EndpointDetails :=
  (m.find? (fun entry => entry.1 = key)).map (·.2)

/-- The selector `config.Endpoint` on a pointer: a nil pointer makes Go panic. -/
def derefEndpoint : Option EndpointConfiguration → Except Fault (Option Endpoint)
  | some config => .ok config.Endpoint
  | none => .error .nilDereference

/-- The unexported createEndpoints creates a map of endpoint details based on the provided
configurations and endpoint type. -/
def createEndpoints (endpointConfigs : EndpointConfigurations) (endpointType : GoString) :
    Except Fault EndpointMap := do
  let createdEndpoints : EndpointMap := []
  let productionEndpointConfig := endpointConfigs.Production
  let sandboxEndpointConfig := endpointConfigs.Sandbox
  let createdEndpoints ←
    if endpointType = PRODUCTION_TYPE ∨ productionEndpointConfig ≠ none then do
      let endpoint ← derefEndpoint productionEndpointConfig
      pure (createdEndpoints.set PRODUCTION_TYPE
        { Name := GetHost endpoint,
          URL := ConstructURlFromK8sService (AnyValue.ofEndpoint endpoint) })
    else pure createdEndpoints
  let createdEndpoints ←
    if endpointType = SANDBOX_TYPE ∨ sandboxEndpointConfig ≠ none then do
      let endpoint ← derefEndpoint sandboxEndpointConfig
      pure (createdEndpoints.set SANDBOX_TYPE
        { Name := GetHost endpoint,
          URL := ConstructURlFromK8sService (AnyValue.ofEndpoint endpoint) })
    else pure createdEndpoints
  pure createdEndpoints

/-- GetEndpoints retrieves the endpoint details from the provided APK configuration. -/
def GetEndpoints (apkConf : APKConf) : Except Fault EndpointMap :=
  match apkConf.EndpointConfigurations with
  | some endpointConfigs => createEndpoints endpointConfigs []
  | none => .ok []

/-- GetEndpointToUse returns the endpoint details based on the endpoint configurations and type;
`none` is the nil pointer. -/
def GetEndpointToUse (endpointConfigs : Option EndpointConfigurations) (endpointType : GoString) :
    Except Fault (Option EndpointDetails) :=
  match endpointConfigs with
  | some endpointConfigs => do
    let operationLevelEndpoint ← createEndpoints endpointConfigs endpointType
    match operationLevelEndpoint.get? endpointType with
    | some endpoint => pure (some endpoint)
    | none => pure none
  | none => .ok none

/-- GetHostNames: the hostnames of a route, not implemented yet by the source: the local
`orgAndEnv` is computed and dropped, and the nil slice is returned. -/
def GetHostNames (apkConf : APKConf) (_endpointType : GoString) (_organization : Organization) :
    List GoString :=
  let hosts : List GoString := []
  let environment := apkConf.Environment
  let _orgAndEnv : GoString := if environment ≠ [] then "-".toList ++ environment else []
  hosts

/-! ## The Gateway API records (`sigs.k8s.io/gateway-api/apis/v1`)

Only the fields the generators write, or the claims name, are kept; a Go pointer field is an
`Option`, and the Go field `Type` is `Type_`. -/

structure HTTPHeader where
  Name : GoString := []
  Value : GoString := []
  deriving DecidableEq, Repr

structure HTTPHeaderFilter where
  Set : List HTTPHeader := []
  Add : List HTTPHeader := []
  Remove : List GoString := []
  deriving DecidableEq, Repr

structure BackendObjectReference where
  Group : Option GoString := none
  Kind : Option GoString := none
  Name : GoString := []
  Namespace : Option GoString := none
  Port : Option Int := none
  deriving DecidableEq, Repr

structure HTTPRequestMirrorFilter where
  BackendRef : BackendObjectReference := {}
  deriving DecidableEq, Repr

structure HTTPPathModifier where
  Type_ : GoString := []
  ReplaceFullPath : Option GoString := none
  ReplacePrefixMatch : Option GoString := none
  deriving DecidableEq, Repr

structure HTTPRequestRedirectFilter where
  Scheme : Option GoString := none
  Hostname : Option GoString := none
  Path : Option HTTPPathModifier := none
  Port : Option Int := none
  StatusCode : Option Int := none
  deriving DecidableEq, Repr

structure HTTPURLRewriteFilter where
  Hostname : Option GoString := none
  Path : Option HTTPPathModifier := none
  deriving DecidableEq, Repr

structure HTTPRouteFilter where
  Type_ : GoString := []
  RequestHeaderModifier : Option HTTPHeaderFilter := none
  ResponseHeaderModifier : Option HTTPHeaderFilter := none
  RequestMirror : Option HTTPRequestMirrorFilter := none
  RequestRedirect : Option HTTPRequestRedirectFilter := none
  URLRewrite : Option HTTPURLRewriteFilter := none
  deriving DecidableEq, Repr

/-- The Go `BackendRef` embeds `BackendObjectReference`, whose fields are flattened here. -/
structure HTTPBackendRef where
  Group : Option GoString := none
  Kind : Option GoString := none
  Name : GoString := []
  Namespace : Option GoString := none
  Port : Option Int := none
  Weight : Option Int := none
  Filters : List HTTPRouteFilter := []
  deriving DecidableEq, Repr

structure HTTPPathMatch where
  Type_ : Option GoString := none
  Value : Option GoString := none
  deriving DecidableEq, Repr

structure HTTPRouteMatch where
  Path : Option HTTPPathMatch := none
  Method : Option GoString := none
  deriving DecidableEq, Repr

structure HTTPRouteRule where
  Matches : List HTTPRouteMatch := []
  Filters : List HTTPRouteFilter := []
  BackendRefs : List HTTPBackendRef := []
  deriving DecidableEq, Repr

structure ParentReference where
  Group : Option GoString := none
  Kind : Option GoString := none
  Namespace : Option GoString := none
  Name : GoString := []
  SectionName : Option GoString := none
  Port : Option Int := none
  deriving DecidableEq, Repr

structure ObjectMeta where
  Name : GoString := []
  deriving DecidableEq, Repr

/-- The Go `HTTPRouteSpec` embeds `CommonRouteSpec`, whose field `ParentRefs` is flattened here. -/
structure HTTPRouteSpec where
  ParentRefs : List ParentReference := []
  Hostnames : List GoString := []
  Rules : List HTTPRouteRule := []
  deriving DecidableEq, Repr

structure HTTPRoute where
  ObjectMeta : ObjectMeta := {}
  Spec : HTTPRouteSpec := {}
  deriving DecidableEq, Repr

structure GRPCMethodMatch where
  Type_ : Option GoString := none
  Service : Option GoString := none
  Method : Option GoString := none
  deriving DecidableEq, Repr

structure GRPCRouteMatch where
  Method : Option GRPCMethodMatch := none
  deriving DecidableEq, Repr

structure GRPCRouteFilter where
  Type_ : GoString := []
  deriving DecidableEq, Repr

structure GRPCBackendRef where
  Group : Option GoString := none
  Kind : Option GoString := none
  Name : GoString := []
  Namespace : Option GoString := none
  Port : Option Int := none
  Weight : Option Int := none
  Filters : List GRPCRouteFilter := []
  deriving DecidableEq, Repr

structure GRPCRouteRule where
  Matches : List GRPCRouteMatch := []
  Filters : List GRPCRouteFilter := []
  BackendRefs : List GRPCBackendRef := []
  deriving DecidableEq, Repr

structure GRPCRouteSpec where
  ParentRefs : List ParentReference := []
  Hostnames : List GoString := []
  Rules : List GRPCRouteRule := []
  deriving DecidableEq, Repr

structure GRPCRoute where
  ObjectMeta : ObjectMeta := {}
  Spec : GRPCRouteSpec := {}
  deriving DecidableEq, Repr

/-- `gwapiv1.FullPathHTTPPathModifier`. -/
def FullPathHTTPPathModifier : GoString := "ReplaceFullPath".toList

/-- `gwapiv1.PathMatchRegularExpression`. -/
def PathMatchRegularExpression : GoString := "RegularExpression".toList

/-! ## `pkg/generators/http`

The generator record of the source holds its methods in function-valued fields, which
`Generator()` fills with the unexported methods below; the embedding is that of the generator
returned by `Generator()`, so a call through a field is a call of the method. -/

/-- The unexported generateAndRetrieveParentRefs generates the parent references of the HTTPRoute. -/
def generateAndRetrieveParentRefs (gatewayConfig : GatewayConfigurations) (_uniqueId : GoString) :
    List ParentReference :=
  let parentRefs : List ParentReference := []
  let gatewayName := gatewayConfig.Name
  let listenerName := gatewayConfig.ListenerName
  let parentGroup := "gateway.networking.k8s.io".toList
  let parentKind := "Gateway".toList
  let parentRef : ParentReference :=
    { Group := some parentGroup, Kind := some parentKind, Name := gatewayName,
      SectionName := some listenerName }
  parentRefs ++ [parentRef]

/-- The unexported generateHTTPBackEndRef generates a list of HTTPBackendRefs. -/
def generateHTTPBackEndRef (endpoint : EndpointDetails) (_operation : Operation)
    (_endpointType : GoString) : List HTTPBackendRef :=
  let kind := "Service".toList
  let httpBackEndRef : HTTPBackendRef := { Kind := some kind, Name := endpoint.Name }
  [httpBackEndRef]

/-- The local variables of the loop of `extractHTTPRouteFilter`. -/
structure ExtractState where
  httpRouteFilters : List HTTPRouteFilter := []
  addHeaders : List HTTPHeader := []
  setHeaders : List HTTPHeader := []
  removeHeaders : List GoString := []
  hasRedirectPolicy : Bool := false
  deriving DecidableEq, Repr

/-- The body of the inner loop of `extractHTTPRouteFilter`, over the URLs of a mirror policy.  The
warning printed for a response policy is not part of the model; the index `[0]` of the source is
always in range, so the empty case below is never taken. -/
def mirrorStep (endpoint : EndpointDetails) (operation : Operation)
    (httpRouteFilters : List HTTPRouteFilter) (url : GoString) : List HTTPRouteFilter :=
  let mirrorFilter : HTTPRouteFilter := { Type_ := "RequestMirror".toList }
  let port := GetPort (.str url)
  if port > 0 then
    match generateHTTPBackEndRef endpoint operation [] with
    | backendRef :: _ =>
      let mirrorFilter : HTTPRouteFilter :=
        { mirrorFilter with
          RequestMirror := some
            { BackendRef :=
                { Name := backendRef.Name, Namespace := backendRef.Namespace,
                  Group := backendRef.Group, Kind := backendRef.Kind, Port := backendRef.Port } } }
      httpRouteFilters ++ [mirrorFilter]
    | [] => httpRouteFilters
  else httpRouteFilters

/-- The redirect filter `extractHTTPRouteFilter` builds for a redirect payload. -/
def redirectFilterOf (policyParameters : RedirectPolicy) : HTTPRouteFilter :=
  let url := policyParameters.URL
  let redirectFilter : HTTPRouteFilter := { Type_ := "RequestRedirect".toList }
  let port := GetPort (.str url)
  if port > 0 then
    let host := GetHost (some (.EndpointURL url))
    let schema := GetProtocol (.str url)
    let replaceFullPath := GetPath url
    let requestRedirect : HTTPRequestRedirectFilter :=
      { Hostname := some host, Scheme := some schema,
        Path := some { Type_ := "ReplaceFullPath".toList, ReplaceFullPath := some replaceFullPath } }
    let requestRedirect : HTTPRequestRedirectFilter :=
      if policyParameters.StatusCode > 0 then
        { requestRedirect with StatusCode := some policyParameters.StatusCode }
      else requestRedirect
    { redirectFilter with RequestRedirect := some requestRedirect }
  else redirectFilter

/-- The body of the outer loop of `extractHTTPRouteFilter`: the dispatch on the dynamic type of
the payload and, for a header payload, on the policy name. -/
def extractStep (endpoint : EndpointDetails) (operation : Operation) (st : ExtractState)
    (policy : OperationPolicy) : ExtractState :=
  match policy.Parameters with
  | some (.header policyParameters) =>
    if policy.PolicyName = "AddHeader".toList then
      { st with addHeaders := st.addHeaders ++
          [{ Name := policyParameters.HeaderName, Value := policyParameters.HeaderValue }] }
    else if policy.PolicyName = "SetHeader".toList then
      { st with setHeaders := st.setHeaders ++
          [{ Name := policyParameters.HeaderName, Value := policyParameters.HeaderValue }] }
    else if policy.PolicyName = "RemoveHeader".toList then
      { st with removeHeaders := st.removeHeaders ++ [policyParameters.HeaderName] }
    else st
  | some (.urlList policyParameters) =>
    { st with httpRouteFilters :=
        policyParameters.URLs.foldl (mirrorStep endpoint operation) st.httpRouteFilters }
  | some (.redirectPolicy policyParameters) =>
    { st with hasRedirectPolicy := true,
              httpRouteFilters := st.httpRouteFilters ++ [redirectFilterOf policyParameters] }
  | _ => st

/-- The unexported extractHTTPRouteFilter extracts the HTTPRouteFilters of one policy list. -/
def extractHTTPRouteFilter (_apkConf : APKConf) (endpoint : EndpointDetails)
    (operation : Operation) (operationPolicies : List OperationPolicy) (isRequest : Bool) :
    List HTTPRouteFilter × Bool :=
  let st := operationPolicies.foldl (extractStep endpoint operation) {}
  let headerModifier : HTTPHeaderFilter := {}
  let headerModifier :=
    if st.addHeaders.length ≠ 0 then { headerModifier with Add := st.addHeaders }
    else headerModifier
  let headerModifier :=
    if st.setHeaders.length ≠ 0 then { headerModifier with Set := st.setHeaders }
    else headerModifier
  let headerModifier :=
    if st.removeHeaders.length ≠ 0 then { headerModifier with Remove := st.removeHeaders }
    else headerModifier
  let headerModifierFilter : HTTPRouteFilter :=
    if isRequest then
      { Type_ := "RequestHeaderModifier".toList, RequestHeaderModifier := some headerModifier }
    else
      { Type_ := "ResponseHeaderModifier".toList, ResponseHeaderModifier := some headerModifier }
  let httpRouteFilters :=
    if st.addHeaders.length > 0 ∨ st.setHeaders.length > 0 ∨ st.removeHeaders.length > 0 then
      st.httpRouteFilters ++ [headerModifierFilter]
    else st.httpRouteFilters
  (httpRouteFilters, st.hasRedirectPolicy)

/-- The policies `generateHTTPRouteFilters` puts in its local `operationPoliciesToUse`: the
contract-level policies when they are present and one of their two slices is not nil, nothing when
they are present with both slices nil, the operation-level policies when they are absent. -/
def operationPoliciesToUse (apkConf : APKConf) (operation : Operation) :
    Option OperationPolicies :=
  match apkConf.APIPolicies with
  | some operationPolicies =>
    if operationPolicies.Request ≠ none ∨ operationPolicies.Response ≠ none then
      some operationPolicies
    else none
  | none => operation.OperationPolicies

/-- The length and the elements of a slice that may be nil. -/
def sliceOf {α : Type} : Option (List α) → List α
  | some l => l
  | none => []

/-- The URLRewrite filter `generateHTTPRouteFilters` appends when there is no redirect. -/
def replacePathFilterOf (generatedPath : GoString) : HTTPRouteFilter :=
  { Type_ := "URLRewrite".toList,
    URLRewrite := some
      { Path := some { Type_ := FullPathHTTPPathModifier, ReplaceFullPath := some generatedPath } } }

/-- The unexported generateHTTPRouteFilters generates the filters of one rule and reports whether
a redirect policy was seen. -/
def generateHTTPRouteFilters (apkConf : APKConf) (endpointToUse : EndpointDetails)
    (operation : Operation) (_endpointType : GoString) : List HTTPRouteFilter × Bool :=
  let routeFilters : List HTTPRouteFilter := []
  let hasRedirectPolicy := false
  let (routeFilters, hasRedirectPolicy) :=
    match operationPoliciesToUse apkConf operation with
    | some operationPoliciesToUse =>
      let requestPolicies := sliceOf operationPoliciesToUse.Request
      let responsePolicies := sliceOf operationPoliciesToUse.Response
      let (routeFilters, hasRedirectPolicy) :=
        if requestPolicies.length > 0 then
          let (requestHttpRouteFilters, hasRedirectPolicy) :=
            extractHTTPRouteFilter apkConf endpointToUse operation requestPolicies true
          (routeFilters ++ requestHttpRouteFilters, hasRedirectPolicy)
        else (routeFilters, hasRedirectPolicy)
      let routeFilters :=
        if responsePolicies.length > 0 then
          let (responseHttpRouteFilters, _) :=
            extractHTTPRouteFilter apkConf endpointToUse operation responsePolicies false
          routeFilters ++ responseHttpRouteFilters
        else routeFilters
      (routeFilters, hasRedirectPolicy)
    | none => (routeFilters, hasRedirectPolicy)
  if !hasRedirectPolicy then
    let generatedPath := GeneratePrefixMatch endpointToUse operation
    (routeFilters ++ [replacePathFilterOf generatedPath], hasRedirectPolicy)
  else (routeFilters, hasRedirectPolicy)

/-- The unexported retrieveHTTPMatch retrieves the HTTPRouteMatch of an operation; the error it
returns is always nil. -/
def retrieveHTTPMatch (apkConf : APKConf) (operation : Operation) :
    HTTPRouteMatch × Option GoString :=
  let method := operation.Verb
  let pathType := PathMatchRegularExpression
  let operationTarget := if operation.Target ≠ [] then operation.Target else "/*".toList
  let pathValue := RetrievePathPrefix operationTarget apkConf.BasePath
  ({ Method := some method, Path := some { Type_ := some pathType, Value := some pathValue } },
    none)

/-- The unexported retrieveHTTPMatches retrieves the HTTPRouteMatches of an operation. -/
def retrieveHTTPMatches (apkConf : APKConf) (operation : Operation) :
    List HTTPRouteMatch × Option GoString :=
  let httpRouteMatches : List HTTPRouteMatch := []
  match retrieveHTTPMatch apkConf operation with
  | (_, some err) => ([], some err)
  | (httpRouteMatch, none) => (httpRouteMatches ++ [httpRouteMatch], none)

/-- The first lines of `generateHTTPRouteRule` and of `generateGRPCRouteRule`: the endpoint of the
operation for the endpoint type, else the endpoint supplied by the caller. -/
def resolveEndpointToUse (operation : Operation) (endpoint : Option EndpointDetails)
    (endpointType : GoString) : Except Fault (Option EndpointDetails) := do
  let endpointToUse ← GetEndpointToUse operation.EndpointConfigurations endpointType
  if endpointToUse = none ∧ endpoint ≠ none then pure endpoint else pure endpointToUse

/-- The unexported generateHTTPRouteRule generates a route rule based on the operation and
endpoint details. -/
def generateHTTPRouteRule (apkConf : APKConf) (operation : Operation)
    (endpoint : Option EndpointDetails) (endpointType : GoString) :
    Except Fault (Option HTTPRouteRule × Option GoString) := do
  let endpointToUse ← resolveEndpointToUse operation endpoint endpointType
  match endpointToUse with
  | some endpointToUse =>
    let (filters, hasRedirectPolicy) :=
      generateHTTPRouteFilters apkConf endpointToUse operation endpointType
    match retrieveHTTPMatches apkConf operation with
    | (_, some err) => pure (none, some err)
    | (ruleMatches, none) =>
      let httpRouteRule : HTTPRouteRule := { Matches := ruleMatches, Filters := filters }
      let httpRouteRule :=
        if !hasRedirectPolicy then
          { httpRouteRule with
            BackendRefs := generateHTTPBackEndRef endpointToUse operation endpointType }
        else httpRouteRule
      pure (some httpRouteRule, none)
  | none => pure (none, some "invalid endpoint specified".toList)

/-- The body of the loop of `generateHTTPRouteRules`, on the rules gathered so far; the left side
of the sum is the early return of the error. -/
def httpRouteRulesLoop (apkConf : APKConf) (endpoint : Option EndpointDetails)
    (endpointType : GoString) :
    List Operation → List HTTPRouteRule → Except Fault (List HTTPRouteRule × Option GoString)
  | [], httpRouteRules => pure (httpRouteRules, none)
  | operation :: rest, httpRouteRules => do
    let result ← generateHTTPRouteRule apkConf operation endpoint endpointType
    match result with
    | (_, some err) => pure ([], some err)
    | (some httpRouteRule, none) =>
      httpRouteRulesLoop apkConf endpoint endpointType rest (httpRouteRules ++ [httpRouteRule])
    | (none, none) => throw .nilDereference

/-- The unexported generateHTTPRouteRules generates a list of HTTPRouteRules. -/
def generateHTTPRouteRules (apkConf : APKConf) (operations : List Operation)
    (endpoint : Option EndpointDetails) (endpointType : GoString) :
    Except Fault (List HTTPRouteRule × Option GoString) :=
  httpRouteRulesLoop apkConf endpoint endpointType operations []

/-- GenerateHTTPRoute generates a HTTPRoute based on the provided configurations. -/
def GenerateHTTPRoute (apkConf : APKConf) (organization : Organization)
    (gatewayConfiguration : GatewayConfigurations) (operations : List Operation)
    (endpoint : Option EndpointDetails) (endpointType : GoString) (uniqueId : GoString)
    (count : Int) : Except Fault (Option HTTPRoute × Option GoString) := do
  let result ← generateHTTPRouteRules apkConf operations endpoint endpointType
  match result with
  | (_, some err) => pure (none, some err)
  | (httpRouteRules, none) =>
    let httpRoute : HTTPRoute :=
      { ObjectMeta :=
          { Name := uniqueId ++ "-".toList ++ endpointType ++ "-httproute-".toList ++ Itoa count },
        Spec :=
          { ParentRefs := generateAndRetrieveParentRefs gatewayConfiguration uniqueId,
            Rules := httpRouteRules,
            Hostnames := GetHostNames apkConf endpointType organization } }
    pure (some httpRoute, none)

/-! ## `pkg/generators/grpc` -/

/-- The unexported generateAndRetrieveParentRefs of the gRPC generator, which generates the parent
references of the GRPCRoute; in Go it bears the name of its HTTP twin, in another package. -/
def grpcGenerateAndRetrieveParentRefs (gatewayConfig : GatewayConfigurations)
    (_uniqueId : GoString) : List ParentReference :=
  let parentRefs : List ParentReference := []
  let gatewayName := gatewayConfig.Name
  let listenerName := gatewayConfig.ListenerName
  let parentGroup := "gateway.networking.k8s.io".toList
  let parentKind := "Gateway".toList
  let parentRef : ParentReference :=
    { Group := some parentGroup, Kind := some parentKind, Name := gatewayName,
      SectionName := some listenerName }
  parentRefs ++ [parentRef]

/-- The unexported generateGRPCBackEndRef generates a list of GRPCBackendRefs. -/
def generateGRPCBackEndRef (endpoint : EndpointDetails) (_operation : Operation) :
    List GRPCBackendRef :=
  let kind := "Service".toList
  let grpcBackEndRef : GRPCBackendRef := { Kind := some kind, Name := endpoint.Name }
  [grpcBackEndRef]

/-- The unexported retrieveGRPCMatch retrieves the GRPCRouteMatch of an operation. -/
def retrieveGRPCMatch (operation : Operation) : GRPCRouteMatch :=
  let matchType := "Exact".toList
  { Method :=
      some { Type_ := some matchType, Service := some operation.Target,
             Method := some operation.Verb } }

/-- The unexported retrieveGRPCMatches retrieves the GRPCRouteMatches of an operation. -/
def retrieveGRPCMatches (operation : Operation) : List GRPCRouteMatch :=
  let grpcRouteMatches : List GRPCRouteMatch := []
  let grpcRouteMatch := retrieveGRPCMatch operation
  grpcRouteMatches ++ [grpcRouteMatch]

/-- The unexported generateGRPCRouteRule generates a route rule based on the operation and
endpoint details. -/
def generateGRPCRouteRule (_apkConf : APKConf) (operation : Operation)
    (endpoint : Option EndpointDetails) (endpointType : GoString) :
    Except Fault (Option GRPCRouteRule × Option GoString) := do
  let endpointToUse ← resolveEndpointToUse operation endpoint endpointType
  match endpointToUse with
  | some endpointToUse =>
    let grpcRouteRule : GRPCRouteRule :=
      { Matches := retrieveGRPCMatches operation,
        BackendRefs := generateGRPCBackEndRef endpointToUse operation }
    pure (some grpcRouteRule, none)
  | none => pure (none, some "invalid endpoint specified".toList)

/-- The body of the loop of `generateGRPCRouteRules`, on the rules gathered so far. -/
def grpcRouteRulesLoop (apkConf : APKConf) (endpoint : Option EndpointDetails)
    (endpointType : GoString) :
    List Operation → List GRPCRouteRule → Except Fault (List GRPCRouteRule × Option GoString)
  | [], grpcRouteRules => pure (grpcRouteRules, none)
  | operation :: rest, grpcRouteRules => do
    let result ← generateGRPCRouteRule apkConf operation endpoint endpointType
    match result with
    | (_, some err) => pure ([], some err)
    | (some grpcRouteRule, none) =>
      grpcRouteRulesLoop apkConf endpoint endpointType rest (grpcRouteRules ++ [grpcRouteRule])
    | (none, none) => throw .nilDereference

/-- The unexported generateGRPCRouteRules generates a list of GRPCRouteRules. -/
def generateGRPCRouteRules (apkConf : APKConf) (operations : List Operation)
    (endpoint : Option EndpointDetails) (endpointType : GoString) :
    Except Fault (List GRPCRouteRule × Option GoString) :=
  grpcRouteRulesLoop apkConf endpoint endpointType operations []

/-- GenerateGRPCRoute generates a GRPCRoute based on the provided configurations. -/
def GenerateGRPCRoute (apkConf : APKConf) (organization : Organization)
    (gatewayConfiguration : GatewayConfigurations) (operations : List Operation)
    (endpoint : Option EndpointDetails) (endpointType : GoString) (uniqueId : GoString)
    (count : Int) : Except Fault (Option GRPCRoute × Option GoString) := do
  let result ← generateGRPCRouteRules apkConf operations endpoint endpointType
  match result with
  | (_, some err) => pure (none, some err)
  | (grpcRouteRules, none) =>
    let grpcRoute : GRPCRoute :=
      { ObjectMeta :=
          { Name := uniqueId ++ "-".toList ++ endpointType ++ "-grpcroute-".toList ++ Itoa count },
        Spec :=
          { ParentRefs := grpcGenerateAndRetrieveParentRefs gatewayConfiguration uniqueId,
            Rules := grpcRouteRules,
            Hostnames := GetHostNames apkConf endpointType organization } }
    pure (some grpcRoute, none)

/-! ## Predicates of the specification -/

/-- The host `GetHost` returns for the text that follows the scheme: the text before the first
colon if there is a colon, else the text before the first slash, else all of it. -/
def hostOfRest (host : GoString) : GoString :=
  match indexChar ':' host with
  | some indexOfColon => host.take indexOfColon
  | none =>
    match indexChar '/' host with
    | some indexOfSlash => host.take indexOfSlash
    | none => host


/-- A redirect policy: a policy whose payload is a `RedirectPolicy`, which is what
`extractHTTPRouteFilter` dispatches on. -/
def isRedirectPolicy (policy : OperationPolicy) : Bool :=
  match policy.Parameters with
  | some (.redirectPolicy _) => true
  | _ => false

/-- A URLRewrite filter, by its type tag. -/
def isURLRewrite (filter : HTTPRouteFilter) : Bool := filter.Type_ = "URLRewrite".toList

/-- The request-direction list of the policies in effect for an operation. -/
def requestPoliciesInEffect (apkConf : APKConf) (operation : Operation) : List OperationPolicy :=
  match operationPoliciesToUse apkConf operation with
  | some policies => sliceOf policies.Request
  | none => []

/-- The response-direction list of the policies in effect for an operation. -/
def responsePoliciesInEffect (apkConf : APKConf) (operation : Operation) : List OperationPolicy :=
  match operationPoliciesToUse apkConf operation with
  | some policies => sliceOf policies.Response
  | none => []

/-- The filters of one direction, as `generateHTTPRouteFilters` obtains them: none for an empty
list, else those of `extractHTTPRouteFilter`. -/
def directionFilters (apkConf : APKConf) (endpoint : EndpointDetails) (operation : Operation)
    (policies : List OperationPolicy) (isRequest : Bool) : List HTTPRouteFilter :=
  if policies.length > 0 then
    (extractHTTPRouteFilter apkConf endpoint operation policies isRequest).1
  else []

/-! ## Templated paths, in the words of the specification -/

/-- A segment of a templated path: a literal, or a parameter written `{name}`. -/
inductive Segment where
  | literal (text : GoString)
  | parameter (name : GoString)
  deriving DecidableEq, Repr

/-- The text of a segment in an operation target. -/
def Segment.text : Segment → GoString
  | .literal text => text
  | .parameter name => '{' :: (name ++ ['}'])

/-- A well-formed segment: a literal is not empty and holds no slash, no brace and no white
space; the name of a parameter holds no slash and no line feed. -/
def Segment.wellFormed : Segment → Bool
  | .literal text =>
    !text.isEmpty && text.all (fun c => c != '/' && c != '{' && c != '}' && !isSpace c)
  | .parameter name => name.all (fun c => c != '/' && c != '\n')

/-- A segment whose literal text holds no backslash. -/
def Segment.backslashFree : Segment → Bool
  | .literal text => text.all (fun c => c != '\\')
  | .parameter _ => true

/-- The wildcard segment `*`. -/
def Segment.wildcard : Segment := .literal ['*']

/-- The segments in order, each preceded by a slash and written by `render`. -/
def renderPath (render : Segment → GoString) : List Segment → GoString
  | [] => []
  | segment :: rest => '/' :: (render segment ++ renderPath render rest)

/-- The operation target made of the segments, each preceded by a slash. -/
def targetOf (segments : List Segment) : GoString := renderPath Segment.text segments

/-- The operation target made of the segments separated by slashes, with or without a slash in
front of the first one. -/
def separatedTarget (leadingSlash : Bool) (segments : List Segment) : GoString :=
  if leadingSlash then targetOf segments else (targetOf segments).tail

/-- A segment in the match pattern: a parameter becomes the capture group `(.*)`. -/
def Segment.matchText : Segment → GoString
  | .literal text => text
  | .parameter _ => "(.*)".toList

/-- The segments in the rewrite expression, the parameters numbered from `index` on: the
parameter that comes `j`-th becomes the backreference `\j`. -/
def rewriteFrom : Int → List Segment → GoString
  | _, [] => []
  | index, .literal text :: rest => '/' :: (text ++ rewriteFrom index rest)
  | index, .parameter _ :: rest =>
    '/' :: (('\\' :: Itoa index) ++ rewriteFrom (index + 1) rest)

/-- A segment in the rewrite expression: a parameter becomes the backreference `\index`. -/
def Segment.rewriteText (index : Int) : Segment → GoString
  | .literal text => text
  | .parameter _ => '\\' :: Itoa index

/-- The number of parameter segments. -/
def paramCount : List Segment → Nat
  | [] => 0
  | .literal _ :: rest => paramCount rest
  | .parameter _ :: rest => paramCount rest + 1

/-- A decimal integer: an optional sign followed by at least one decimal digit. -/
def isDecimalInteger (s : GoString) : Bool :=
  let body := if s.head? = some '-' ∨ s.head? = some '+' then s.tail else s
  !body.isEmpty && body.all isDigit

/-- The mirror policy with the one URL `url`. -/
def mirrorPolicyOf (url : GoString) : OperationPolicy :=
  { PolicyName := "Mirror".toList, Parameters := some (.urlList { URLs := [url] }) }

/-! ## The filter chain, in the words of the specification -/

/-- The add-headers bucket: the headers of the `AddHeader` policies, in input order. -/
def addHeadersOf : List OperationPolicy → List HTTPHeader
  | [] => []
  | policy :: rest =>
    match policy.Parameters with
    | some (.header header) =>
      if policy.PolicyName = "AddHeader".toList then
        { Name := header.HeaderName, Value := header.HeaderValue } :: addHeadersOf rest
      else addHeadersOf rest
    | _ => addHeadersOf rest

/-- The set-headers bucket: the headers of the `SetHeader` policies, in input order. -/
def setHeadersOf : List OperationPolicy → List HTTPHeader
  | [] => []
  | policy :: rest =>
    match policy.Parameters with
    | some (.header header) =>
      if policy.PolicyName = "SetHeader".toList then
        { Name := header.HeaderName, Value := header.HeaderValue } :: setHeadersOf rest
      else setHeadersOf rest
    | _ => setHeadersOf rest

/-- The remove-headers bucket: the header names of the `RemoveHeader` policies, in input
order. -/
def removeHeadersOf : List OperationPolicy → List GoString
  | [] => []
  | policy :: rest =>
    match policy.Parameters with
    | some (.header header) =>
      if policy.PolicyName = "RemoveHeader".toList then
        header.HeaderName :: removeHeadersOf rest
      else removeHeadersOf rest
    | _ => removeHeadersOf rest

/-- The mirror filter of a rule: a RequestMirror filter whose backend is the service named after
the resolved endpoint. -/
def mirrorFilterOf (endpoint : EndpointDetails) : HTTPRouteFilter :=
  { Type_ := "RequestMirror".toList,
    RequestMirror := some
      { BackendRef := { Kind := some "Service".toList, Name := endpoint.Name } } }

/-- The mirror and redirect filters of one policy: a mirror filter for each URL with a usable
port, one redirect filter for a redirect payload, nothing otherwise. -/
def policyFiltersOf (endpoint : EndpointDetails) (policy : OperationPolicy) :
    List HTTPRouteFilter :=
  match policy.Parameters with
  | some (.urlList urlList) =>
    (urlList.URLs.filter (fun url => decide (GetPort (.str url) > 0))).map
      (fun _ => mirrorFilterOf endpoint)
  | some (.redirectPolicy redirect) => [redirectFilterOf redirect]
  | _ => []

/-- The mirror and redirect filters of a policy list, in input order. -/
def chainFiltersOf (endpoint : EndpointDetails) : List OperationPolicy → List HTTPRouteFilter
  | [] => []
  | policy :: rest => policyFiltersOf endpoint policy ++ chainFiltersOf endpoint rest

/-- A header-modifier filter, by its type tag. -/
def isHeaderModifier (filter : HTTPRouteFilter) : Bool :=
  filter.Type_ = "RequestHeaderModifier".toList ∨ filter.Type_ = "ResponseHeaderModifier".toList

/-- The header-modifier filter that combines the three buckets of a policy list, tagged for the
direction. -/
def headerModifierFilterOf (policies : List OperationPolicy) (isRequest : Bool) :
    HTTPRouteFilter :=
  if isRequest then
    { Type_ := "RequestHeaderModifier".toList,
      RequestHeaderModifier := some
        { Add := addHeadersOf policies, Set := setHeadersOf policies,
          Remove := removeHeadersOf policies } }
  else
    { Type_ := "ResponseHeaderModifier".toList,
      ResponseHeaderModifier := some
        { Add := addHeadersOf policies, Set := setHeadersOf policies,
          Remove := removeHeadersOf policies } }

/-- Whether one of the three header buckets of a policy list holds an entry. -/
def hasHeaderEntries (policies : List OperationPolicy) : Bool :=
  !(addHeadersOf policies).isEmpty || !(setHeadersOf policies).isEmpty ||
    !(removeHeadersOf policies).isEmpty

/-- A policy that `extractHTTPRouteFilter` acts on: a header payload under one of the three
header policy names, a URL list, or a redirect payload. -/
def isRecognised (policy : OperationPolicy) : Bool :=
  match policy.Parameters with
  | some (.header _) =>
    policy.PolicyName = "AddHeader".toList ∨ policy.PolicyName = "SetHeader".toList ∨
      policy.PolicyName = "RemoveHeader".toList
  | some (.urlList _) => true
  | some (.redirectPolicy _) => true
  | _ => false

/-- The change of direction of a filter: a request header modifier becomes the response header
modifier with the same headers, every other filter stays. -/
def toResponseDirection (filter : HTTPRouteFilter) : HTTPRouteFilter :=
  if filter.Type_ = "RequestHeaderModifier".toList then
    { filter with
      Type_ := "ResponseHeaderModifier".toList,
      ResponseHeaderModifier := filter.RequestHeaderModifier,
      RequestHeaderModifier := none }
  else filter

/-! ## Concrete inputs -/

/-- A redirect policy to `http://example.com/moved` with status code 301. -/
def redirectToExample : OperationPolicy :=
  { PolicyName := "Redirect".toList,
    Parameters := some (.redirectPolicy
      { URL := "http://example.com/moved".toList, StatusCode := 301 }) }

/-- An `AddHeader` policy that adds the header `X-Env: prod`. -/
def addEnvHeader : OperationPolicy :=
  { PolicyName := "AddHeader".toList,
    Parameters := some (.header
      { HeaderName := "X-Env".toList, HeaderValue := "prod".toList }) }

/-- The contract of the tests of the repository, without its operations. -/
def employeeConf : APKConf :=
  { Name := "EmployeeServiceAPI".toList, Version := "3.14".toList,
    BasePath := "/employees-info".toList, Type_ := "REST".toList,
    EndpointConfigurations := some
      { Production := some
          { Endpoint := some (.EndpointURL "http://employee-service:8080".toList) } } }

/-- The endpoint the tests resolve from `employeeConf`. -/
def employeeEndpoint : EndpointDetails := { Name := "employee-service".toList }

/-- `GET /employees` with a redirect policy in the response direction only. -/
def opRedirectInResponse : Operation :=
  { Target := "/employees".toList, Verb := "GET".toList,
    OperationPolicies := some { Response := some [redirectToExample] } }

/-- `GET /employees` with a redirect policy in the request direction. -/
def opRedirectInRequest : Operation :=
  { Target := "/employees".toList, Verb := "GET".toList,
    OperationPolicies := some { Request := some [redirectToExample] } }

/-- `GET /employees` with an `AddHeader` policy in the request direction. -/
def opAddHeader : Operation :=
  { Target := "/employees".toList, Verb := "GET".toList,
    OperationPolicies := some { Request := some [addEnvHeader] } }

/-- `GET /employees` without policies and without endpoint configurations. -/
def opPlain : Operation := { Target := "/employees".toList, Verb := "GET".toList }

/-- The contract `employeeConf` with an `AddHeader` policy at the contract level. -/
def confWithApiPolicies : APKConf :=
  { employeeConf with APIPolicies := some { Request := some [addEnvHeader] } }

/-- The contract `employeeConf` with contract-level policies that are present but hold neither a
request nor a response list. -/
def confWithEmptyApiPolicies : APKConf := { employeeConf with APIPolicies := some {} }

/-- `GET /employees` with an operation-level endpoint for the sandbox only. -/
def opSandboxOnly : Operation :=
  { Target := "/employees".toList, Verb := "GET".toList,
    EndpointConfigurations := some
      { Sandbox := some { Endpoint := some (.EndpointURL "http://sandbox-service:8080".toList) } } }

/-- `POST /employee` with an operation-level production endpoint. -/
def opOwnProduction : Operation :=
  { Target := "/employee".toList, Verb := "POST".toList,
    EndpointConfigurations := some
      { Production := some
          { Endpoint := some (.EndpointURL "https://writer-service:8443/v1".toList) } } }

/-- The gateway of the tests of the repository. -/
def testGateway : GatewayConfigurations :=
  { Name := "wso2-apim".toList, ListenerName := "wso2-apim-gateway".toList,
    Hostname := "wso2-apim".toList }

/-- The organization of the tests of the repository. -/
def testOrganization : Organization := { Name := "wso2".toList }

/-- The four operations of the contract of the tests. -/
def employeeOperations : List Operation :=
  [{ Target := "/employees".toList, Verb := "GET".toList, Secured := true },
   { Target := "/employee".toList, Verb := "POST".toList, Secured := true },
   { Target := "/employee/{employeeId}".toList, Verb := "PUT".toList, Secured := true },
   { Target := "/employee/{employeeId}".toList, Verb := "DELETE".toList, Secured := true }]

/-- The contract of the tests, with its operations and its rate limit. -/
def employeeContract : APKConf :=
  { employeeConf with
    Operations := some employeeOperations,
    RateLimit := some { Unit := "Minute".toList, RequestsPerUnit := 5 } }

/-- The rule expected for an operation of the contract of the tests: one match on the verb and
the path pattern, one URLRewrite filter, one backend reference to `employee-service`. -/
def employeeRule (verb pathValue rewrite : GoString) : HTTPRouteRule :=
  { Matches :=
      [{ Method := some verb,
         Path := some { Type_ := some "RegularExpression".toList, Value := some pathValue } }],
    Filters :=
      [{ Type_ := "URLRewrite".toList,
         URLRewrite := some
           { Path := some { Type_ := "ReplaceFullPath".toList,
                            ReplaceFullPath := some rewrite } } }],
    BackendRefs := [{ Kind := some "Service".toList, Name := "employee-service".toList }] }

/-- The four rules expected for the contract of the tests. -/
def employeeRules : List HTTPRouteRule :=
  [employeeRule "GET".toList "/employees-info/employees".toList "/employees".toList,
   employeeRule "POST".toList "/employees-info/employee".toList "/employee".toList,
   employeeRule "PUT".toList "/employees-info/employee/(.*)".toList ['/', 'e', 'm', 'p', 'l',
     'o', 'y', 'e', 'e', '/', '\\', '1'],
   employeeRule "DELETE".toList "/employees-info/employee/(.*)".toList ['/', 'e', 'm', 'p', 'l',
     'o', 'y', 'e', 'e', '/', '\\', '1']]

/-- An in-cluster service: `http://orders.shop.svc.cluster.local:8080`. -/
def ordersService : K8sService :=
  { Name := "orders".toList, Namespace := "shop".toList, Port := "8080".toList,
    Protocol := "http".toList }

/-- An in-cluster service whose port is the decimal writing of `2 ^ 63`. -/
def hugePortService : K8sService :=
  { Name := "orders".toList, Namespace := "shop".toList,
    Port := "9223372036854775808".toList, Protocol := "http".toList }

/-- A `SetHeader` policy that sets the header `X-Env: test`. -/
def setEnvHeader : OperationPolicy :=
  { PolicyName := "SetHeader".toList,
    Parameters := some (.header
      { HeaderName := "X-Env".toList, HeaderValue := "test".toList }) }

/-- A `RemoveHeader` policy that removes the header `X-Debug`. -/
def removeDebugHeader : OperationPolicy :=
  { PolicyName := "RemoveHeader".toList,
    Parameters := some (.header { HeaderName := "X-Debug".toList }) }

/-- A mirror policy with three URLs, of which the second has no usable port. -/
def mirrorThreeUrls : OperationPolicy :=
  { PolicyName := "Mirror".toList,
    Parameters := some (.urlList
      { URLs := ["http://mirror-a:8080".toList, "mirror-b".toList,
                 "https://mirror-c/copy".toList] }) }

/-- A redirect policy whose URL has no scheme, hence no usable port. -/
def redirectWithoutScheme : OperationPolicy :=
  { PolicyName := "Redirect".toList,
    Parameters := some (.redirectPolicy { URL := "example.com/moved".toList, StatusCode := 301 }) }

/-- `GET /employees` with the redirect policy without scheme in the request direction. -/
def opRedirectWithoutScheme : Operation :=
  { Target := "/employees".toList, Verb := "GET".toList,
    OperationPolicies := some { Request := some [redirectWithoutScheme] } }

/-- A policy with an interceptor payload, which `extractHTTPRouteFilter` does not act on. -/
def interceptorPolicy : OperationPolicy :=
  { PolicyName := "Interceptor".toList,
    Parameters := some (.interceptorService { BackendURL := "http://interceptor:9081".toList }) }

/-! ## Lemmas on the filter chain -/

theorem extractStep_hasRedirectPolicy (endpoint : EndpointDetails) (operation : Operation)
    (st : ExtractState) (policy : OperationPolicy) :
    (extractStep endpoint operation st policy).hasRedirectPolicy =
      (st.hasRedirectPolicy || isRedirectPolicy policy) := by
  obtain ⟨name, version, id, parameters⟩ := policy
  unfold extractStep isRedirectPolicy
  rcases parameters with _ | p
  · simp
  · cases p <;> simp
    split_ifs <;> rfl

theorem foldl_extractStep_hasRedirectPolicy (endpoint : EndpointDetails) (operation : Operation)
    (policies : List OperationPolicy) (st : ExtractState) :
    (policies.foldl (extractStep endpoint operation) st).hasRedirectPolicy =
      (st.hasRedirectPolicy || policies.any isRedirectPolicy) := by
  induction policies generalizing st with
  | nil => simp
  | cons policy rest ih =>
    simp only [List.foldl_cons, ih, extractStep_hasRedirectPolicy, List.any_cons, Bool.or_assoc]

/-- The flag returned by `extractHTTPRouteFilter` tells whether the list holds a redirect policy. -/
theorem extractHTTPRouteFilter_snd (apkConf : APKConf) (endpoint : EndpointDetails)
    (operation : Operation) (policies : List OperationPolicy) (isRequest : Bool) :
    (extractHTTPRouteFilter apkConf endpoint operation policies isRequest).2 =
      policies.any isRedirectPolicy := by
  simp [extractHTTPRouteFilter, foldl_extractStep_hasRedirectPolicy]

theorem mirrorStep_noRewrite (endpoint : EndpointDetails) (operation : Operation)
    (filters : List HTTPRouteFilter) (url : GoString)
    (h : ∀ f ∈ filters, isURLRewrite f = false) :
    ∀ f ∈ mirrorStep endpoint operation filters url, isURLRewrite f = false := by
  unfold mirrorStep
  simp only [generateHTTPBackEndRef]
  split_ifs
  · intro f hf
    rcases List.mem_append.mp hf with hf | hf
    · exact h f hf
    · rw [List.mem_singleton.mp hf]; rfl
  · exact h

theorem foldl_mirrorStep_noRewrite (endpoint : EndpointDetails) (operation : Operation)
    (urls : List GoString) (filters : List HTTPRouteFilter)
    (h : ∀ f ∈ filters, isURLRewrite f = false) :
    ∀ f ∈ urls.foldl (mirrorStep endpoint operation) filters, isURLRewrite f = false := by
  induction urls generalizing filters with
  | nil => simpa using h
  | cons url rest ih =>
    exact ih _ (mirrorStep_noRewrite endpoint operation filters url h)

theorem redirectFilterOf_type (policyParameters : RedirectPolicy) :
    (redirectFilterOf policyParameters).Type_ = "RequestRedirect".toList := by
  unfold redirectFilterOf
  simp only
  split_ifs <;> rfl

theorem extractStep_noRewrite (endpoint : EndpointDetails) (operation : Operation)
    (st : ExtractState) (policy : OperationPolicy)
    (h : ∀ f ∈ st.httpRouteFilters, isURLRewrite f = false) :
    ∀ f ∈ (extractStep endpoint operation st policy).httpRouteFilters,
      isURLRewrite f = false := by
  unfold extractStep
  split
  · split_ifs <;> exact h
  · exact foldl_mirrorStep_noRewrite endpoint operation _ _ h
  · intro f hf
    rcases List.mem_append.mp hf with hf | hf
    · exact h f hf
    · rw [List.mem_singleton.mp hf]
      simp [isURLRewrite, redirectFilterOf_type]
  · exact h

theorem foldl_extractStep_noRewrite (endpoint : EndpointDetails) (operation : Operation)
    (policies : List OperationPolicy) (st : ExtractState)
    (h : ∀ f ∈ st.httpRouteFilters, isURLRewrite f = false) :
    ∀ f ∈ (policies.foldl (extractStep endpoint operation) st).httpRouteFilters,
      isURLRewrite f = false := by
  induction policies generalizing st with
  | nil => simpa using h
  | cons policy rest ih =>
    exact ih _ (extractStep_noRewrite endpoint operation st policy h)

/-- No filter returned by `extractHTTPRouteFilter` is a URLRewrite filter. -/
theorem extractHTTPRouteFilter_noRewrite (apkConf : APKConf) (endpoint : EndpointDetails)
    (operation : Operation) (policies : List OperationPolicy) (isRequest : Bool) :
    ∀ f ∈ (extractHTTPRouteFilter apkConf endpoint operation policies isRequest).1,
      isURLRewrite f = false := by
  have base : ∀ f ∈ (policies.foldl (extractStep endpoint operation) {}).httpRouteFilters,
      isURLRewrite f = false :=
    foldl_extractStep_noRewrite endpoint operation policies {} (by simp)
  unfold extractHTTPRouteFilter
  simp only
  split_ifs <;> intro f hf <;>
    first
    | exact base f hf
    | (rcases List.mem_append.mp hf with hf | hf
       · exact base f hf
       · rw [List.mem_singleton.mp hf]; rfl)

theorem directionFilters_noRewrite (apkConf : APKConf) (endpoint : EndpointDetails)
    (operation : Operation) (policies : List OperationPolicy) (isRequest : Bool) :
    ∀ f ∈ directionFilters apkConf endpoint operation policies isRequest,
      isURLRewrite f = false := by
  unfold directionFilters
  split_ifs
  · exact extractHTTPRouteFilter_noRewrite apkConf endpoint operation policies isRequest
  · simp

/-- The result of `generateHTTPRouteFilters`, in one expression: the request filters, the response
filters and, unless the request list in effect holds a redirect policy, the URLRewrite filter. -/
theorem generateHTTPRouteFilters_eq (apkConf : APKConf) (endpointToUse : EndpointDetails)
    (operation : Operation) (endpointType : GoString) :
    generateHTTPRouteFilters apkConf endpointToUse operation endpointType =
      (directionFilters apkConf endpointToUse operation
          (requestPoliciesInEffect apkConf operation) true ++
        directionFilters apkConf endpointToUse operation
          (responsePoliciesInEffect apkConf operation) false ++
        (if (requestPoliciesInEffect apkConf operation).any isRedirectPolicy then []
          else [replacePathFilterOf (GeneratePrefixMatch endpointToUse operation)]),
       (requestPoliciesInEffect apkConf operation).any isRedirectPolicy) := by
  unfold generateHTTPRouteFilters requestPoliciesInEffect responsePoliciesInEffect
    directionFilters
  cases hp : operationPoliciesToUse apkConf operation with
  | none => simp
  | some policies =>
    simp only [extractHTTPRouteFilter_snd, List.nil_append]
    by_cases hreq : (sliceOf policies.Request).length > 0 <;>
      by_cases hresp : (sliceOf policies.Response).length > 0 <;>
      simp only [hreq, hresp, if_true, if_false] <;>
      by_cases hany : List.any (sliceOf policies.Request) isRedirectPolicy = true <;>
      simp [hany]
    all_goals
      have : sliceOf policies.Request = [] := by simpa using hreq
      simp [this] at hany

/-! ## Lemmas on rule generation -/

/-- The rule `generateHTTPRouteRule` returns once the endpoint is resolved. -/
theorem generateHTTPRouteRule_of_resolved (apkConf : APKConf) (operation : Operation)
    (endpoint : Option EndpointDetails) (endpointType : GoString)
    (endpointToUse : EndpointDetails)
    (h : resolveEndpointToUse operation endpoint endpointType = .ok (some endpointToUse)) :
    generateHTTPRouteRule apkConf operation endpoint endpointType =
      .ok (some
        { Matches := [(retrieveHTTPMatch apkConf operation).1],
          Filters := (generateHTTPRouteFilters apkConf endpointToUse operation endpointType).1,
          BackendRefs :=
            if (generateHTTPRouteFilters apkConf endpointToUse operation endpointType).2 then []
            else generateHTTPBackEndRef endpointToUse operation endpointType }, none) := by
  unfold generateHTTPRouteRule
  rw [h]
  simp only [retrieveHTTPMatches, retrieveHTTPMatch, bind, Except.bind, pure, Except.pure]
  cases (generateHTTPRouteFilters apkConf endpointToUse operation endpointType).2 <;> simp

/-- Without a resolved endpoint `generateHTTPRouteRule` returns the error. -/
theorem generateHTTPRouteRule_of_unresolved (apkConf : APKConf) (operation : Operation)
    (endpoint : Option EndpointDetails) (endpointType : GoString)
    (h : resolveEndpointToUse operation endpoint endpointType = .ok none) :
    generateHTTPRouteRule apkConf operation endpoint endpointType =
      .ok (none, some "invalid endpoint specified".toList) := by
  unfold generateHTTPRouteRule
  rw [h]
  rfl

theorem generateGRPCRouteRule_of_resolved (apkConf : APKConf) (operation : Operation)
    (endpoint : Option EndpointDetails) (endpointType : GoString)
    (endpointToUse : EndpointDetails)
    (h : resolveEndpointToUse operation endpoint endpointType = .ok (some endpointToUse)) :
    generateGRPCRouteRule apkConf operation endpoint endpointType =
      .ok (some
        { Matches := retrieveGRPCMatches operation,
          BackendRefs := generateGRPCBackEndRef endpointToUse operation }, none) := by
  unfold generateGRPCRouteRule
  rw [h]
  rfl

theorem generateGRPCRouteRule_of_unresolved (apkConf : APKConf) (operation : Operation)
    (endpoint : Option EndpointDetails) (endpointType : GoString)
    (h : resolveEndpointToUse operation endpoint endpointType = .ok none) :
    generateGRPCRouteRule apkConf operation endpoint endpointType =
      .ok (none, some "invalid endpoint specified".toList) := by
  unfold generateGRPCRouteRule
  rw [h]
  rfl

/-- An operation without endpoint configurations resolves to the endpoint of the caller. -/
theorem resolveEndpointToUse_of_noConfig (operation : Operation)
    (endpoint : Option EndpointDetails) (endpointType : GoString)
    (h : operation.EndpointConfigurations = none) :
    resolveEndpointToUse operation endpoint endpointType = .ok endpoint := by
  unfold resolveEndpointToUse GetEndpointToUse
  rw [h]
  cases endpoint <;> rfl

/-! ## Lemmas on the independence of the operation-level policies -/

theorem extractHTTPRouteFilter_operation_irrelevant (apkConf : APKConf)
    (endpoint : EndpointDetails) (operation operation2 : Operation)
    (policies : List OperationPolicy) (isRequest : Bool) :
    extractHTTPRouteFilter apkConf endpoint operation policies isRequest =
      extractHTTPRouteFilter apkConf endpoint operation2 policies isRequest := by
  have hstep : extractStep endpoint operation = extractStep endpoint operation2 := by
    funext st policy
    rfl
  unfold extractHTTPRouteFilter
  rw [hstep]

theorem directionFilters_operation_irrelevant (apkConf : APKConf)
    (endpoint : EndpointDetails) (operation operation2 : Operation)
    (policies : List OperationPolicy) (isRequest : Bool) :
    directionFilters apkConf endpoint operation policies isRequest =
      directionFilters apkConf endpoint operation2 policies isRequest := by
  unfold directionFilters
  rw [extractHTTPRouteFilter_operation_irrelevant apkConf endpoint operation operation2]

/-! ## Lemmas on endpoint resolution -/

/-- An operation with a production endpoint resolves, for the type `production`, to that
endpoint, whatever the caller supplies. -/
theorem resolveEndpointToUse_production (operation : Operation)
    (configs : EndpointConfigurations) (production : EndpointConfiguration)
    (endpoint : Option EndpointDetails)
    (hcfg : operation.EndpointConfigurations = some configs)
    (hprod : configs.Production = some production) :
    resolveEndpointToUse operation endpoint PRODUCTION_TYPE =
      .ok (some
        { Name := GetHost production.Endpoint,
          URL := ConstructURlFromK8sService (AnyValue.ofEndpoint production.Endpoint) }) := by
  have hne : PRODUCTION_TYPE ≠ SANDBOX_TYPE := by decide
  unfold resolveEndpointToUse GetEndpointToUse createEndpoints
  rw [hcfg]
  simp only [hprod, derefEndpoint, hne, bind, Except.bind, pure, Except.pure]
  rcases configs.Sandbox with _ | sandbox <;>
    simp [EndpointMap.set, EndpointMap.get?, derefEndpoint, hne, hne.symm]

/-! ## Lemmas on the loops over the operations -/

theorem httpRouteRulesLoop_success (apkConf : APKConf) (endpoint : Option EndpointDetails)
    (endpointType : GoString) (operations : List Operation)
    (h : ∀ o ∈ operations, ∃ r,
      generateHTTPRouteRule apkConf o endpoint endpointType = .ok (some r, none)) :
    ∃ rules,
      List.Forall₂
        (fun o r => generateHTTPRouteRule apkConf o endpoint endpointType = .ok (some r, none))
        operations rules ∧
      ∀ acc, httpRouteRulesLoop apkConf endpoint endpointType operations acc =
        .ok (acc ++ rules, none) := by
  induction operations with
  | nil => exact ⟨[], List.Forall₂.nil, fun acc => by simp [httpRouteRulesLoop, pure, Except.pure]⟩
  | cons o rest ih =>
    obtain ⟨r, hr⟩ := h o (List.mem_cons_self o rest)
    obtain ⟨rules, hrules, hloop⟩ := ih (fun o2 ho2 => h o2 (List.mem_cons_of_mem o ho2))
    refine ⟨r :: rules, List.Forall₂.cons hr hrules, fun acc => ?_⟩
    simp [httpRouteRulesLoop, hr, hloop, bind, Except.bind]

theorem httpRouteRulesLoop_failure (apkConf : APKConf) (endpoint : Option EndpointDetails)
    (endpointType : GoString) (before after : List Operation) (operation : Operation)
    (rule : Option HTTPRouteRule) (err : GoString)
    (hbefore : ∀ o ∈ before, ∃ r,
      generateHTTPRouteRule apkConf o endpoint endpointType = .ok (some r, none))
    (hfail : generateHTTPRouteRule apkConf operation endpoint endpointType = .ok (rule, some err))
    (acc : List HTTPRouteRule) :
    httpRouteRulesLoop apkConf endpoint endpointType (before ++ operation :: after) acc =
      .ok ([], some err) := by
  induction before generalizing acc with
  | nil => simp [httpRouteRulesLoop, hfail, bind, Except.bind, pure, Except.pure]
  | cons o rest ih =>
    obtain ⟨r, hr⟩ := hbefore o (List.mem_cons_self o rest)
    have := ih (fun o2 ho2 => hbefore o2 (List.mem_cons_of_mem o ho2)) (acc ++ [r])
    simpa [httpRouteRulesLoop, hr, bind, Except.bind] using this

theorem grpcRouteRulesLoop_success (apkConf : APKConf) (endpoint : Option EndpointDetails)
    (endpointType : GoString) (operations : List Operation)
    (h : ∀ o ∈ operations, ∃ r,
      generateGRPCRouteRule apkConf o endpoint endpointType = .ok (some r, none)) :
    ∃ rules,
      List.Forall₂
        (fun o r => generateGRPCRouteRule apkConf o endpoint endpointType = .ok (some r, none))
        operations rules ∧
      ∀ acc, grpcRouteRulesLoop apkConf endpoint endpointType operations acc =
        .ok (acc ++ rules, none) := by
  induction operations with
  | nil => exact ⟨[], List.Forall₂.nil, fun acc => by simp [grpcRouteRulesLoop, pure, Except.pure]⟩
  | cons o rest ih =>
    obtain ⟨r, hr⟩ := h o (List.mem_cons_self o rest)
    obtain ⟨rules, hrules, hloop⟩ := ih (fun o2 ho2 => h o2 (List.mem_cons_of_mem o ho2))
    refine ⟨r :: rules, List.Forall₂.cons hr hrules, fun acc => ?_⟩
    simp [grpcRouteRulesLoop, hr, hloop, bind, Except.bind]

/-! ## The claims -/

/-- When the request-direction list that `generateHTTPRouteFilters` selects for an operation
holds a redirect policy and an endpoint is resolved, `generateHTTPRouteRule` returns a rule
without backend reference and without URLRewrite filter. -/
theorem generateHTTPRouteRule_request_redirect (apkConf : APKConf)
    (operation : Operation) (endpoint : Option EndpointDetails) (endpointType : GoString)
    (endpointToUse : EndpointDetails)
    (hres : resolveEndpointToUse operation endpoint endpointType = .ok (some endpointToUse))
    (hred : (requestPoliciesInEffect apkConf operation).any isRedirectPolicy = true) :
    ∃ rule, generateHTTPRouteRule apkConf operation endpoint endpointType = .ok (some rule, none) ∧
      rule.BackendRefs = [] ∧ ∀ f ∈ rule.Filters, isURLRewrite f = false := by
  refine ⟨_, generateHTTPRouteRule_of_resolved apkConf operation endpoint endpointType
    endpointToUse hres, ?_, ?_⟩
  · simp [generateHTTPRouteFilters_eq, hred]
  · intro f hf
    simp only [generateHTTPRouteFilters_eq, hred, if_true, List.append_nil,
      List.mem_append] at hf
    rcases hf with hf | hf
    · exact directionFilters_noRewrite _ _ _ _ _ f hf
    · exact directionFilters_noRewrite _ _ _ _ _ f hf

/-- C1, the code at the failing input.  With a redirect policy in the response-direction list
only, the response-direction call of `extractHTTPRouteFilter` reports the redirect, but
`generateHTTPRouteFilters` drops that flag and reports none: the rule of `generateHTTPRouteRule`
keeps its URLRewrite filter and its backend reference next to the redirect filter, which the
claim excludes.  The same policy in the request-direction list gives the rule of the claim: the
redirect filter alone and no backend reference. -/
theorem C1_response_redirect_keeps_backend_and_rewrite :
    (responsePoliciesInEffect employeeConf opRedirectInResponse).any isRedirectPolicy = true ∧
    (extractHTTPRouteFilter employeeConf employeeEndpoint opRedirectInResponse
        [redirectToExample] false).2 = true ∧
    (generateHTTPRouteFilters employeeConf employeeEndpoint opRedirectInResponse
        PRODUCTION_TYPE).2 = false ∧
    generateHTTPRouteRule employeeConf opRedirectInResponse (some employeeEndpoint)
        PRODUCTION_TYPE =
      .ok (some
        { Matches :=
            [{ Method := some "GET".toList,
               Path := some { Type_ := some "RegularExpression".toList,
                              Value := some "/employees-info/employees".toList } }],
          Filters :=
            [{ Type_ := "RequestRedirect".toList,
               RequestRedirect := some
                 { Scheme := some "http".toList, Hostname := some "example.com".toList,
                   Path := some { Type_ := "ReplaceFullPath".toList,
                                  ReplaceFullPath := some "/moved".toList },
                   StatusCode := some 301 } },
             { Type_ := "URLRewrite".toList,
               URLRewrite := some
                 { Path := some { Type_ := "ReplaceFullPath".toList,
                                  ReplaceFullPath := some "/employees".toList } } }],
          BackendRefs :=
            [{ Kind := some "Service".toList, Name := "employee-service".toList }] }, none) ∧
    generateHTTPRouteRule employeeConf opRedirectInRequest (some employeeEndpoint)
        PRODUCTION_TYPE =
      .ok (some
        { Matches :=
            [{ Method := some "GET".toList,
               Path := some { Type_ := some "RegularExpression".toList,
                              Value := some "/employees-info/employees".toList } }],
          Filters :=
            [{ Type_ := "RequestRedirect".toList,
               RequestRedirect := some
                 { Scheme := some "http".toList, Hostname := some "example.com".toList,
                   Path := some { Type_ := "ReplaceFullPath".toList,
                                  ReplaceFullPath := some "/moved".toList },
                   StatusCode := some 301 } }],
          BackendRefs := [] }, none) := by
  decide

/-- C2.  When the policies in effect for an operation hold no redirect policy in either direction
and an endpoint is resolved, `generateHTTPRouteFilters` reports no redirect, the filters of the
rule hold exactly one URLRewrite filter, which replaces the full path by the rewrite expression of
the operation, and the rule has exactly one backend reference, which names the endpoint. -/
theorem C2_no_redirect_one_rewrite_one_backend (apkConf : APKConf)
    (operation : Operation) (endpoint : Option EndpointDetails) (endpointType : GoString)
    (endpointToUse : EndpointDetails)
    (hres : resolveEndpointToUse operation endpoint endpointType = .ok (some endpointToUse))
    (hreq : (requestPoliciesInEffect apkConf operation).any isRedirectPolicy = false)
    (_hresp : (responsePoliciesInEffect apkConf operation).any isRedirectPolicy = false) :
    (generateHTTPRouteFilters apkConf endpointToUse operation endpointType).2 = false ∧
    ∃ rule, generateHTTPRouteRule apkConf operation endpoint endpointType = .ok (some rule, none) ∧
      rule.Filters.filter isURLRewrite =
        [{ Type_ := "URLRewrite".toList,
           URLRewrite := some
             { Path := some
                 { Type_ := "ReplaceFullPath".toList,
                   ReplaceFullPath := some (GeneratePrefixMatch endpointToUse operation) } } }] ∧
      rule.BackendRefs = [{ Kind := some "Service".toList, Name := endpointToUse.Name }] := by
  refine ⟨by simp [generateHTTPRouteFilters_eq, hreq], _,
    generateHTTPRouteRule_of_resolved apkConf operation endpoint endpointType endpointToUse hres,
    ?_, ?_⟩
  · have h1 := directionFilters_noRewrite apkConf endpointToUse operation
      (requestPoliciesInEffect apkConf operation) true
    have h2 := directionFilters_noRewrite apkConf endpointToUse operation
      (responsePoliciesInEffect apkConf operation) false
    simp only [generateHTTPRouteFilters_eq, hreq, List.filter_append]
    rw [List.filter_eq_nil_iff.mpr (fun f hf => by simp [h1 f hf]),
      List.filter_eq_nil_iff.mpr (fun f hf => by simp [h2 f hf])]
    rfl
  · simp [generateHTTPRouteFilters_eq, hreq, generateHTTPBackEndRef]

/-- Witness of C2: `GET /employees` with an `AddHeader` policy only. -/
theorem C2_no_redirect_witness :
    (generateHTTPRouteFilters employeeConf employeeEndpoint opAddHeader PRODUCTION_TYPE).2 =
      false ∧
    ∃ rule, generateHTTPRouteRule employeeConf opAddHeader (some employeeEndpoint)
        PRODUCTION_TYPE = .ok (some rule, none) ∧
      rule.Filters.filter isURLRewrite =
        [{ Type_ := "URLRewrite".toList,
           URLRewrite := some
             { Path := some
                 { Type_ := "ReplaceFullPath".toList,
                   ReplaceFullPath := some (GeneratePrefixMatch employeeEndpoint opAddHeader) } } }] ∧
      rule.BackendRefs = [{ Kind := some "Service".toList, Name := employeeEndpoint.Name }] :=
  C2_no_redirect_one_rewrite_one_backend employeeConf opAddHeader (some employeeEndpoint)
    PRODUCTION_TYPE employeeEndpoint (by decide) (by decide) (by decide)

/-- C3.  When the contract-level policies hold at least one request or response entry, two
operations that differ only in their operation-level policies get the same filters and the same
redirect flag from `generateHTTPRouteFilters`. -/
theorem C3_api_policies_override_operation_policies (apkConf : APKConf)
    (apiPolicies : OperationPolicies) (endpointToUse : EndpointDetails) (operation : Operation)
    (endpointType : GoString) (policies1 policies2 : Option OperationPolicies)
    (hapi : apkConf.APIPolicies = some apiPolicies)
    (hentry : 0 < (sliceOf apiPolicies.Request).length ∨
      0 < (sliceOf apiPolicies.Response).length) :
    generateHTTPRouteFilters apkConf endpointToUse
        { operation with OperationPolicies := policies1 } endpointType =
      generateHTTPRouteFilters apkConf endpointToUse
        { operation with OperationPolicies := policies2 } endpointType := by
  have huse : ∀ o : Operation, operationPoliciesToUse apkConf o = some apiPolicies := by
    intro o
    unfold operationPoliciesToUse
    rw [hapi]
    have : apiPolicies.Request ≠ none ∨ apiPolicies.Response ≠ none := by
      rcases hentry with h | h
      · left; intro hn; rw [hn] at h; simp [sliceOf] at h
      · right; intro hn; rw [hn] at h; simp [sliceOf] at h
    simp [this]
  simp only [generateHTTPRouteFilters_eq, requestPoliciesInEffect, responsePoliciesInEffect,
    huse]
  rw [directionFilters_operation_irrelevant apkConf endpointToUse
      { operation with OperationPolicies := policies1 }
      { operation with OperationPolicies := policies2 },
    directionFilters_operation_irrelevant apkConf endpointToUse
      { operation with OperationPolicies := policies1 }
      { operation with OperationPolicies := policies2 }]
  rfl

/-- Witness of C3: a contract-level `AddHeader` policy against an operation-level redirect. -/
theorem C3_api_policies_witness :
    generateHTTPRouteFilters confWithApiPolicies employeeEndpoint
        { opPlain with OperationPolicies := some { Request := some [redirectToExample] } }
        PRODUCTION_TYPE =
      generateHTTPRouteFilters confWithApiPolicies employeeEndpoint
        { opPlain with OperationPolicies := none } PRODUCTION_TYPE :=
  C3_api_policies_override_operation_policies confWithApiPolicies
    { Request := some [addEnvHeader] } employeeEndpoint opPlain PRODUCTION_TYPE
    (some { Request := some [redirectToExample] }) none rfl (by decide)

/-- C4, the code at the failing input.  With contract-level policies that are present but hold
neither list, `generateHTTPRouteFilters` returns the URLRewrite filter alone and drops the
`AddHeader` policy of the operation, whose header modifier the claim puts first. -/
theorem C4_empty_api_policies_drop_operation_policies :
    generateHTTPRouteFilters confWithEmptyApiPolicies employeeEndpoint opAddHeader
        PRODUCTION_TYPE =
      ([{ Type_ := "URLRewrite".toList,
          URLRewrite := some
            { Path := some { Type_ := "ReplaceFullPath".toList,
                             ReplaceFullPath := some "/employees".toList } } }], false) ∧
    generateHTTPRouteFilters employeeConf employeeEndpoint opAddHeader PRODUCTION_TYPE =
      ([{ Type_ := "RequestHeaderModifier".toList,
          RequestHeaderModifier := some
            { Add := [{ Name := "X-Env".toList, Value := "prod".toList }] } },
        { Type_ := "URLRewrite".toList,
          URLRewrite := some
            { Path := some { Type_ := "ReplaceFullPath".toList,
                             ReplaceFullPath := some "/employees".toList } } }], false) ∧
    (generateHTTPRouteFilters confWithEmptyApiPolicies employeeEndpoint opAddHeader
        PRODUCTION_TYPE).1 ≠
      directionFilters confWithEmptyApiPolicies employeeEndpoint opAddHeader [addEnvHeader] true ++
        directionFilters confWithEmptyApiPolicies employeeEndpoint opAddHeader [] false ++
        [replacePathFilterOf (GeneratePrefixMatch employeeEndpoint opAddHeader)] := by
  decide

/-- C5.  When the operation has a production endpoint of its own and the policies in effect hold
no redirect policy, the rules that `generateHTTPRouteRule` and `generateGRPCRouteRule` build for the
type `production` have a single backend reference, named after the host of that endpoint,
whatever fallback endpoint the caller supplies. -/
theorem C5_operation_endpoint_wins (apkConf : APKConf) (operation : Operation)
    (configs : EndpointConfigurations) (production : EndpointConfiguration)
    (fallback : Option EndpointDetails)
    (hcfg : operation.EndpointConfigurations = some configs)
    (hprod : configs.Production = some production)
    (hreq : (requestPoliciesInEffect apkConf operation).any isRedirectPolicy = false)
    (_hresp : (responsePoliciesInEffect apkConf operation).any isRedirectPolicy = false) :
    (∃ rule, generateHTTPRouteRule apkConf operation fallback PRODUCTION_TYPE =
        .ok (some rule, none) ∧
      rule.BackendRefs =
        [{ Kind := some "Service".toList, Name := GetHost production.Endpoint }]) ∧
    (∃ rule, generateGRPCRouteRule apkConf operation fallback PRODUCTION_TYPE =
        .ok (some rule, none) ∧
      rule.BackendRefs =
        [{ Kind := some "Service".toList, Name := GetHost production.Endpoint }]) := by
  have hres := resolveEndpointToUse_production operation configs production fallback hcfg hprod
  refine ⟨⟨_, generateHTTPRouteRule_of_resolved apkConf operation fallback PRODUCTION_TYPE _ hres,
    ?_⟩, ⟨_, generateGRPCRouteRule_of_resolved apkConf operation fallback PRODUCTION_TYPE _ hres,
    ?_⟩⟩
  · simp [generateHTTPRouteFilters_eq, hreq, generateHTTPBackEndRef]
  · simp [generateGRPCBackEndRef]

/-- Witness of C5: the operation-level endpoint `https://writer-service:8443/v1` against the
contract-level endpoint of the tests. -/
theorem C5_operation_endpoint_witness :
    (∃ rule, generateHTTPRouteRule employeeConf opOwnProduction (some employeeEndpoint)
        PRODUCTION_TYPE = .ok (some rule, none) ∧
      rule.BackendRefs =
        [{ Kind := some "Service".toList,
           Name := GetHost (some (.EndpointURL "https://writer-service:8443/v1".toList)) }]) ∧
    (∃ rule, generateGRPCRouteRule employeeConf opOwnProduction (some employeeEndpoint)
        PRODUCTION_TYPE = .ok (some rule, none) ∧
      rule.BackendRefs =
        [{ Kind := some "Service".toList,
           Name := GetHost (some (.EndpointURL "https://writer-service:8443/v1".toList)) }]) :=
  C5_operation_endpoint_wins employeeConf opOwnProduction
    { Production := some
        { Endpoint := some (.EndpointURL "https://writer-service:8443/v1".toList) } }
    { Endpoint := some (.EndpointURL "https://writer-service:8443/v1".toList) }
    (some employeeEndpoint) rfl rfl (by decide) (by decide)

/-- C6, the code at the failing input.  For an operation that defines a sandbox endpoint only and
the type `production`, `createEndpoints` reads the endpoint of the absent production
configuration: `GetEndpointToUse` and both rule generators end in a nil dereference instead of
falling back to the endpoint of the caller. -/
theorem C6_other_type_only_faults :
    GetEndpointToUse opSandboxOnly.EndpointConfigurations PRODUCTION_TYPE =
      .error .nilDereference ∧
    generateHTTPRouteRule employeeConf opSandboxOnly (some employeeEndpoint) PRODUCTION_TYPE =
      .error .nilDereference ∧
    generateGRPCRouteRule employeeConf opSandboxOnly (some employeeEndpoint) PRODUCTION_TYPE =
      .error .nilDereference := by
  decide

/-- C7.  For an operation without endpoint configurations, `generateHTTPRouteRule` and
`generateGRPCRouteRule` return no rule and the error `invalid endpoint specified` when the caller
supplies no endpoint, and a rule without error when the caller supplies one. -/
theorem C7_invalid_endpoint_error (apkConf : APKConf) (operation : Operation)
    (endpointType : GoString) (hnone : operation.EndpointConfigurations = none) :
    generateHTTPRouteRule apkConf operation none endpointType =
      .ok (none, some "invalid endpoint specified".toList) ∧
    generateGRPCRouteRule apkConf operation none endpointType =
      .ok (none, some "invalid endpoint specified".toList) ∧
    ∀ fallback : EndpointDetails,
      (∃ rule, generateHTTPRouteRule apkConf operation (some fallback) endpointType =
        .ok (some rule, none)) ∧
      (∃ rule, generateGRPCRouteRule apkConf operation (some fallback) endpointType =
        .ok (some rule, none)) := by
  refine ⟨generateHTTPRouteRule_of_unresolved _ _ _ _
      (resolveEndpointToUse_of_noConfig operation none endpointType hnone),
    generateGRPCRouteRule_of_unresolved _ _ _ _
      (resolveEndpointToUse_of_noConfig operation none endpointType hnone),
    fun fallback => ⟨⟨_, generateHTTPRouteRule_of_resolved _ _ _ _ fallback
      (resolveEndpointToUse_of_noConfig operation (some fallback) endpointType hnone)⟩,
      ⟨_, generateGRPCRouteRule_of_resolved _ _ _ _ fallback
      (resolveEndpointToUse_of_noConfig operation (some fallback) endpointType hnone)⟩⟩⟩

/-- Witness of C7: `GET /employees` of the tests, which has no endpoint configurations. -/
theorem C7_invalid_endpoint_witness :
    generateHTTPRouteRule employeeConf opPlain none SANDBOX_TYPE =
      .ok (none, some "invalid endpoint specified".toList) ∧
    generateGRPCRouteRule employeeConf opPlain none SANDBOX_TYPE =
      .ok (none, some "invalid endpoint specified".toList) ∧
    ∀ fallback : EndpointDetails,
      (∃ rule, generateHTTPRouteRule employeeConf opPlain (some fallback) SANDBOX_TYPE =
        .ok (some rule, none)) ∧
      (∃ rule, generateGRPCRouteRule employeeConf opPlain (some fallback) SANDBOX_TYPE =
        .ok (some rule, none)) :=
  C7_invalid_endpoint_error employeeConf opPlain SANDBOX_TYPE rfl

/-- C8.  When the rule generation of an operation returns an error and that of every operation
before it succeeds, `generateHTTPRouteRules` returns that error and no rule, and
`GenerateHTTPRoute` returns that error and no route, however many operations come before. -/
theorem C8_fail_fast_no_partial_output (apkConf : APKConf) (endpoint : Option EndpointDetails)
    (endpointType : GoString) (before after : List Operation) (operation : Operation)
    (rule : Option HTTPRouteRule) (err : GoString)
    (hbefore : ∀ o ∈ before, ∃ r,
      generateHTTPRouteRule apkConf o endpoint endpointType = .ok (some r, none))
    (hfail : generateHTTPRouteRule apkConf operation endpoint endpointType =
      .ok (rule, some err)) :
    generateHTTPRouteRules apkConf (before ++ operation :: after) endpoint endpointType =
      .ok ([], some err) ∧
    ∀ (organization : Organization) (gatewayConfiguration : GatewayConfigurations)
      (uniqueId : GoString) (count : Int),
      GenerateHTTPRoute apkConf organization gatewayConfiguration (before ++ operation :: after)
        endpoint endpointType uniqueId count = .ok (none, some err) := by
  have hrules : generateHTTPRouteRules apkConf (before ++ operation :: after) endpoint
      endpointType = .ok ([], some err) :=
    httpRouteRulesLoop_failure apkConf endpoint endpointType before after operation rule err
      hbefore hfail []
  refine ⟨hrules, fun organization gatewayConfiguration uniqueId count => ?_⟩
  unfold GenerateHTTPRoute
  rw [hrules]
  rfl

/-- Witness of C8: an operation with an endpoint of its own, then two operations without, and no
endpoint from the caller. -/
theorem C8_fail_fast_witness :
    generateHTTPRouteRules employeeConf ([opOwnProduction] ++ opPlain :: [opAddHeader]) none
        PRODUCTION_TYPE = .ok ([], some "invalid endpoint specified".toList) ∧
    ∀ (organization : Organization) (gatewayConfiguration : GatewayConfigurations)
      (uniqueId : GoString) (count : Int),
      GenerateHTTPRoute employeeConf organization gatewayConfiguration
        ([opOwnProduction] ++ opPlain :: [opAddHeader]) none PRODUCTION_TYPE uniqueId count =
        .ok (none, some "invalid endpoint specified".toList) :=
  C8_fail_fast_no_partial_output employeeConf none PRODUCTION_TYPE [opOwnProduction]
    [opAddHeader] opPlain none "invalid endpoint specified".toList
    (fun o ho => by
      rw [List.mem_singleton.mp ho]
      exact ⟨_, generateHTTPRouteRule_of_resolved _ _ _ _ _
        (resolveEndpointToUse_production _ _ _ _ rfl rfl)⟩)
    (by decide)

/-- C9.  When the rule generation of every operation succeeds, `generateHTTPRouteRules` and
`generateGRPCRouteRules` return no error and as many rules as there are operations, the rule at
each position being the one generated for the operation at that position. -/
theorem C9_one_rule_per_operation_in_order (apkConf : APKConf)
    (endpoint : Option EndpointDetails) (endpointType : GoString) (operations : List Operation)
    (hhttp : ∀ o ∈ operations, ∃ r,
      generateHTTPRouteRule apkConf o endpoint endpointType = .ok (some r, none))
    (hgrpc : ∀ o ∈ operations, ∃ r,
      generateGRPCRouteRule apkConf o endpoint endpointType = .ok (some r, none)) :
    (∃ rules, generateHTTPRouteRules apkConf operations endpoint endpointType =
        .ok (rules, none) ∧
      operations.length = rules.length ∧
      ∀ (i : Nat) (ho : i < operations.length) (hr : i < rules.length),
        generateHTTPRouteRule apkConf (operations.get ⟨i, ho⟩) endpoint endpointType =
          .ok (some (rules.get ⟨i, hr⟩), none)) ∧
    (∃ rules, generateGRPCRouteRules apkConf operations endpoint endpointType =
        .ok (rules, none) ∧
      operations.length = rules.length ∧
      ∀ (i : Nat) (ho : i < operations.length) (hr : i < rules.length),
        generateGRPCRouteRule apkConf (operations.get ⟨i, ho⟩) endpoint endpointType =
          .ok (some (rules.get ⟨i, hr⟩), none)) := by
  obtain ⟨rules, hall, hloop⟩ :=
    httpRouteRulesLoop_success apkConf endpoint endpointType operations hhttp
  obtain ⟨grules, hgall, hgloop⟩ :=
    grpcRouteRulesLoop_success apkConf endpoint endpointType operations hgrpc
  refine ⟨⟨rules, ?_, List.forall₂_iff_get.mp hall⟩, ⟨grules, ?_, List.forall₂_iff_get.mp hgall⟩⟩
  · simpa [generateHTTPRouteRules] using hloop []
  · simpa [generateGRPCRouteRules] using hgloop []

/-- Witness of C9: two operations of the tests and the endpoint of the tests. -/
theorem C9_one_rule_per_operation_witness :
    (∃ rules, generateHTTPRouteRules employeeConf [opPlain, opAddHeader] (some employeeEndpoint)
        PRODUCTION_TYPE = .ok (rules, none) ∧
      [opPlain, opAddHeader].length = rules.length ∧
      ∀ (i : Nat) (ho : i < [opPlain, opAddHeader].length) (hr : i < rules.length),
        generateHTTPRouteRule employeeConf ([opPlain, opAddHeader].get ⟨i, ho⟩)
          (some employeeEndpoint) PRODUCTION_TYPE = .ok (some (rules.get ⟨i, hr⟩), none)) ∧
    (∃ rules, generateGRPCRouteRules employeeConf [opPlain, opAddHeader] (some employeeEndpoint)
        PRODUCTION_TYPE = .ok (rules, none) ∧
      [opPlain, opAddHeader].length = rules.length ∧
      ∀ (i : Nat) (ho : i < [opPlain, opAddHeader].length) (hr : i < rules.length),
        generateGRPCRouteRule employeeConf ([opPlain, opAddHeader].get ⟨i, ho⟩)
          (some employeeEndpoint) PRODUCTION_TYPE = .ok (some (rules.get ⟨i, hr⟩), none)) :=
  C9_one_rule_per_operation_in_order employeeConf (some employeeEndpoint) PRODUCTION_TYPE
    [opPlain, opAddHeader]
    (fun o ho => by
      simp only [List.mem_cons, List.mem_singleton, List.not_mem_nil, or_false] at ho
      rcases ho with rfl | rfl <;>
        exact ⟨_, generateHTTPRouteRule_of_resolved _ _ _ _ _
          (resolveEndpointToUse_of_noConfig _ _ _ rfl)⟩)
    (fun o ho => by
      simp only [List.mem_cons, List.mem_singleton, List.not_mem_nil, or_false] at ho
      rcases ho with rfl | rfl <;>
        exact ⟨_, generateGRPCRouteRule_of_resolved _ _ _ _ _
          (resolveEndpointToUse_of_noConfig _ _ _ rfl)⟩)

/-- C10, the code at the failing input.  For the target `/*` the function `RetrievePathPrefix`
returns `(.*)` before the base path is prepended, for every base path; for the base path `/api`
the result is not `/api(.*)`. -/
theorem C10_wildcard_target_drops_base_path :
    (∀ basePath : GoString, RetrievePathPrefix "/*".toList basePath = "(.*)".toList) ∧
    RetrievePathPrefix "/*".toList "/api".toList ≠ "/api".toList ++ "(.*)".toList := by
  refine ⟨fun basePath => ?_, by decide⟩
  unfold RetrievePathPrefix
  simp

/-! ## Lemmas on Go strings -/

theorem splitSlash_ne_nil (s : GoString) : splitSlash s ≠ [] := by
  cases s with
  | nil => simp [splitSlash]
  | cons x xs =>
    unfold splitSlash
    split_ifs
    · simp
    · split <;> simp

theorem splitSlash_of_noSlash (piece : GoString) (h : ∀ c ∈ piece, c ≠ '/') :
    splitSlash piece = [piece] := by
  induction piece with
  | nil => rfl
  | cons x xs ih =>
    have hx : x ≠ '/' := h x (List.mem_cons_self x xs)
    have hxs := ih (fun c hc => h c (List.mem_cons_of_mem x hc))
    simp [splitSlash, hx, hxs]

theorem splitSlash_noSlash_append (piece rest : GoString) (h : ∀ c ∈ piece, c ≠ '/') :
    splitSlash (piece ++ '/' :: rest) = piece :: splitSlash rest := by
  induction piece with
  | nil => simp [splitSlash]
  | cons x xs ih =>
    have hx : x ≠ '/' := h x (List.mem_cons_self x xs)
    have hxs := ih (fun c hc => h c (List.mem_cons_of_mem x hc))
    simp [splitSlash, hx, hxs]

theorem splitSlash_append_renderPath (render : Segment → GoString) (segments : List Segment)
    (h : ∀ s ∈ segments, ∀ c ∈ render s, c ≠ '/') (piece : GoString)
    (hp : ∀ c ∈ piece, c ≠ '/') :
    splitSlash (piece ++ renderPath render segments) = piece :: segments.map render := by
  induction segments generalizing piece with
  | nil => simpa [renderPath] using splitSlash_of_noSlash piece hp
  | cons s rest ih =>
    have hs := h s (List.mem_cons_self s rest)
    have hrest := ih (fun t ht => h t (List.mem_cons_of_mem s ht)) (render s) hs
    simp [renderPath, splitSlash_noSlash_append piece _ hp, hrest]

/-- The pieces of a target made of segments: the empty piece before the first slash, then the
segments. -/
theorem splitSlash_renderPath (render : Segment → GoString) (segments : List Segment)
    (h : ∀ s ∈ segments, ∀ c ∈ render s, c ≠ '/') :
    splitSlash (renderPath render segments) = [] :: segments.map render := by
  simpa using splitSlash_append_renderPath render segments h [] (by simp)

theorem dropWhile_eq_self_of_head {α : Type} (p : α → Bool) (l : List α)
    (h : ∀ c, l.head? = some c → p c = false) : l.dropWhile p = l := by
  cases l with
  | nil => rfl
  | cons x xs =>
    have hx : p x = false := h x rfl
    simp [List.dropWhile, hx]

/-- A string that neither starts nor ends with white space is left as it is by
`strings.TrimSpace`. -/
theorem trimSpace_eq_self (s : GoString) (hhead : ∀ c, s.head? = some c → isSpace c = false)
    (hlast : ∀ c, s.getLast? = some c → isSpace c = false) : trimSpace s = s := by
  unfold trimSpace
  rw [dropWhile_eq_self_of_head isSpace s hhead,
    dropWhile_eq_self_of_head isSpace s.reverse (by simpa using hlast)]
  simp

theorem trimSpace_nil : trimSpace [] = [] := rfl

/-! ## Lemmas on the regular expression -/

theorem reMatchString_of_noBrace (s : GoString) (h : ∀ c ∈ s, c ≠ '{') :
    reMatchString s = false := by
  induction s with
  | nil => rfl
  | cons x xs ih =>
    have hx : x ≠ '{' := h x (List.mem_cons_self x xs)
    simp [reMatchString, hx, ih (fun c hc => h c (List.mem_cons_of_mem x hc))]

theorem reReplaceAux_of_noBrace (repl s : GoString) (h : ∀ c ∈ s, c ≠ '{') :
    reReplaceAux repl 0 s = s := by
  induction s with
  | nil => rfl
  | cons x xs ih =>
    have hx : x ≠ '{' := h x (List.mem_cons_self x xs)
    simp [reReplaceAux, hx, ih (fun c hc => h c (List.mem_cons_of_mem x hc))]

theorem braceMatchLength_name (name : GoString) (h : ∀ c ∈ name, c ≠ '\n') :
    braceMatchLength (name ++ ['}']) = some (name.length + 1) := by
  induction name with
  | nil => decide
  | cons x xs ih =>
    have hx : x ≠ '\n' := h x (List.mem_cons_self x xs)
    simp [braceMatchLength, hx, ih (fun c hc => h c (List.mem_cons_of_mem x hc))]

theorem reReplaceAux_skip_all (repl s : GoString) : reReplaceAux repl s.length s = [] := by
  induction s with
  | nil => rfl
  | cons x xs ih => simpa [reReplaceAux] using ih

/-- A parameter `{name}` whose name holds no line feed matches the regular expression. -/
theorem reMatchString_parameter (name : GoString) (h : ∀ c ∈ name, c ≠ '\n') :
    reMatchString ('{' :: (name ++ ['}'])) = true := by
  simp [reMatchString, braceMatchLength_name name h]

/-- A parameter `{name}` whose name holds no line feed is replaced as a whole. -/
theorem reReplaceAllString_parameter (repl name : GoString) (h : ∀ c ∈ name, c ≠ '\n') :
    reReplaceAllString ('{' :: (name ++ ['}'])) repl = repl := by
  have hskip := reReplaceAux_skip_all repl (name ++ ['}'])
  simp only [List.length_append, List.length_singleton] at hskip
  simp [reReplaceAllString, reReplaceAux, braceMatchLength_name name h, hskip]

/-! ## Lemmas on templated paths -/

theorem wellFormed_literal (text : GoString) (h : (Segment.literal text).wellFormed = true) :
    text ≠ [] ∧ ∀ c ∈ text, c ≠ '/' ∧ c ≠ '{' ∧ c ≠ '}' ∧ isSpace c = false := by
  simp only [Segment.wellFormed, Bool.and_eq_true, Bool.not_eq_true', List.isEmpty_eq_false,
    List.all_eq_true, bne_iff_ne, ne_eq] at h
  exact ⟨h.1, fun c hc => ⟨(h.2 c hc).1.1.1, (h.2 c hc).1.1.2, (h.2 c hc).1.2, (h.2 c hc).2⟩⟩

theorem wellFormed_parameter (name : GoString) (h : (Segment.parameter name).wellFormed = true) :
    ∀ c ∈ name, c ≠ '/' ∧ c ≠ '\n' := by
  simp only [Segment.wellFormed, Bool.and_eq_true, List.all_eq_true, bne_iff_ne, ne_eq] at h
  exact h

theorem Segment.text_noSlash (s : Segment) (h : s.wellFormed = true) :
    ∀ c ∈ s.text, c ≠ '/' := by
  cases s with
  | literal text => exact fun c hc => ((wellFormed_literal text h).2 c hc).1
  | parameter name =>
    intro c hc
    simp only [Segment.text, List.mem_cons, List.mem_append, List.mem_singleton,
      List.not_mem_nil, or_false] at hc
    rcases hc with rfl | hc | rfl
    · decide
    · exact ((wellFormed_parameter name h) c hc).1
    · decide

theorem Segment.text_trimSpace (s : Segment) (h : s.wellFormed = true) :
    trimSpace s.text = s.text := by
  cases s with
  | literal text =>
    obtain ⟨_, hall⟩ := wellFormed_literal text h
    apply trimSpace_eq_self
    · intro c hc
      exact (hall c (List.mem_of_mem_head? hc)).2.2.2
    · intro c hc
      exact (hall c (List.mem_of_mem_getLast? hc)).2.2.2
  | parameter name =>
    apply trimSpace_eq_self
    · intro c hc
      simp only [Segment.text, List.head?_cons, Option.some.injEq] at hc
      rw [← hc]; decide
    · intro c hc
      have hshape : Segment.text (.parameter name) = ('{' :: name) ++ ['}'] := rfl
      rw [hshape, List.getLast?_append] at hc
      simp only [List.getLast?_singleton, Option.or_some, Option.some.injEq] at hc
      rw [← hc]; decide

theorem Segment.text_ne_nil (s : Segment) (h : s.wellFormed = true) : s.text ≠ [] := by
  cases s with
  | literal text => exact (wellFormed_literal text h).1
  | parameter name => simp [Segment.text]

theorem retrievePathPrefixStep_nil (generatedPath : GoString) :
    retrievePathPrefixStep generatedPath [] = generatedPath := rfl

/-- One round of the loop of `RetrievePathPrefix` on a well-formed segment. -/
theorem retrievePathPrefixStep_segment (generatedPath : GoString) (s : Segment)
    (h : s.wellFormed = true) :
    retrievePathPrefixStep generatedPath s.text = generatedPath ++ '/' :: s.matchText := by
  have hlen : 0 < s.text.length := List.length_pos.mpr (Segment.text_ne_nil s h)
  unfold retrievePathPrefixStep
  simp only [Segment.text_trimSpace s h, gt_iff_lt, hlen, if_true]
  cases s with
  | literal text =>
    have hno : reMatchString text = false :=
      reMatchString_of_noBrace text (fun c hc => ((wellFormed_literal text h).2 c hc).2.1)
    simp [Segment.text, Segment.matchText, hno]
  | parameter name =>
    have hnl : ∀ c ∈ name, c ≠ '\n' := fun c hc => ((wellFormed_parameter name h) c hc).2
    simp [Segment.text, Segment.matchText, reMatchString_parameter name hnl,
      reReplaceAllString_parameter _ name hnl]

theorem foldl_retrievePathPrefixStep (segments : List Segment)
    (h : ∀ s ∈ segments, s.wellFormed = true) (generatedPath : GoString) :
    (segments.map Segment.text).foldl retrievePathPrefixStep generatedPath =
      generatedPath ++ renderPath Segment.matchText segments := by
  induction segments generalizing generatedPath with
  | nil => simp [renderPath]
  | cons s rest ih =>
    simp only [List.map_cons, List.foldl_cons,
      retrievePathPrefixStep_segment generatedPath s (h s (List.mem_cons_self s rest)),
      ih (fun t ht => h t (List.mem_cons_of_mem s ht)), renderPath]
    simp

theorem generatePrefixMatchStep_nil (state : GoString × Int) :
    generatePrefixMatchStep state [] = state := rfl

theorem generatePrefixMatchStep_literal (state : GoString × Int) (text : GoString)
    (h : (Segment.literal text).wellFormed = true) :
    generatePrefixMatchStep state text = (state.1 ++ '/' :: text, state.2) := by
  have hlen : 0 < text.length := List.length_pos.mpr (wellFormed_literal text h).1
  have htrim : trimSpace text = text := Segment.text_trimSpace (.literal text) h
  have hno : reMatchString text = false :=
    reMatchString_of_noBrace text (fun c hc => ((wellFormed_literal text h).2 c hc).2.1)
  unfold generatePrefixMatchStep
  simp [htrim, hlen, hno]

theorem generatePrefixMatchStep_parameter (state : GoString × Int) (name : GoString)
    (h : (Segment.parameter name).wellFormed = true) :
    generatePrefixMatchStep state ('{' :: (name ++ ['}'])) =
      (state.1 ++ '/' :: '\\' :: Itoa state.2, state.2 + 1) := by
  have hnl : ∀ c ∈ name, c ≠ '\n' := fun c hc => ((wellFormed_parameter name h) c hc).2
  have htrim : trimSpace ('{' :: (name ++ ['}'])) = '{' :: (name ++ ['}']) :=
    Segment.text_trimSpace (.parameter name) h
  unfold generatePrefixMatchStep
  simp only [htrim, reMatchString_parameter name hnl, reReplaceAllString_parameter _ name hnl]
  simp

theorem foldl_generatePrefixMatchStep (segments : List Segment)
    (h : ∀ s ∈ segments, s.wellFormed = true) (state : GoString × Int) :
    (segments.map Segment.text).foldl generatePrefixMatchStep state =
      (state.1 ++ rewriteFrom state.2 segments, state.2 + paramCount segments) := by
  induction segments generalizing state with
  | nil => simp [rewriteFrom, paramCount]
  | cons s rest ih =>
    have hs := h s (List.mem_cons_self s rest)
    have hrest := fun st => ih (fun t ht => h t (List.mem_cons_of_mem s ht)) st
    cases s with
    | literal text =>
      simp only [List.map_cons, List.foldl_cons, Segment.text,
        generatePrefixMatchStep_literal state text hs, hrest, rewriteFrom, paramCount]
      simp
    | parameter name =>
      simp only [List.map_cons, List.foldl_cons, Segment.text,
        generatePrefixMatchStep_parameter state name hs, hrest, rewriteFrom, paramCount]
      simp [add_comm, add_left_comm]

/-! ## Lemmas on decimal numbers -/

theorem digitChar_isDigit : ∀ d, d < 10 → isDigit (Nat.digitChar d) = true := by decide

theorem digitChar_value : ∀ d, d < 10 → (Nat.digitChar d).toNat - 48 = d := by decide

theorem toDigitsCore_isDigit (fuel n : Nat) (ds : List Char)
    (h : ∀ c ∈ ds, isDigit c = true) :
    ∀ c ∈ Nat.toDigitsCore 10 fuel n ds, isDigit c = true := by
  induction fuel generalizing n ds with
  | zero => simpa [Nat.toDigitsCore] using h
  | succ fuel ih =>
    have hd : isDigit (Nat.digitChar (n % 10)) = true :=
      digitChar_isDigit (n % 10) (Nat.mod_lt n (by decide))
    have hcons : ∀ c ∈ Nat.digitChar (n % 10) :: ds, isDigit c = true := by
      intro c hc
      rcases List.mem_cons.mp hc with rfl | hc
      · exact hd
      · exact h c hc
    unfold Nat.toDigitsCore
    simp only
    split_ifs
    · exact hcons
    · exact ih (n / 10) _ hcons

theorem toDigitsCore_ne_nil_of_ne_nil (fuel n : Nat) (ds : List Char) (h : ds ≠ []) :
    Nat.toDigitsCore 10 fuel n ds ≠ [] := by
  induction fuel generalizing n ds with
  | zero => simpa [Nat.toDigitsCore] using h
  | succ fuel ih =>
    unfold Nat.toDigitsCore
    simp only
    split_ifs
    · simp
    · exact ih (n / 10) _ (by simp)

theorem toDigits_ne_nil (n : Nat) : Nat.toDigits 10 n ≠ [] := by
  unfold Nat.toDigits Nat.toDigitsCore
  simp only
  split_ifs
  · simp
  · exact toDigitsCore_ne_nil_of_ne_nil n (n / 10) _ (by simp)

theorem toDigits_isDigit (n : Nat) : ∀ c ∈ Nat.toDigits 10 n, isDigit c = true :=
  toDigitsCore_isDigit (n + 1) n [] (by simp)

theorem digitsValue_foldl_cons (acc : Nat) (c : Char) (s : GoString) :
    List.foldl (fun n c => n * 10 + (c.toNat - 48)) acc (c :: s) =
      List.foldl (fun n c => n * 10 + (c.toNat - 48)) (acc * 10 + (c.toNat - 48)) s := rfl

/-- The digits written by `toDigitsCore` in front of `ds` carry the value `n`. -/
theorem foldl_toDigitsCore (fuel n : Nat) (ds : List Char) (hfuel : n < fuel) :
    List.foldl (fun n c => n * 10 + (c.toNat - 48)) 0 (Nat.toDigitsCore 10 fuel n ds) =
      List.foldl (fun n c => n * 10 + (c.toNat - 48)) n ds := by
  induction fuel generalizing n ds with
  | zero => omega
  | succ fuel ih =>
    have hval := digitChar_value (n % 10) (Nat.mod_lt n (by decide))
    unfold Nat.toDigitsCore
    simp only
    split_ifs with hzero
    · have hsmall : n % 10 = n := by omega
      rw [digitsValue_foldl_cons, hval, hsmall]
      simp
    · have hlt : n / 10 < fuel := by omega
      rw [ih (n / 10) _ hlt, digitsValue_foldl_cons, hval]
      congr 1
      omega

/-- Reading the decimal writing of a number gives the number back. -/
theorem digitsValue_toDigits (n : Nat) : digitsValue (Nat.toDigits 10 n) = n := by
  unfold digitsValue Nat.toDigits
  rw [foldl_toDigitsCore (n + 1) n [] (by omega)]
  rfl

theorem isDigit_toNat (c : Char) (h : isDigit c = true) : 48 ≤ c.toNat ∧ c.toNat ≤ 57 := by
  simpa [isDigit] using h

theorem isDigit_not_isSpace (c : Char) (h : isDigit c = true) : isSpace c = false := by
  have hc := isDigit_toNat c h
  simp only [isSpace, Bool.or_eq_false_iff, Bool.and_eq_false_iff, decide_eq_false_iff_not]
  omega

theorem isDigit_ne (c d : Char) (h : isDigit c = true) (hd : isDigit d = false) : c ≠ d := by
  intro hcd
  rw [hcd, hd] at h
  exact Bool.false_ne_true h

/-- `strconv.Atoi` on a string of decimal digits whose value fits in a 64-bit `int`. -/
theorem Atoi_digits (d : GoString) (hne : d ≠ []) (hall : ∀ c ∈ d, isDigit c = true)
    (hfit : digitsValue d < 2 ^ 63) : Atoi d = some (digitsValue d : Int) := by
  obtain ⟨x, xs, rfl⟩ := List.exists_cons_of_ne_nil hne
  have hx : isDigit x = true := hall x (List.mem_cons_self x xs)
  have hminus : x ≠ '-' := isDigit_ne x '-' hx (by decide)
  have hplus : x ≠ '+' := isDigit_ne x '+' hx (by decide)
  have hall2 : (x :: xs).all isDigit = true := List.all_eq_true.mpr hall
  have hpow : (2 : Nat) ^ 63 = 9223372036854775808 := by norm_num
  rw [hpow] at hfit
  unfold Atoi
  simp only [List.head?_cons, Option.some.injEq, hminus, hplus, or_self, if_false,
    List.isEmpty_cons, hall2, Bool.not_true, Bool.or_self, Bool.false_eq_true, decide_False]
  simp [hfit]

theorem Itoa_natCast (n : Nat) : Itoa (n : Int) = Nat.toDigits 10 n := by
  unfold Itoa
  have : ¬ ((n : Int) < 0) := by omega
  simp [this]

/-- `strconv.Atoi` reads back what `strconv.Itoa` writes, for a number that fits. -/
theorem Atoi_Itoa (n : Nat) (hfit : n < 2 ^ 63) : Atoi (Itoa (n : Int)) = some (n : Int) := by
  rw [Itoa_natCast]
  have h := Atoi_digits (Nat.toDigits 10 n) (toDigits_ne_nil n) (toDigits_isDigit n)
    (by rw [digitsValue_toDigits]; exact hfit)
  rw [h, digitsValue_toDigits]

theorem Itoa_isDigit (index : Int) (h : 0 ≤ index) : ∀ c ∈ Itoa index, isDigit c = true := by
  obtain ⟨n, rfl⟩ := Int.eq_ofNat_of_zero_le h
  rw [Itoa_natCast]
  exact toDigits_isDigit n

theorem Itoa_ne_nil (index : Int) (h : 0 ≤ index) : Itoa index ≠ [] := by
  obtain ⟨n, rfl⟩ := Int.eq_ofNat_of_zero_le h
  rw [Itoa_natCast]
  exact toDigits_ne_nil n

/-! ## Lemmas on the wildcard suffix -/

theorem hasSuffix_append_self (front suf : GoString) : hasSuffix (front ++ suf) suf = true := by
  unfold hasSuffix
  rw [List.isSuffixOf_iff_suffix]
  exact List.suffix_append front suf

/-- A path whose last segment is not `*` does not end in `/*`. -/
theorem hasSuffix_wildcard_false (front last : GoString) (hne : last ≠ [])
    (hslash : ∀ c ∈ last, c ≠ '/') (hstar : last ≠ ['*']) :
    hasSuffix (front ++ '/' :: last) "/*".toList = false := by
  unfold hasSuffix
  rw [Bool.eq_false_iff, Ne, List.isSuffixOf_iff_suffix]
  rintro ⟨rest, hrest⟩
  have hrev := congrArg List.reverse hrest
  simp only [List.reverse_append, List.reverse_cons, List.append_assoc, List.singleton_append,
    String.toList, List.reverse_nil, List.nil_append] at hrev
  rcases hlast : last.reverse with _ | ⟨a, tail⟩
  · exact hne (List.reverse_eq_nil_iff.mp hlast)
  · rw [hlast] at hrev
    rcases tail with _ | ⟨b, tail⟩
    · have ha : a = '*' := by
        simp only [List.cons_append, List.cons.injEq] at hrev
        exact hrev.1.symm
      apply hstar
      have hl : last = [a].reverse := by rw [← hlast, List.reverse_reverse]
      rw [hl, ha]
      rfl
    · have hb : b = '/' := by
        simp only [List.cons_append, List.cons.injEq] at hrev
        exact hrev.2.1.symm
      have hmem : b ∈ last := by
        rw [← List.mem_reverse, hlast]
        simp
      exact hslash b hmem hb

theorem lastIndexChar_none (c : Char) (s : GoString) (h : ∀ y ∈ s, y ≠ c) :
    lastIndexChar c s = none := by
  induction s with
  | nil => rfl
  | cons x xs ih =>
    have hx : x ≠ c := h x (List.mem_cons_self x xs)
    simp [lastIndexChar, ih (fun y hy => h y (List.mem_cons_of_mem x hy)), hx]

/-- The last occurrence of `c` is where the text after it holds none. -/
theorem lastIndexChar_append (c : Char) (front back : GoString) (h : ∀ y ∈ back, y ≠ c) :
    lastIndexChar c (front ++ c :: back) = some front.length := by
  induction front with
  | nil => simp [lastIndexChar, lastIndexChar_none c back h]
  | cons x xs ih => simp [lastIndexChar, ih]

theorem renderPath_append (render : Segment → GoString) (front : List Segment)
    (last : Segment) :
    renderPath render (front ++ [last]) = renderPath render front ++ '/' :: render last := by
  induction front with
  | nil => simp [renderPath]
  | cons s rest ih => simp [renderPath, ih]

theorem rewriteFrom_append (front : List Segment) (last : Segment) (index : Int) :
    rewriteFrom index (front ++ [last]) =
      rewriteFrom index front ++ rewriteFrom (index + paramCount front) [last] := by
  induction front generalizing index with
  | nil => simp [rewriteFrom, paramCount]
  | cons s rest ih =>
    cases s with
    | literal text => simp [rewriteFrom, paramCount, ih]
    | parameter name =>
      have harith : index + ((paramCount rest : Int) + 1) = index + 1 + paramCount rest := by
        omega
      simp only [List.cons_append, rewriteFrom, paramCount, Nat.cast_add, Nat.cast_one, harith,
        List.append_assoc, List.cons.injEq, true_and, List.append_cancel_left_eq]
      exact ih (index + 1)

theorem paramCount_append (front : List Segment) (last : Segment) :
    paramCount (front ++ [last]) = paramCount front + paramCount [last] := by
  induction front with
  | nil => simp [paramCount]
  | cons s rest ih =>
    cases s with
    | literal text => simp [paramCount, ih]
    | parameter name => simp [paramCount, ih]; omega

theorem Segment.wildcard_wellFormed : Segment.wildcard.wellFormed = true := by decide

theorem Segment.eq_wildcard_of_text (s : Segment) (h : s.text = ['*']) :
    s = Segment.wildcard := by
  cases s with
  | literal text => simp only [Segment.text] at h; rw [h]; rfl
  | parameter name => simp [Segment.text] at h

theorem Segment.matchText_ne_nil (s : Segment) (h : s.wellFormed = true) :
    s.matchText ≠ [] := by
  cases s with
  | literal text => exact (wellFormed_literal text h).1
  | parameter name => simp [Segment.matchText]

theorem Segment.matchText_noSlash (s : Segment) (h : s.wellFormed = true) :
    ∀ c ∈ s.matchText, c ≠ '/' := by
  cases s with
  | literal text => exact fun c hc => ((wellFormed_literal text h).2 c hc).1
  | parameter name =>
    show ∀ c ∈ "(.*)".toList, c ≠ '/'
    decide

theorem Segment.matchText_lastNotSpace (s : Segment) (h : s.wellFormed = true) :
    ∀ c, s.matchText.getLast? = some c → isSpace c = false := by
  cases s with
  | literal text =>
    intro c hc
    exact ((wellFormed_literal text h).2 c (List.mem_of_mem_getLast? hc)).2.2.2
  | parameter name =>
    show ∀ c, "(.*)".toList.getLast? = some c → isSpace c = false
    intro c hc
    simp only [String.toList, List.getLast?_cons_cons, List.getLast?_singleton,
      Option.some.injEq] at hc
    rw [← hc]; decide

theorem Segment.matchText_ne_star (s : Segment) (h : s ≠ Segment.wildcard) :
    s.matchText ≠ ['*'] := by
  cases s with
  | literal text =>
    intro ht
    simp only [Segment.matchText] at ht
    exact h (by rw [ht]; rfl)
  | parameter name =>
    show "(.*)".toList ≠ ['*']
    decide

/-- A path that starts with a slash and ends in `last`, itself ending in no white space, is left
as it is by `strings.TrimSpace`. -/
theorem trimSpace_slash_path (middle last : GoString) (hne : last ≠ [])
    (hlast : ∀ c, last.getLast? = some c → isSpace c = false) :
    trimSpace ('/' :: (middle ++ last)) = '/' :: (middle ++ last) := by
  apply trimSpace_eq_self
  · intro c hc
    simp only [List.head?_cons, Option.some.injEq] at hc
    rw [← hc]; decide
  · intro c hc
    have hshape : '/' :: (middle ++ last) = ('/' :: middle) ++ last := rfl
    rw [hshape, List.getLast?_append_of_ne_nil _ hne] at hc
    exact hlast c hc

theorem renderPath_shape (render : Segment → GoString) (segments : List Segment)
    (hne : segments ≠ []) :
    ∃ middle last, last ∈ segments ∧ segments.getLast? = some last ∧
      renderPath render segments = '/' :: (middle ++ render last) ∧
      ∃ front, renderPath render segments = front ++ '/' :: render last := by
  obtain ⟨front, last, rfl⟩ := (List.eq_nil_or_concat segments).resolve_left hne
  simp only [List.concat_eq_append]
  refine ⟨(renderPath render front ++ ['/']).tail, last, by simp, by simp, ?_,
    renderPath render front, renderPath_append render front last⟩
  rw [renderPath_append]
  cases front with
  | nil => simp [renderPath]
  | cons s rest => simp [renderPath]

/-! ## `RetrievePathPrefix` and `GeneratePrefixMatch` on targets made of segments -/

theorem targetOf_pieces (segments : List Segment) (h : ∀ s ∈ segments, s.wellFormed = true) :
    splitSlash (targetOf segments) = [] :: segments.map Segment.text :=
  splitSlash_renderPath Segment.text segments (fun s hs => Segment.text_noSlash s (h s hs))

theorem targetOf_ne_slash (segments : List Segment) (h : ∀ s ∈ segments, s.wellFormed = true) :
    targetOf segments ≠ "/".toList := by
  intro heq
  have hpieces := targetOf_pieces segments h
  rw [heq] at hpieces
  have hsplit : splitSlash "/".toList = [[], []] := by decide
  rw [hsplit] at hpieces
  rcases segments with _ | ⟨s, rest⟩
  · simp at hpieces
  · simp only [List.map_cons, List.cons.injEq, true_and] at hpieces
    exact Segment.text_ne_nil s (h s (List.mem_cons_self s rest)) hpieces.1.symm

theorem targetOf_ne_wildcard (segments : List Segment)
    (h : ∀ s ∈ segments, s.wellFormed = true) (hnot : segments ≠ [Segment.wildcard]) :
    targetOf segments ≠ "/*".toList := by
  intro heq
  have hpieces := targetOf_pieces segments h
  rw [heq] at hpieces
  have hsplit : splitSlash "/*".toList = [[], ['*']] := by decide
  rw [hsplit] at hpieces
  rcases segments with _ | ⟨s, rest⟩
  · simp at hpieces
  · simp only [List.map_cons, List.cons.injEq, true_and] at hpieces
    have hrest : rest = [] := List.map_eq_nil_iff.mp hpieces.2.symm
    apply hnot
    rw [hrest, Segment.eq_wildcard_of_text s hpieces.1.symm]

/-- The `generatedPath` of `RetrievePathPrefix` after its loop, on a target made of well-formed
segments. -/
theorem foldl_retrievePathPrefixStep_targetOf (segments : List Segment)
    (h : ∀ s ∈ segments, s.wellFormed = true) :
    (splitSlash (targetOf segments)).foldl retrievePathPrefixStep [] =
      renderPath Segment.matchText segments := by
  rw [targetOf_pieces segments h, List.foldl_cons, retrievePathPrefixStep_nil,
    foldl_retrievePathPrefixStep segments h]
  simp

/-- The state of `GeneratePrefixMatch` after its loop, on a target made of well-formed
segments. -/
theorem foldl_generatePrefixMatchStep_targetOf (segments : List Segment)
    (h : ∀ s ∈ segments, s.wellFormed = true) :
    (splitSlash (targetOf segments)).foldl generatePrefixMatchStep ([], 1) =
      (rewriteFrom 1 segments, 1 + (paramCount segments : Int)) := by
  rw [targetOf_pieces segments h, List.foldl_cons, generatePrefixMatchStep_nil,
    foldl_generatePrefixMatchStep segments h]
  simp

theorem targetOf_ne_nil (segments : List Segment) (hne : segments ≠ []) :
    targetOf segments ≠ [] := by
  rcases segments with _ | ⟨s, rest⟩
  · exact absurd rfl hne
  · simp [targetOf, renderPath]

theorem targetOf_append_wildcard (front : List Segment) :
    targetOf (front ++ [Segment.wildcard]) = targetOf front ++ "/*".toList := by
  unfold targetOf
  rw [renderPath_append]
  rfl

theorem rewriteFrom_singleton (index : Int) (s : Segment) :
    rewriteFrom index [s] = '/' :: s.rewriteText index := by
  cases s <;> simp [rewriteFrom, Segment.rewriteText]

theorem isDigit_ne_slash (c : Char) (h : isDigit c = true) : c ≠ '/' :=
  isDigit_ne c '/' h (by decide)

theorem Segment.rewriteText_ne_nil (index : Int) (s : Segment) (h : s.wellFormed = true) :
    s.rewriteText index ≠ [] := by
  cases s with
  | literal text => exact (wellFormed_literal text h).1
  | parameter name => simp [Segment.rewriteText]

theorem Segment.rewriteText_noSlash (index : Int) (hindex : 0 ≤ index) (s : Segment)
    (h : s.wellFormed = true) : ∀ c ∈ s.rewriteText index, c ≠ '/' := by
  cases s with
  | literal text => exact fun c hc => ((wellFormed_literal text h).2 c hc).1
  | parameter name =>
    intro c hc
    simp only [Segment.rewriteText, List.mem_cons] at hc
    rcases hc with rfl | hc
    · decide
    · exact isDigit_ne_slash c (Itoa_isDigit index hindex c hc)

theorem Segment.rewriteText_ne_star (index : Int) (s : Segment) (h : s ≠ Segment.wildcard) :
    s.rewriteText index ≠ ['*'] := by
  cases s with
  | literal text =>
    intro ht
    simp only [Segment.rewriteText] at ht
    exact h (by rw [ht]; rfl)
  | parameter name =>
    intro ht
    simp only [Segment.rewriteText, List.cons.injEq] at ht
    exact absurd ht.1 (by decide)

theorem Segment.rewriteText_lastNotSpace (index : Int) (hindex : 0 ≤ index) (s : Segment)
    (h : s.wellFormed = true) :
    ∀ c, (s.rewriteText index).getLast? = some c → isSpace c = false := by
  cases s with
  | literal text =>
    intro c hc
    exact ((wellFormed_literal text h).2 c (List.mem_of_mem_getLast? hc)).2.2.2
  | parameter name =>
    intro c hc
    have hshape : Segment.rewriteText index (.parameter name) = ['\\'] ++ Itoa index := rfl
    rw [hshape, List.getLast?_append_of_ne_nil _ (Itoa_ne_nil index hindex)] at hc
    exact isDigit_not_isSpace c (Itoa_isDigit index hindex c (List.mem_of_mem_getLast? hc))

/-- The rewrite of a non-empty list of segments starts with a slash and ends with the rewrite of
its last segment. -/
theorem rewriteFrom_shape (index : Int) (segments : List Segment) (hne : segments ≠ []) :
    ∃ middle front last, segments = front ++ [last] ∧
      rewriteFrom index segments =
        '/' :: (middle ++ last.rewriteText (index + paramCount front)) ∧
      rewriteFrom index segments =
        rewriteFrom index front ++ '/' :: last.rewriteText (index + paramCount front) := by
  obtain ⟨front, last, rfl⟩ := (List.eq_nil_or_concat segments).resolve_left hne
  simp only [List.concat_eq_append]
  have happ : rewriteFrom index (front ++ [last]) =
      rewriteFrom index front ++ '/' :: last.rewriteText (index + paramCount front) := by
    rw [rewriteFrom_append, rewriteFrom_singleton]
  refine ⟨(rewriteFrom index front ++ ['/']).tail, front, last, rfl, ?_, happ⟩
  rw [happ]
  rcases front with _ | ⟨s, rest⟩
  · simp [rewriteFrom]
  · cases s <;> simp [rewriteFrom]

theorem count_backslash_digits (index : Int) (hindex : 0 ≤ index) :
    (Itoa index).count '\\' = 0 := by
  rw [List.count_eq_zero]
  intro hmem
  exact absurd (Itoa_isDigit index hindex '\\' hmem) (by decide)

/-- The rewrite of segments whose literals hold no backslash holds one backslash for each
parameter. -/
theorem rewriteFrom_count_backslash (segments : List Segment) (index : Int) (hindex : 0 ≤ index)
    (h : ∀ s ∈ segments, s.backslashFree = true) :
    (rewriteFrom index segments).count '\\' = paramCount segments := by
  induction segments generalizing index with
  | nil => rfl
  | cons s rest ih =>
    have hrest := fun i hi => ih i hi (fun t ht => h t (List.mem_cons_of_mem s ht))
    have hs := h s (List.mem_cons_self s rest)
    cases s with
    | literal text =>
      have htext : text.count '\\' = 0 := by
        rw [List.count_eq_zero]
        intro hmem
        simp only [Segment.backslashFree, List.all_eq_true, bne_iff_ne, ne_eq] at hs
        exact hs '\\' hmem rfl
      have hslash : ('/' == '\\') = false := by decide
      simp [rewriteFrom, paramCount, List.count_cons, List.count_append, htext,
        hrest index hindex, hslash]
    | parameter name =>
      have hslash : ('/' == '\\') = false := by decide
      simp [rewriteFrom, paramCount, List.count_cons, List.count_append,
        count_backslash_digits index hindex, hrest (index + 1) (by omega), hslash]

/-! ## Lemmas on `GetPort` -/

theorem indexChar_none (c : Char) (s : GoString) (h : ∀ y ∈ s, y ≠ c) :
    indexChar c s = none := by
  induction s with
  | nil => rfl
  | cons x xs ih =>
    have hx : x ≠ c := h x (List.mem_cons_self x xs)
    simp [indexChar, hx, ih (fun y hy => h y (List.mem_cons_of_mem x hy))]

theorem indexChar_append (c : Char) (front back : GoString) (h : ∀ y ∈ front, y ≠ c) :
    indexChar c (front ++ c :: back) = some front.length := by
  induction front with
  | nil => simp [indexChar]
  | cons x xs ih =>
    have hx : x ≠ c := h x (List.mem_cons_self x xs)
    simp [indexChar, hx, ih (fun y hy => h y (List.mem_cons_of_mem x hy))]

/-- Cutting at the first slash keeps the text before it. -/
theorem cut_at_first_slash (front rest : GoString) (h : ∀ y ∈ front, y ≠ '/')
    (hrest : rest = [] ∨ rest.head? = some '/') :
    (match indexChar '/' (front ++ rest) with
      | some indexOfSlash => (front ++ rest).take indexOfSlash
      | none => front ++ rest) = front := by
  rcases hrest with rfl | hhead
  · simp [indexChar_none '/' front h]
  · rcases rest with _ | ⟨x, xs⟩
    · simp at hhead
    · simp only [List.head?_cons, Option.some.injEq] at hhead
      subst hhead
      simp [indexChar_append '/' front xs h]

theorem GetPort_http (rest : GoString) :
    GetPort (.str ("http://".toList ++ rest)) = portOfHostPort rest "http".toList := by
  simp [GetPort, hasPrefix, String.toList, List.isPrefixOf]

theorem GetPort_https (rest : GoString) :
    GetPort (.str ("https://".toList ++ rest)) = portOfHostPort rest "https".toList := by
  simp [GetPort, hasPrefix, String.toList, List.isPrefixOf]

/-- Without a colon before the path the port is the default of the protocol. -/
theorem portOfHostPort_default (host path protocol : GoString)
    (hhost : ∀ c ∈ host, c ≠ ':' ∧ c ≠ '/') (hpath : path = [] ∨ path.head? = some '/') :
    portOfHostPort (host ++ path) protocol =
      if protocol = "https".toList then 443 else 80 := by
  unfold portOfHostPort
  simp only [cut_at_first_slash host path (fun y hy => (hhost y hy).2) hpath,
    indexChar_none ':' host (fun y hy => (hhost y hy).1)]

/-- With a colon after the host the port is what `strconv.Atoi` reads up to the path. -/
theorem portOfHostPort_explicit (host port path protocol : GoString)
    (hhost : ∀ c ∈ host, c ≠ ':' ∧ c ≠ '/') (hport : ∀ c ∈ port, c ≠ '/')
    (hpath : path = [] ∨ path.head? = some '/') :
    portOfHostPort (host ++ ':' :: (port ++ path)) protocol =
      match Atoi port with
      | none => -1
      | some portInt => portInt := by
  have hfront : ∀ y ∈ host ++ ':' :: port, y ≠ '/' := by
    intro y hy
    rcases List.mem_append.mp hy with hy | hy
    · exact (hhost y hy).2
    · rcases List.mem_cons.mp hy with rfl | hy
      · decide
      · exact hport y hy
  have hcut := cut_at_first_slash (host ++ ':' :: port) path hfront hpath
  have hshape : host ++ ':' :: (port ++ path) = (host ++ ':' :: port) ++ path := by simp
  unfold portOfHostPort
  simp only [hshape, hcut, indexChar_append ':' host port (fun y hy => (hhost y hy).1)]
  simp

theorem Atoi_of_not_decimal (s : GoString) (h : isDecimalInteger s = false) : Atoi s = none := by
  unfold isDecimalInteger at h
  unfold Atoi
  simp only at h ⊢
  generalize (if s.head? = some '-' ∨ s.head? = some '+' then s.tail else s) = body at h ⊢
  have hcond : (body.isEmpty || !body.all isDigit) = true := by
    cases hb : body.isEmpty <;> cases ha : body.all isDigit <;> simp [hb, ha] at h ⊢
  rw [if_pos hcond]

theorem takeWhile_noSlash (s : GoString) : ∀ c ∈ s.takeWhile (fun c => c != '/'), c ≠ '/' := by
  intro c hc
  have := List.mem_takeWhile_imp hc
  simpa using this

theorem dropWhile_slash_head (s : GoString) :
    s.dropWhile (fun c => c != '/') = [] ∨
      (s.dropWhile (fun c => c != '/')).head? = some '/' := by
  induction s with
  | nil => left; rfl
  | cons x xs ih =>
    by_cases hx : x = '/'
    · right; simp [List.dropWhile, hx]
    · have hb : (x != '/') = true := by simpa using hx
      simpa [List.dropWhile, hb] using ih

/-! ## The claims on the path translator -/

/-- Outside its two special cases `RetrievePathPrefix` puts the base path in front. -/
theorem RetrievePathPrefix_prefix (operation basePath : GoString)
    (hwild : operation ≠ "/*".toList) (hroot : operation ≠ "/".toList) :
    basePath <+: RetrievePathPrefix operation basePath := by
  unfold RetrievePathPrefix
  simp only [hwild, hroot, if_false]
  exact List.prefix_append _ _

/-- C11, the code at the failing inputs.  For the targets `/` and `/*` the function
`RetrievePathPrefix` returns `/` and `(.*)` from its early returns, and the base path `/api` is
a prefix of neither. -/
theorem C11_special_targets_drop_base_path :
    RetrievePathPrefix "/".toList "/api".toList = "/".toList ∧
    ¬ ("/api".toList <+: RetrievePathPrefix "/".toList "/api".toList) ∧
    RetrievePathPrefix "/*".toList "/api".toList = "(.*)".toList ∧
    ¬ ("/api".toList <+: RetrievePathPrefix "/*".toList "/api".toList) := by
  decide

/-- C12.  For a target of one or more well-formed segments, each preceded by a slash and the
last one not the literal `*`, `RetrievePathPrefix` returns the base path followed by the
segments in order, each preceded by a slash, every parameter replaced by `(.*)`; and the target
`/employee/{employeeId}` with the base path `/employees-info` gives
`/employees-info/employee/(.*)`. -/
theorem C12_match_pattern_of_segments (basePath : GoString) (segments : List Segment)
    (hne : segments ≠ []) (hwf : ∀ s ∈ segments, s.wellFormed = true)
    (hlast : segments.getLast? ≠ some Segment.wildcard) :
    RetrievePathPrefix (targetOf segments) basePath =
      basePath ++ renderPath Segment.matchText segments ∧
    RetrievePathPrefix "/employee/{employeeId}".toList "/employees-info".toList =
      "/employees-info/employee/(.*)".toList := by
  refine ⟨?_, by decide⟩
  have hnot : segments ≠ [Segment.wildcard] := by
    intro h
    rw [h] at hlast
    exact hlast rfl
  obtain ⟨middle, last, hmem, hgetLast, hshape, front, hfront⟩ :=
    renderPath_shape Segment.matchText segments hne
  have hlastwf := hwf last hmem
  have hlastne : last ≠ Segment.wildcard := by
    intro h
    rw [h] at hgetLast
    exact hlast hgetLast
  have hsuffix : hasSuffix (renderPath Segment.matchText segments) "/*".toList = false := by
    rw [hfront]
    exact hasSuffix_wildcard_false front last.matchText (Segment.matchText_ne_nil last hlastwf)
      (Segment.matchText_noSlash last hlastwf) (Segment.matchText_ne_star last hlastne)
  have htrim : trimSpace (renderPath Segment.matchText segments) =
      renderPath Segment.matchText segments := by
    rw [hshape]
    exact trimSpace_slash_path middle last.matchText (Segment.matchText_ne_nil last hlastwf)
      (Segment.matchText_lastNotSpace last hlastwf)
  unfold RetrievePathPrefix
  simp only [targetOf_ne_wildcard segments hwf hnot, targetOf_ne_slash segments hwf, if_false,
    foldl_retrievePathPrefixStep_targetOf segments hwf, hsuffix, Bool.false_eq_true, htrim]

/-- Witness of C12: the target `/employee/{employeeId}` of the tests. -/
theorem C12_match_pattern_witness :
    RetrievePathPrefix
        (targetOf [.literal "employee".toList, .parameter "employeeId".toList])
        "/employees-info".toList =
      "/employees-info".toList ++ renderPath Segment.matchText
        [.literal "employee".toList, .parameter "employeeId".toList] ∧
    RetrievePathPrefix "/employee/{employeeId}".toList "/employees-info".toList =
      "/employees-info/employee/(.*)".toList :=
  C12_match_pattern_of_segments "/employees-info".toList
    [.literal "employee".toList, .parameter "employeeId".toList] (by decide) (by decide)
    (by decide)

/-- C14.  For the target `/*` and an endpoint that is not a service entry, `GeneratePrefixMatch`
returns the two characters backslash and one. -/
theorem C14_wildcard_rewrite (endpointToUse : EndpointDetails) (operation : Operation)
    (hentry : endpointToUse.ServiceEntry = false) (htarget : operation.Target = "/*".toList) :
    GeneratePrefixMatch endpointToUse operation = ['\\', '1'] := by
  unfold GeneratePrefixMatch
  rw [htarget, hentry]
  decide

/-- Witness of C14: the endpoint of the tests and an operation with the target `/*`. -/
theorem C14_wildcard_rewrite_witness :
    GeneratePrefixMatch employeeEndpoint { Target := "/*".toList, Verb := "GET".toList } =
      ['\\', '1'] :=
  C14_wildcard_rewrite employeeEndpoint { Target := "/*".toList, Verb := "GET".toList } rfl rfl

/-- C15.  For a target made of one or more well-formed segments followed by `/*`,
`RetrievePathPrefix` returns the base path, the segments with every parameter replaced by
`(.*)`, and one capture group `(.*)` in place of the trailing `/*`; the target `/orders/*` with
the base path `/api` gives `/api/orders(.*)`. -/
theorem C15_wildcard_tail_match (basePath : GoString) (front : List Segment)
    (hne : front ≠ []) (hwf : ∀ s ∈ front, s.wellFormed = true) :
    RetrievePathPrefix (targetOf front ++ "/*".toList) basePath =
      basePath ++ renderPath Segment.matchText front ++ "(.*)".toList ∧
    RetrievePathPrefix "/orders/*".toList "/api".toList = "/api/orders(.*)".toList := by
  refine ⟨?_, by decide⟩
  have hwf2 : ∀ s ∈ front ++ [Segment.wildcard], s.wellFormed = true := by
    intro s hs
    rcases List.mem_append.mp hs with hs | hs
    · exact hwf s hs
    · rw [List.mem_singleton.mp hs]; exact Segment.wildcard_wellFormed
  have hnot : front ++ [Segment.wildcard] ≠ [Segment.wildcard] := by
    intro h
    have hlen := congrArg List.length h
    simp only [List.length_append, List.length_singleton] at hlen
    exact hne (List.length_eq_zero.mp (by omega))
  obtain ⟨middle, last, hmem, _, hshape, _⟩ := renderPath_shape Segment.matchText front hne
  have hgen : renderPath Segment.matchText (front ++ [Segment.wildcard]) =
      renderPath Segment.matchText front ++ "/*".toList := by
    rw [renderPath_append]; rfl
  have htake : (renderPath Segment.matchText front ++ "/*".toList).take
      ((renderPath Segment.matchText front ++ "/*".toList).length - 1) =
      renderPath Segment.matchText front ++ ['/'] := by
    have hshape2 : renderPath Segment.matchText front ++ "/*".toList =
        (renderPath Segment.matchText front ++ ['/']) ++ ['*'] := by simp
    rw [hshape2, List.length_append, List.length_singleton, Nat.add_sub_cancel,
      List.take_left]
  have hindex : lastIndexChar '/' (renderPath Segment.matchText front ++ ['/']) =
      some (renderPath Segment.matchText front).length :=
    lastIndexChar_append '/' _ [] (by simp)
  have htrim : trimSpace (renderPath Segment.matchText front ++ "(.*)".toList) =
      renderPath Segment.matchText front ++ "(.*)".toList := by
    rw [hshape]
    have hform : '/' :: (middle ++ last.matchText) ++ "(.*)".toList =
        '/' :: ((middle ++ last.matchText) ++ "(.*)".toList) := rfl
    rw [hform]
    exact trimSpace_slash_path _ _ (by decide) (by decide)
  rw [← targetOf_append_wildcard]
  unfold RetrievePathPrefix
  simp only [targetOf_ne_wildcard _ hwf2 hnot, targetOf_ne_slash _ hwf2, if_false,
    foldl_retrievePathPrefixStep_targetOf _ hwf2, hgen, hasSuffix_append_self, if_true, htake,
    hindex, List.take_left, htrim, List.append_assoc]

/-- Witness of C15: the target `/orders/{id}/*`. -/
theorem C15_wildcard_tail_witness :
    RetrievePathPrefix
        (targetOf [.literal "orders".toList, .parameter "id".toList] ++ "/*".toList)
        "/api".toList =
      "/api".toList ++ renderPath Segment.matchText
        [.literal "orders".toList, .parameter "id".toList] ++ "(.*)".toList ∧
    RetrievePathPrefix "/orders/*".toList "/api".toList = "/api/orders(.*)".toList :=
  C15_wildcard_tail_match "/api".toList [.literal "orders".toList, .parameter "id".toList]
    (by decide) (by decide)

/-- C17.  An operation with the empty target gets the match and the rewrite expression of the
same operation with the target `/*`. -/
theorem C17_empty_target_defaults_to_wildcard (apkConf : APKConf)
    (endpointToUse : EndpointDetails) (operation : Operation)
    (hempty : operation.Target = []) :
    retrieveHTTPMatch apkConf operation =
      retrieveHTTPMatch apkConf { operation with Target := "/*".toList } ∧
    GeneratePrefixMatch endpointToUse operation =
      GeneratePrefixMatch endpointToUse { operation with Target := "/*".toList } := by
  constructor
  · unfold retrieveHTTPMatch
    rw [hempty]
    rfl
  · unfold GeneratePrefixMatch
    rw [hempty]
    rfl

/-- Witness of C17: the operation `GET` with no target, under the contract of the tests. -/
theorem C17_empty_target_witness :
    retrieveHTTPMatch employeeConf { Verb := "GET".toList } =
      retrieveHTTPMatch employeeConf
        { ({ Verb := "GET".toList } : Operation) with Target := "/*".toList } ∧
    GeneratePrefixMatch employeeEndpoint { Verb := "GET".toList } =
      GeneratePrefixMatch employeeEndpoint
        { ({ Verb := "GET".toList } : Operation) with Target := "/*".toList } :=
  C17_empty_target_defaults_to_wildcard employeeConf employeeEndpoint { Verb := "GET".toList } rfl

theorem separatedTarget_pieces (leadingSlash : Bool) (segments : List Segment)
    (hne : segments ≠ []) (h : ∀ s ∈ segments, s.wellFormed = true) :
    splitSlash (separatedTarget leadingSlash segments) =
      (if leadingSlash then [[]] else []) ++ segments.map Segment.text := by
  cases leadingSlash with
  | true => simpa [separatedTarget] using targetOf_pieces segments h
  | false =>
    obtain ⟨s, rest, rfl⟩ := List.exists_cons_of_ne_nil hne
    have hs := Segment.text_noSlash s (h s (List.mem_cons_self s rest))
    have hrest : ∀ t ∈ rest, ∀ c ∈ t.text, c ≠ '/' :=
      fun t ht => Segment.text_noSlash t (h t (List.mem_cons_of_mem s ht))
    simpa [separatedTarget, targetOf, renderPath] using
      splitSlash_append_renderPath Segment.text rest hrest s.text hs

theorem separatedTarget_ne_nil (leadingSlash : Bool) (segments : List Segment)
    (hne : segments ≠ []) (h : ∀ s ∈ segments, s.wellFormed = true) :
    separatedTarget leadingSlash segments ≠ [] := by
  obtain ⟨s, rest, rfl⟩ := List.exists_cons_of_ne_nil hne
  have hs := Segment.text_ne_nil s (h s (List.mem_cons_self s rest))
  cases leadingSlash <;> simp [separatedTarget, targetOf, renderPath, hs]

theorem separatedTarget_ne_slash (leadingSlash : Bool) (segments : List Segment)
    (hne : segments ≠ []) (h : ∀ s ∈ segments, s.wellFormed = true) :
    separatedTarget leadingSlash segments ≠ "/".toList := by
  intro heq
  have hpieces := separatedTarget_pieces leadingSlash segments hne h
  rw [heq] at hpieces
  have hsplit : splitSlash "/".toList = [[], []] := by decide
  rw [hsplit] at hpieces
  obtain ⟨s, rest, rfl⟩ := List.exists_cons_of_ne_nil hne
  have hs := Segment.text_ne_nil s (h s (List.mem_cons_self s rest))
  cases leadingSlash
  · simp only [Bool.false_eq_true, if_false, List.nil_append, List.map_cons, List.cons.injEq]
      at hpieces
    exact hs hpieces.1.symm
  · simp only [if_true, List.singleton_append, List.map_cons, List.cons.injEq, true_and]
      at hpieces
    exact hs hpieces.1.symm

theorem separatedTarget_ne_wildcard (leadingSlash : Bool) (segments : List Segment)
    (hne : segments ≠ []) (h : ∀ s ∈ segments, s.wellFormed = true)
    (hnot : segments ≠ [Segment.wildcard]) :
    separatedTarget leadingSlash segments ≠ "/*".toList := by
  intro heq
  have hpieces := separatedTarget_pieces leadingSlash segments hne h
  rw [heq] at hpieces
  have hsplit : splitSlash "/*".toList = [[], ['*']] := by decide
  rw [hsplit] at hpieces
  obtain ⟨s, rest, rfl⟩ := List.exists_cons_of_ne_nil hne
  have hs := Segment.text_ne_nil s (h s (List.mem_cons_self s rest))
  cases leadingSlash
  · simp only [Bool.false_eq_true, if_false, List.nil_append, List.map_cons, List.cons.injEq]
      at hpieces
    exact hs hpieces.1.symm
  · simp only [if_true, List.singleton_append, List.map_cons, List.cons.injEq, true_and]
      at hpieces
    have hrest : rest = [] := List.map_eq_nil_iff.mp hpieces.2.symm
    apply hnot
    rw [hrest, Segment.eq_wildcard_of_text s hpieces.1.symm]

/-- The state of `GeneratePrefixMatch` after its loop, on a target of well-formed segments
separated by slashes. -/
theorem foldl_generatePrefixMatchStep_separatedTarget (leadingSlash : Bool)
    (segments : List Segment) (hne : segments ≠ [])
    (h : ∀ s ∈ segments, s.wellFormed = true) :
    (splitSlash (separatedTarget leadingSlash segments)).foldl generatePrefixMatchStep ([], 1) =
      (rewriteFrom 1 segments, 1 + (paramCount segments : Int)) := by
  rw [separatedTarget_pieces leadingSlash segments hne h]
  cases leadingSlash <;>
    simp [foldl_generatePrefixMatchStep segments h, generatePrefixMatchStep_nil]

/-- C13.  For a target of one or more well-formed segments separated by slashes, with or without
a slash in front, the literals free of backslashes and the last segment not the wildcard `*`,
`GeneratePrefixMatch` returns the segments in order, each preceded by a slash, the parameter that
comes `j`-th replaced by the backreference `\j`; the result holds as many backslashes as there
are parameters. -/
theorem C13_rewrite_of_segments (endpointToUse : EndpointDetails) (operation : Operation)
    (leadingSlash : Bool) (segments : List Segment) (hne : segments ≠ [])
    (hwf : ∀ s ∈ segments, s.wellFormed = true)
    (hbs : ∀ s ∈ segments, s.backslashFree = true)
    (hlast : segments.getLast? ≠ some Segment.wildcard)
    (htarget : operation.Target = separatedTarget leadingSlash segments) :
    GeneratePrefixMatch endpointToUse operation = rewriteFrom 1 segments ∧
    (GeneratePrefixMatch endpointToUse operation).count '\\' = paramCount segments := by
  have hnot : segments ≠ [Segment.wildcard] := by
    intro h
    rw [h] at hlast
    exact hlast rfl
  obtain ⟨middle, front, last, hsegs, hshape, hfront⟩ := rewriteFrom_shape 1 segments hne
  have hmem : last ∈ segments := by rw [hsegs]; simp
  have hlastwf := hwf last hmem
  have hlastne : last ≠ Segment.wildcard := by
    intro h
    apply hlast
    rw [hsegs, h]
    simp
  have hindex : (0 : Int) ≤ 1 + paramCount front := by omega
  have hsuffix : hasSuffix (rewriteFrom 1 segments) "/*".toList = false := by
    rw [hfront]
    exact hasSuffix_wildcard_false _ _ (Segment.rewriteText_ne_nil _ last hlastwf)
      (Segment.rewriteText_noSlash _ hindex last hlastwf)
      (Segment.rewriteText_ne_star _ last hlastne)
  have htrim : trimSpace (rewriteFrom 1 segments) = rewriteFrom 1 segments := by
    rw [hshape]
    exact trimSpace_slash_path middle _ (Segment.rewriteText_ne_nil _ last hlastwf)
      (Segment.rewriteText_lastNotSpace _ hindex last hlastwf)
  have hmain : GeneratePrefixMatch endpointToUse operation = rewriteFrom 1 segments := by
    unfold GeneratePrefixMatch
    simp only [htarget, separatedTarget_ne_nil leadingSlash segments hne hwf,
      separatedTarget_ne_wildcard leadingSlash segments hne hwf hnot,
      separatedTarget_ne_slash leadingSlash segments hne hwf, if_false,
      foldl_generatePrefixMatchStep_separatedTarget leadingSlash segments hne hwf,
      hsuffix, Bool.false_eq_true, htrim, ite_self]
  exact ⟨hmain, by rw [hmain]; exact rewriteFrom_count_backslash segments 1 (by omega) hbs⟩

/-- Witness of C13: the target `/a/{x}/b/{y}`, whose rewrite is `/a/\1/b/\2`. -/
theorem C13_rewrite_witness :
    GeneratePrefixMatch employeeEndpoint { Target := "/a/{x}/b/{y}".toList } =
      rewriteFrom 1 [.literal ['a'], .parameter ['x'], .literal ['b'], .parameter ['y']] ∧
    (GeneratePrefixMatch employeeEndpoint { Target := "/a/{x}/b/{y}".toList }).count '\\' =
      paramCount [.literal ['a'], .parameter ['x'], .literal ['b'], .parameter ['y']] :=
  C13_rewrite_of_segments employeeEndpoint { Target := "/a/{x}/b/{y}".toList } true
    [.literal ['a'], .parameter ['x'], .literal ['b'], .parameter ['y']] (by decide) (by decide)
    (by decide) (by decide) (by decide)

/-- C16, as amended.  For a target made of one or more well-formed segments followed by `/*`,
`GeneratePrefixMatch` returns the rewrite of the segments, three slashes and the decimal number
of the next parameter index, without a backslash; the target `/a/{x}/*` gives `/a/\1///2`. -/
theorem C16_wildcard_tail_rewrite (endpointToUse : EndpointDetails) (operation : Operation)
    (front : List Segment) (hne : front ≠ []) (hwf : ∀ s ∈ front, s.wellFormed = true)
    (htarget : operation.Target = targetOf front ++ "/*".toList) :
    GeneratePrefixMatch endpointToUse operation =
      rewriteFrom 1 front ++ "///".toList ++ Itoa ((paramCount front : Int) + 1) ∧
    GeneratePrefixMatch employeeEndpoint { Target := "/a/{x}/*".toList } =
      ['/', 'a', '/', '\\', '1', '/', '/', '/', '2'] := by
  refine ⟨?_, by decide⟩
  have hwf2 : ∀ s ∈ front ++ [Segment.wildcard], s.wellFormed = true := by
    intro s hs
    rcases List.mem_append.mp hs with hs | hs
    · exact hwf s hs
    · rw [List.mem_singleton.mp hs]; exact Segment.wildcard_wellFormed
  have hnot : front ++ [Segment.wildcard] ≠ [Segment.wildcard] := by
    intro h
    have hlen := congrArg List.length h
    simp only [List.length_append, List.length_singleton] at hlen
    exact hne (List.length_eq_zero.mp (by omega))
  have hne2 : front ++ [Segment.wildcard] ≠ [] := by simp
  obtain ⟨middle, front0, last, _, hshape, _⟩ := rewriteFrom_shape 1 front hne
  have hgen : rewriteFrom 1 (front ++ [Segment.wildcard]) =
      rewriteFrom 1 front ++ '/' :: ['*'] := by
    rw [rewriteFrom_append, rewriteFrom_singleton]; rfl
  have hcount : (1 : Int) + paramCount (front ++ [Segment.wildcard]) =
      (paramCount front : Int) + 1 := by
    rw [paramCount_append]
    simp [Segment.wildcard, paramCount, add_comm]
  have hsuffix : hasSuffix (rewriteFrom 1 front ++ '/' :: ['*']) "/*".toList = true :=
    hasSuffix_append_self (rewriteFrom 1 front) "/*".toList
  have hindex : lastIndexChar '/' (rewriteFrom 1 front ++ '/' :: ['*']) =
      some (rewriteFrom 1 front).length :=
    lastIndexChar_append '/' _ ['*'] (by decide)
  have hpos : (0 : Int) ≤ (paramCount front : Int) + 1 := by omega
  have htrim : trimSpace (rewriteFrom 1 front ++ "///".toList ++
      Itoa ((paramCount front : Int) + 1)) =
      rewriteFrom 1 front ++ "///".toList ++ Itoa ((paramCount front : Int) + 1) := by
    rw [hshape]
    have hform : '/' :: (middle ++ last.rewriteText (1 + paramCount front0)) ++ "///".toList ++
        Itoa ((paramCount front : Int) + 1) =
        '/' :: ((middle ++ last.rewriteText (1 + paramCount front0) ++ "///".toList) ++
          Itoa ((paramCount front : Int) + 1)) := by simp
    rw [hform]
    exact trimSpace_slash_path _ _ (Itoa_ne_nil _ hpos)
      (fun c hc => isDigit_not_isSpace c (Itoa_isDigit _ hpos c (List.mem_of_mem_getLast? hc)))
  unfold GeneratePrefixMatch
  rw [htarget, ← targetOf_append_wildcard]
  simp only [targetOf_ne_nil _ hne2, targetOf_ne_wildcard _ hwf2 hnot, targetOf_ne_slash _ hwf2,
    if_false, foldl_generatePrefixMatchStep_targetOf _ hwf2, hgen, hcount, hsuffix, if_true,
    hindex, List.take_left, htrim, ite_self]

/-- Witness of C16: the target `/a/{x}/*`. -/
theorem C16_wildcard_tail_witness :
    GeneratePrefixMatch employeeEndpoint { Target := "/a/{x}/*".toList } =
      rewriteFrom 1 [.literal ['a'], .parameter ['x']] ++ "///".toList ++
        Itoa ((paramCount [.literal ['a'], .parameter ['x']] : Int) + 1) ∧
    GeneratePrefixMatch employeeEndpoint { Target := "/a/{x}/*".toList } =
      ['/', 'a', '/', '\\', '1', '/', '/', '/', '2'] :=
  C16_wildcard_tail_rewrite employeeEndpoint { Target := "/a/{x}/*".toList }
    [.literal ['a'], .parameter ['x']] (by decide) (by decide) (by decide)

/-- Counterexample to C16 as stated.  For the target `/a/{x}/*` the rewrite ends in the bare
number `2`, not in the backreference `\2` the claim gives. -/
theorem C16_wildcard_tail_counterexample :
    GeneratePrefixMatch employeeEndpoint { Target := "/a/{x}/*".toList } =
      ['/', 'a', '/', '\\', '1', '/', '/', '/', '2'] ∧
    GeneratePrefixMatch employeeEndpoint { Target := "/a/{x}/*".toList } ≠
      ['/', 'a', '/', '\\', '1', '/', '/', '/', '\\', '2'] := by
  decide

/-! ## The claims on ports and schemes -/

/-- C18, as amended.  For a host without colon and slash, a path that is empty or begins with a
slash, and a number `n` below `2 ^ 63` written in decimal, `GetPort` returns 80 for
`http://host` and 443 for `https://host`, each followed by the path, and `n` for either scheme
followed by the host, a colon, the number and the path; `http://host:9090/path` gives 9090. -/
theorem C18_port_derivation (host path : GoString) (n : Nat) (_hne : host ≠ [])
    (hhost : ∀ c ∈ host, c ≠ ':' ∧ c ≠ '/') (hpath : path = [] ∨ path.head? = some '/')
    (hfit : n < 2 ^ 63) :
    GetPort (.str ("http://".toList ++ (host ++ path))) = 80 ∧
    GetPort (.str ("https://".toList ++ (host ++ path))) = 443 ∧
    GetPort (.str ("http://".toList ++ (host ++ ':' :: (Itoa n ++ path)))) = n ∧
    GetPort (.str ("https://".toList ++ (host ++ ':' :: (Itoa n ++ path)))) = n ∧
    GetPort (.str "http://host:9090/path".toList) = 9090 := by
  have hdigits : ∀ c ∈ Itoa (n : Int), c ≠ '/' :=
    fun c hc => isDigit_ne_slash c (Itoa_isDigit n (by omega) c hc)
  refine ⟨?_, ?_, ?_, ?_, by decide⟩
  · rw [GetPort_http, portOfHostPort_default host path _ hhost hpath]
    decide
  · rw [GetPort_https, portOfHostPort_default host path _ hhost hpath]
    decide
  · rw [GetPort_http, portOfHostPort_explicit host _ path _ hhost hdigits hpath,
      Atoi_Itoa n hfit]
  · rw [GetPort_https, portOfHostPort_explicit host _ path _ hhost hdigits hpath,
      Atoi_Itoa n hfit]

/-- Witness of C18: the host `host`, the path `/path` and the port 9090. -/
theorem C18_port_derivation_witness :
    GetPort (.str ("http://".toList ++ ("host".toList ++ "/path".toList))) = 80 ∧
    GetPort (.str ("https://".toList ++ ("host".toList ++ "/path".toList))) = 443 ∧
    GetPort (.str ("http://".toList ++
      ("host".toList ++ ':' :: (Itoa (9090 : Nat) ++ "/path".toList)))) = (9090 : Nat) ∧
    GetPort (.str ("https://".toList ++
      ("host".toList ++ ':' :: (Itoa (9090 : Nat) ++ "/path".toList)))) = (9090 : Nat) ∧
    GetPort (.str "http://host:9090/path".toList) = 9090 :=
  C18_port_derivation "host".toList "/path".toList 9090 (by decide) (by decide) (by decide)
    (by norm_num)

/-- Counterexample to C18 as stated.  The number `2 ^ 63`, written in decimal, is outside the
range of `strconv.Atoi`, and `GetPort` returns -1 for it. -/
theorem C18_port_out_of_range_counterexample :
    Itoa (9223372036854775808 : Nat) = "9223372036854775808".toList ∧
    GetPort (.str ("http://".toList ++
      ("host".toList ++ ':' :: (Itoa (9223372036854775808 : Nat) ++ [])))) = -1 := by
  decide

/-- A mirror policy whose only URL has no usable port adds no filter. -/
theorem extractHTTPRouteFilter_mirror_unusable (apkConf : APKConf) (endpoint : EndpointDetails)
    (operation : Operation) (policy : OperationPolicy) (url : GoString) (isRequest : Bool)
    (hpolicy : policy.Parameters = some (.urlList { URLs := [url] }))
    (hport : ¬ (GetPort (.str url) > 0)) :
    extractHTTPRouteFilter apkConf endpoint operation [policy] isRequest = ([], false) := by
  have hstep : extractStep endpoint operation {} policy = {} := by
    unfold extractStep
    rw [hpolicy]
    simp [mirrorStep, hport]
  unfold extractHTTPRouteFilter
  simp only [List.foldl_cons, List.foldl_nil, hstep]
  rfl

/-- C19, as amended.  For a URL made of `http://` or `https://`, a host without colon and slash,
a colon and a text `p` whose part before the first slash is not a decimal integer, `GetPort`
returns -1, which is not above zero, and a mirror policy whose only URL is that URL gives no
filter. -/
theorem C19_unparseable_port (scheme host p : GoString)
    (hscheme : scheme = "http://".toList ∨ scheme = "https://".toList)
    (hhost : ∀ c ∈ host, c ≠ ':' ∧ c ≠ '/')
    (hport : isDecimalInteger (p.takeWhile (fun c => c != '/')) = false) :
    GetPort (.str (scheme ++ (host ++ ':' :: p))) = -1 ∧
    ¬ (GetPort (.str (scheme ++ (host ++ ':' :: p))) > 0) ∧
    ∀ (apkConf : APKConf) (endpoint : EndpointDetails) (operation : Operation)
      (policy : OperationPolicy) (isRequest : Bool),
      policy.Parameters = some (.urlList { URLs := [scheme ++ (host ++ ':' :: p)] }) →
      extractHTTPRouteFilter apkConf endpoint operation [policy] isRequest = ([], false) := by
  have hsplit : p = p.takeWhile (fun c => c != '/') ++ p.dropWhile (fun c => c != '/') :=
    (List.takeWhile_append_dropWhile _ p).symm
  have hvalue : ∀ protocol, portOfHostPort (host ++ ':' :: p) protocol = -1 := by
    intro protocol
    rw [hsplit, portOfHostPort_explicit host _ _ protocol hhost (takeWhile_noSlash p)
      (dropWhile_slash_head p), Atoi_of_not_decimal _ hport]
  have hget : GetPort (.str (scheme ++ (host ++ ':' :: p))) = -1 := by
    rcases hscheme with rfl | rfl
    · rw [GetPort_http, hvalue]
    · rw [GetPort_https, hvalue]
  refine ⟨hget, by rw [hget]; decide, ?_⟩
  intro apkConf endpoint operation policy isRequest hpolicy
  exact extractHTTPRouteFilter_mirror_unusable apkConf endpoint operation policy _ isRequest
    hpolicy (by rw [hget]; decide)

/-- Witness of C19: the URL `http://host:notaport`. -/
theorem C19_unparseable_port_witness :
    GetPort (.str ("http://".toList ++ ("host".toList ++ ':' :: "notaport".toList))) = -1 ∧
    ¬ (GetPort (.str ("http://".toList ++ ("host".toList ++ ':' :: "notaport".toList))) > 0) ∧
    ∀ (apkConf : APKConf) (endpoint : EndpointDetails) (operation : Operation)
      (policy : OperationPolicy) (isRequest : Bool),
      policy.Parameters = some (.urlList
        { URLs := ["http://".toList ++ ("host".toList ++ ':' :: "notaport".toList)] }) →
      extractHTTPRouteFilter apkConf endpoint operation [policy] isRequest = ([], false) :=
  C19_unparseable_port "http://".toList "host".toList "notaport".toList (Or.inl rfl)
    (by decide) (by decide)

/-- Counterexample to C19 as stated.  In `http://host:80/path` the text after the colon,
`80/path`, is not a decimal integer, yet `GetPort` returns 80 and the mirror policy with this
URL gives a filter. -/
theorem C19_port_before_path_counterexample :
    isDecimalInteger "80/path".toList = false ∧
    GetPort (.str ("http://".toList ++ ("host".toList ++ ':' :: "80/path".toList))) = 80 ∧
    extractHTTPRouteFilter employeeConf employeeEndpoint opPlain
        [mirrorPolicyOf ("http://".toList ++ ("host".toList ++ ':' :: "80/path".toList))] true =
      ([{ Type_ := "RequestMirror".toList,
          RequestMirror := some
            { BackendRef :=
                { Kind := some "Service".toList, Name := "employee-service".toList } } }],
        false) := by
  decide

/-- C20.  For a string that begins with neither `http://` nor `https://`, `GetPort` returns -1,
`GetHost` returns the empty string and `GetPath` returns the empty string. -/
theorem C20_scheme_required (url : GoString) (hhttp : ¬ ("http://".toList <+: url))
    (hhttps : ¬ ("https://".toList <+: url)) :
    GetPort (.str url) = -1 ∧ GetHost (some (.EndpointURL url)) = [] ∧ GetPath url = [] := by
  have h1 : hasPrefix url "http://".toList = false := by
    unfold hasPrefix
    rw [Bool.eq_false_iff, Ne, List.isPrefixOf_iff_prefix]
    exact hhttp
  have h2 : hasPrefix url "https://".toList = false := by
    unfold hasPrefix
    rw [Bool.eq_false_iff, Ne, List.isPrefixOf_iff_prefix]
    exact hhttps
  have h3 : ¬ (url.take 7 = "http://".toList) := by
    intro h
    exact hhttp (h ▸ List.take_prefix 7 url)
  have h4 : ¬ (url.take 8 = "https://".toList) := by
    intro h
    exact hhttps (h ▸ List.take_prefix 8 url)
  refine ⟨?_, ?_, ?_⟩
  · simp only [GetPort, h1, h2, Bool.false_eq_true, if_false]
  · simp only [GetHost, h3, h4, and_false, if_false]
  · simp only [GetPath, h1, h2, Bool.false_eq_true, if_false]

/-- Witness of C20: the string `employee-service:8080`, which has no scheme. -/
theorem C20_scheme_required_witness :
    GetPort (.str "employee-service:8080".toList) = -1 ∧
    GetHost (some (.EndpointURL "employee-service:8080".toList)) = [] ∧
    GetPath "employee-service:8080".toList = [] :=
  C20_scheme_required "employee-service:8080".toList (by decide) (by decide)

/-! ## The claims on endpoints and route objects -/

theorem GetHost_http (rest : GoString) :
    GetHost (some (.EndpointURL ("http://".toList ++ rest))) = hostOfRest rest := by
  simp [GetHost, hostOfRest, String.toList]

theorem GetHost_https (rest : GoString) :
    GetHost (some (.EndpointURL ("https://".toList ++ rest))) = hostOfRest rest := by
  simp [GetHost, hostOfRest, String.toList]

theorem GetHost_service (service : K8sService) :
    GetHost (some (.K8sService service)) =
      GetHost (some (.EndpointURL (ConstructURlFromK8sService (.k8sService service)))) := rfl

theorem GetPort_service (service : K8sService) :
    GetPort (.k8sService service) =
      GetPort (.str (ConstructURlFromK8sService (.k8sService service))) := rfl

theorem hostOfRest_colon (host tail : GoString) (h : ∀ c ∈ host, c ≠ ':') :
    hostOfRest (host ++ ':' :: tail) = host := by
  simp [hostOfRest, indexChar_append ':' host tail h]

/-- C21, the code at the failing input.  For `http://backend/v1/items:batch` the function
`GetHost` looks for a colon first and cuts there, although a slash comes earlier: it returns
`backend/v1/items`, which holds slashes, and not `backend`. -/
theorem C21_host_runs_past_the_slash :
    GetHost (some (.EndpointURL "http://backend/v1/items:batch".toList)) =
      "backend/v1/items".toList ∧
    '/' ∈ GetHost (some (.EndpointURL "http://backend/v1/items:batch".toList)) ∧
    GetHost (some (.EndpointURL "http://backend/v1/items:batch".toList)) ≠
      "backend".toList := by
  decide

/-- C22, as amended.  For an in-cluster service whose protocol is `http` or `https`, whose name
and namespace hold no colon and no slash, and whose port is a decimal number below `2 ^ 63`,
`ConstructURlFromK8sService` returns `protocol://name.namespace.svc.cluster.local:port`, and
`GetHost`, `GetPort` and `GetProtocol` give back the host name, the port and the protocol. -/
theorem C22_service_round_trip (service : K8sService)
    (hprotocol : service.Protocol = "http".toList ∨ service.Protocol = "https".toList)
    (hname : ∀ c ∈ service.Name, c ≠ ':' ∧ c ≠ '/')
    (hnamespace : ∀ c ∈ service.Namespace, c ≠ ':' ∧ c ≠ '/')
    (hport : service.Port ≠ []) (hdigits : ∀ c ∈ service.Port, isDigit c = true)
    (hfit : digitsValue service.Port < 2 ^ 63) :
    ConstructURlFromK8sService (.k8sService service) =
      service.Protocol ++ "://".toList ++ service.Name ++ ".".toList ++ service.Namespace ++
        ".svc.cluster.local:".toList ++ service.Port ∧
    GetHost (some (.K8sService service)) =
      service.Name ++ ".".toList ++ service.Namespace ++ ".svc.cluster.local".toList ∧
    GetPort (.k8sService service) = digitsValue service.Port ∧
    GetProtocol (.k8sService service) = service.Protocol := by
  have hhost : ∀ c ∈ service.Name ++ ".".toList ++ service.Namespace ++
      ".svc.cluster.local".toList, c ≠ ':' ∧ c ≠ '/' := by
    intro c hc
    simp only [List.mem_append] at hc
    rcases hc with ((hc | hc) | hc) | hc
    · exact hname c hc
    · revert c; decide
    · exact hnamespace c hc
    · revert c; decide
  have hslash : ∀ c ∈ service.Port, c ≠ '/' :=
    fun c hc => isDigit_ne_slash c (hdigits c hc)
  have hatoi := Atoi_digits service.Port hport hdigits hfit
  have hexplicit := fun protocol => portOfHostPort_explicit
    (service.Name ++ ".".toList ++ service.Namespace ++ ".svc.cluster.local".toList)
    service.Port [] protocol hhost hslash (Or.inl rfl)
  simp only [List.append_nil, hatoi] at hexplicit
  have hcolon := hostOfRest_colon
    (service.Name ++ ".".toList ++ service.Namespace ++ ".svc.cluster.local".toList)
    service.Port (fun c hc => (hhost c hc).1)
  refine ⟨rfl, ?_, ?_, ?_⟩
  · rw [GetHost_service]
    rcases hprotocol with hp | hp
    · have hurl : ConstructURlFromK8sService (.k8sService service) =
          "http://".toList ++ ((service.Name ++ ".".toList ++ service.Namespace ++
            ".svc.cluster.local".toList) ++ ':' :: service.Port) := by
        simp [ConstructURlFromK8sService, hp, String.toList]
      rw [hurl, GetHost_http, hcolon]
    · have hurl : ConstructURlFromK8sService (.k8sService service) =
          "https://".toList ++ ((service.Name ++ ".".toList ++ service.Namespace ++
            ".svc.cluster.local".toList) ++ ':' :: service.Port) := by
        simp [ConstructURlFromK8sService, hp, String.toList]
      rw [hurl, GetHost_https, hcolon]
  · rw [GetPort_service]
    rcases hprotocol with hp | hp
    · have hurl : ConstructURlFromK8sService (.k8sService service) =
          "http://".toList ++ ((service.Name ++ ".".toList ++ service.Namespace ++
            ".svc.cluster.local".toList) ++ ':' :: service.Port) := by
        simp [ConstructURlFromK8sService, hp, String.toList]
      rw [hurl, GetPort_http, hexplicit]
    · have hurl : ConstructURlFromK8sService (.k8sService service) =
          "https://".toList ++ ((service.Name ++ ".".toList ++ service.Namespace ++
            ".svc.cluster.local".toList) ++ ':' :: service.Port) := by
        simp [ConstructURlFromK8sService, hp, String.toList]
      rw [hurl, GetPort_https, hexplicit]
  · rcases hprotocol with hp | hp <;> simp [GetProtocol, hp, String.toList]

/-- Witness of C22: the service `orders` of the namespace `shop` on port 8080. -/
theorem C22_service_round_trip_witness :
    ConstructURlFromK8sService (.k8sService ordersService) =
      ordersService.Protocol ++ "://".toList ++ ordersService.Name ++ ".".toList ++
        ordersService.Namespace ++ ".svc.cluster.local:".toList ++ ordersService.Port ∧
    GetHost (some (.K8sService ordersService)) =
      ordersService.Name ++ ".".toList ++ ordersService.Namespace ++
        ".svc.cluster.local".toList ∧
    GetPort (.k8sService ordersService) = digitsValue ordersService.Port ∧
    GetProtocol (.k8sService ordersService) = ordersService.Protocol :=
  C22_service_round_trip ordersService (by decide) (by decide) (by decide) (by decide)
    (by decide) (by decide)

/-- Counterexample to C22 as stated.  The port `9223372036854775808` is a decimal natural
number, but it is outside the range of `strconv.Atoi`, and `GetPort` returns -1 for the
service. -/
theorem C22_service_port_counterexample :
    hugePortService.Port.all isDigit = true ∧
    digitsValue hugePortService.Port = 9223372036854775808 ∧
    GetPort (.k8sService hugePortService) = -1 := by
  decide

/-- C23.  When the rule generation succeeds, the route returned by `GenerateHTTPRoute` is named
by the unique id, a dash, the endpoint type, `-httproute-` and the count in decimal, and the
route returned by `GenerateGRPCRoute` likewise with `-grpcroute-`. -/
theorem C23_route_names (apkConf : APKConf) (organization : Organization)
    (gatewayConfiguration : GatewayConfigurations) (operations : List Operation)
    (endpoint : Option EndpointDetails) (endpointType uniqueId : GoString) (count : Int)
    (httpRules : List HTTPRouteRule) (grpcRules : List GRPCRouteRule)
    (hhttp : generateHTTPRouteRules apkConf operations endpoint endpointType =
      .ok (httpRules, none))
    (hgrpc : generateGRPCRouteRules apkConf operations endpoint endpointType =
      .ok (grpcRules, none)) :
    (∃ route, GenerateHTTPRoute apkConf organization gatewayConfiguration operations endpoint
        endpointType uniqueId count = .ok (some route, none) ∧
      route.ObjectMeta.Name =
        uniqueId ++ "-".toList ++ endpointType ++ "-httproute-".toList ++ Itoa count) ∧
    (∃ route, GenerateGRPCRoute apkConf organization gatewayConfiguration operations endpoint
        endpointType uniqueId count = .ok (some route, none) ∧
      route.ObjectMeta.Name =
        uniqueId ++ "-".toList ++ endpointType ++ "-grpcroute-".toList ++ Itoa count) := by
  have h1 : GenerateHTTPRoute apkConf organization gatewayConfiguration operations endpoint
      endpointType uniqueId count =
      .ok (some
        { ObjectMeta :=
            { Name := uniqueId ++ "-".toList ++ endpointType ++ "-httproute-".toList ++
                Itoa count },
          Spec :=
            { ParentRefs := generateAndRetrieveParentRefs gatewayConfiguration uniqueId,
              Rules := httpRules,
              Hostnames := GetHostNames apkConf endpointType organization } }, none) := by
    unfold GenerateHTTPRoute
    rw [hhttp]
    rfl
  have h2 : GenerateGRPCRoute apkConf organization gatewayConfiguration operations endpoint
      endpointType uniqueId count =
      .ok (some
        { ObjectMeta :=
            { Name := uniqueId ++ "-".toList ++ endpointType ++ "-grpcroute-".toList ++
                Itoa count },
          Spec :=
            { ParentRefs := grpcGenerateAndRetrieveParentRefs gatewayConfiguration uniqueId,
              Rules := grpcRules,
              Hostnames := GetHostNames apkConf endpointType organization } }, none) := by
    unfold GenerateGRPCRoute
    rw [hgrpc]
    rfl
  exact ⟨⟨_, h1, rfl⟩, ⟨_, h2, rfl⟩⟩

/-- Witness of C23: the operation `GET /employees` of the tests, the unique id `test-id` and the
count 1. -/
theorem C23_route_names_witness :
    (∃ route, GenerateHTTPRoute employeeConf testOrganization testGateway [opPlain]
        (some employeeEndpoint) PRODUCTION_TYPE "test-id".toList 1 = .ok (some route, none) ∧
      route.ObjectMeta.Name =
        "test-id".toList ++ "-".toList ++ PRODUCTION_TYPE ++ "-httproute-".toList ++ Itoa 1) ∧
    (∃ route, GenerateGRPCRoute employeeConf testOrganization testGateway [opPlain]
        (some employeeEndpoint) PRODUCTION_TYPE "test-id".toList 1 = .ok (some route, none) ∧
      route.ObjectMeta.Name =
        "test-id".toList ++ "-".toList ++ PRODUCTION_TYPE ++ "-grpcroute-".toList ++ Itoa 1) :=
  C23_route_names employeeConf testOrganization testGateway [opPlain] (some employeeEndpoint)
    PRODUCTION_TYPE "test-id".toList 1
    [employeeRule "GET".toList "/employees-info/employees".toList "/employees".toList]
    [{ Matches :=
         [{ Method := some
              { Type_ := some "Exact".toList, Service := some "/employees".toList,
                Method := some "GET".toList } }],
       BackendRefs := [{ Kind := some "Service".toList, Name := "employee-service".toList }] }]
    (by decide) (by decide)

/-- C24.  Both `generateAndRetrieveParentRefs`, of the HTTP and of the gRPC generator, return
one parent reference, with the group `gateway.networking.k8s.io`, the kind `Gateway`, the name
of the gateway and its listener as section name, whatever the unique id. -/
theorem C24_one_parent_reference (gatewayConfig : GatewayConfigurations)
    (uniqueId otherId : GoString) :
    generateAndRetrieveParentRefs gatewayConfig uniqueId =
      [{ Group := some "gateway.networking.k8s.io".toList, Kind := some "Gateway".toList,
         Name := gatewayConfig.Name, SectionName := some gatewayConfig.ListenerName }] ∧
    grpcGenerateAndRetrieveParentRefs gatewayConfig uniqueId =
      [{ Group := some "gateway.networking.k8s.io".toList, Kind := some "Gateway".toList,
         Name := gatewayConfig.Name, SectionName := some gatewayConfig.ListenerName }] ∧
    generateAndRetrieveParentRefs gatewayConfig otherId =
      generateAndRetrieveParentRefs gatewayConfig uniqueId ∧
    grpcGenerateAndRetrieveParentRefs gatewayConfig otherId =
      grpcGenerateAndRetrieveParentRefs gatewayConfig uniqueId :=
  ⟨rfl, rfl, rfl, rfl⟩

/-- C25.  `generateHTTPBackEndRef` returns one backend reference, of kind `Service`, named after
the endpoint, with no group, namespace, port or weight, whatever the operation and the endpoint
type. -/
theorem C25_one_backend_reference (endpoint : EndpointDetails) (operation other : Operation)
    (endpointType otherType : GoString) :
    generateHTTPBackEndRef endpoint operation endpointType =
      [{ Group := none, Kind := some "Service".toList, Name := endpoint.Name,
         Namespace := none, Port := none, Weight := none, Filters := [] }] ∧
    generateHTTPBackEndRef endpoint other otherType =
      generateHTTPBackEndRef endpoint operation endpointType :=
  ⟨rfl, rfl⟩

/-- C26.  For the contract of the tests, with its four operations, the endpoint that
`GetEndpoints` finds for `production` is `employee-service`, and `GenerateHTTPRoute` with the
type `production`, a unique id and the count 1 returns no error and a route named by the unique
id followed by `-production-httproute-1`, with four rules; each rule has one match, one filter,
which is a URLRewrite filter, and one backend reference, named `employee-service`. -/
theorem C26_employee_contract_route (organization : Organization)
    (gatewayConfiguration : GatewayConfigurations) (uniqueId : GoString) :
    GetEndpoints employeeContract = .ok [(PRODUCTION_TYPE, employeeEndpoint)] ∧
    employeeContract.Operations = some employeeOperations ∧
    GenerateHTTPRoute employeeContract organization gatewayConfiguration employeeOperations
        (some employeeEndpoint) PRODUCTION_TYPE uniqueId 1 =
      .ok (some
        { ObjectMeta := { Name := uniqueId ++ "-production-httproute-1".toList },
          Spec :=
            { ParentRefs := generateAndRetrieveParentRefs gatewayConfiguration uniqueId,
              Hostnames := [],
              Rules := employeeRules } }, none) ∧
    employeeRules.length = 4 ∧
    employeeRules.all (fun rule =>
      decide (rule.Matches.length = 1) && decide (rule.Filters.length = 1) &&
        rule.Filters.all isURLRewrite && decide (rule.BackendRefs.length = 1) &&
        rule.BackendRefs.all (fun ref => decide (ref.Name = "employee-service".toList))) =
      true := by
  have hrules : generateHTTPRouteRules employeeContract employeeOperations
      (some employeeEndpoint) PRODUCTION_TYPE = .ok (employeeRules, none) := by decide
  refine ⟨by decide, rfl, ?_, by decide, by decide⟩
  unfold GenerateHTTPRoute
  rw [hrules]
  simp [GetHostNames, PRODUCTION_TYPE, Itoa, String.toList, bind, Except.bind, pure,
    Except.pure]
  decide

/-- C27.  `retrieveHTTPMatches` returns no error and one match: its method is the verb of the
operation, its path type is `RegularExpression`, and its path value is `RetrievePathPrefix` of
the target, or of `/*` for the empty target, and of the base path of the contract. -/
theorem C27_one_match (apkConf : APKConf) (operation : Operation) :
    retrieveHTTPMatches apkConf operation =
      ([{ Method := some operation.Verb,
          Path := some
            { Type_ := some "RegularExpression".toList,
              Value := some (RetrievePathPrefix
                (if operation.Target ≠ [] then operation.Target else "/*".toList)
                apkConf.BasePath) } }], none) := rfl

/-- C28.  When an endpoint is resolved for the operation, `generateGRPCRouteRule` returns a rule
with one match, of type `Exact`, on the target of the operation as service and its verb as
method, with no filter and with one backend reference, of kind `Service`, named after the
resolved endpoint, whatever the policies of the contract and of the operation. -/
theorem C28_grpc_rule (apkConf : APKConf) (operation : Operation)
    (endpoint : Option EndpointDetails) (endpointType : GoString)
    (endpointToUse : EndpointDetails)
    (hres : resolveEndpointToUse operation endpoint endpointType = .ok (some endpointToUse)) :
    generateGRPCRouteRule apkConf operation endpoint endpointType =
      .ok (some
        { Matches :=
            [{ Method := some
                 { Type_ := some "Exact".toList, Service := some operation.Target,
                   Method := some operation.Verb } }],
          Filters := [],
          BackendRefs :=
            [{ Kind := some "Service".toList, Name := endpointToUse.Name }] }, none) := by
  rw [generateGRPCRouteRule_of_resolved apkConf operation endpoint endpointType endpointToUse
    hres]
  rfl

/-- Witness of C28: an operation with a redirect policy, under a contract with contract-level
policies, and the endpoint of the tests. -/
theorem C28_grpc_rule_witness :
    generateGRPCRouteRule confWithApiPolicies opRedirectInRequest (some employeeEndpoint)
        PRODUCTION_TYPE =
      .ok (some
        { Matches :=
            [{ Method := some
                 { Type_ := some "Exact".toList, Service := some opRedirectInRequest.Target,
                   Method := some opRedirectInRequest.Verb } }],
          Filters := [],
          BackendRefs :=
            [{ Kind := some "Service".toList, Name := employeeEndpoint.Name }] }, none) :=
  C28_grpc_rule confWithApiPolicies opRedirectInRequest (some employeeEndpoint) PRODUCTION_TYPE
    employeeEndpoint (by decide)

/-! ## The filter chain against its description -/

theorem mirrorStep_eq (endpoint : EndpointDetails) (operation : Operation)
    (filters : List HTTPRouteFilter) (url : GoString) :
    mirrorStep endpoint operation filters url =
      if GetPort (.str url) > 0 then filters ++ [mirrorFilterOf endpoint] else filters := rfl

theorem foldl_mirrorStep_eq (endpoint : EndpointDetails) (operation : Operation)
    (urls : List GoString) (filters : List HTTPRouteFilter) :
    urls.foldl (mirrorStep endpoint operation) filters =
      filters ++ (urls.filter (fun url => decide (GetPort (.str url) > 0))).map
        (fun _ => mirrorFilterOf endpoint) := by
  induction urls generalizing filters with
  | nil => simp
  | cons url rest ih =>
    rw [List.foldl_cons, ih, mirrorStep_eq]
    by_cases hport : GetPort (.str url) > 0
    · simp [hport]
    · simp [hport]

theorem addHeadersOf_cons (policy : OperationPolicy) (rest : List OperationPolicy) :
    addHeadersOf (policy :: rest) = addHeadersOf [policy] ++ addHeadersOf rest := by
  obtain ⟨name, version, id, parameters⟩ := policy
  rcases parameters with _ | p
  · simp [addHeadersOf]
  · cases p <;> simp [addHeadersOf]
    split_ifs <;> simp

theorem setHeadersOf_cons (policy : OperationPolicy) (rest : List OperationPolicy) :
    setHeadersOf (policy :: rest) = setHeadersOf [policy] ++ setHeadersOf rest := by
  obtain ⟨name, version, id, parameters⟩ := policy
  rcases parameters with _ | p
  · simp [setHeadersOf]
  · cases p <;> simp [setHeadersOf]
    split_ifs <;> simp

theorem removeHeadersOf_cons (policy : OperationPolicy) (rest : List OperationPolicy) :
    removeHeadersOf (policy :: rest) = removeHeadersOf [policy] ++ removeHeadersOf rest := by
  obtain ⟨name, version, id, parameters⟩ := policy
  rcases parameters with _ | p
  · simp [removeHeadersOf]
  · cases p <;> simp [removeHeadersOf]
    split_ifs <;> simp

/-- One round of the loop of `extractHTTPRouteFilter`, on each of its five variables. -/
theorem extractStep_eq (endpoint : EndpointDetails) (operation : Operation)
    (st : ExtractState) (policy : OperationPolicy) :
    extractStep endpoint operation st policy =
      { httpRouteFilters := st.httpRouteFilters ++ policyFiltersOf endpoint policy,
        addHeaders := st.addHeaders ++ addHeadersOf [policy],
        setHeaders := st.setHeaders ++ setHeadersOf [policy],
        removeHeaders := st.removeHeaders ++ removeHeadersOf [policy],
        hasRedirectPolicy := st.hasRedirectPolicy || isRedirectPolicy policy } := by
  obtain ⟨name, version, id, parameters⟩ := policy
  obtain ⟨filters, adds, sets, removes, flag⟩ := st
  rcases parameters with _ | p
  · simp [extractStep, policyFiltersOf, addHeadersOf, setHeadersOf, removeHeadersOf,
      isRedirectPolicy]
  · cases p with
    | redirectPolicy redirect =>
      simp [extractStep, policyFiltersOf, addHeadersOf, setHeadersOf, removeHeadersOf,
        isRedirectPolicy]
    | urlList urlList =>
      simp [extractStep, policyFiltersOf, addHeadersOf, setHeadersOf, removeHeadersOf,
        isRedirectPolicy, foldl_mirrorStep_eq]
    | header header =>
      by_cases hadd : name = "AddHeader".toList
      · have h1 : ¬ ("AddHeader".toList = "SetHeader".toList) := by decide
        have h2 : ¬ ("AddHeader".toList = "RemoveHeader".toList) := by decide
        subst hadd
        simp only [extractStep, policyFiltersOf, addHeadersOf, setHeadersOf, removeHeadersOf,
          isRedirectPolicy, h1, h2, if_true, if_false]
        simp
      · by_cases hset : name = "SetHeader".toList
        · have h2 : ¬ ("SetHeader".toList = "RemoveHeader".toList) := by decide
          have h1 : ¬ ("SetHeader".toList = "AddHeader".toList) := by decide
          subst hset
          simp only [extractStep, policyFiltersOf, addHeadersOf, setHeadersOf, removeHeadersOf,
            isRedirectPolicy, h1, h2, if_true, if_false]
          simp
        · by_cases hremove : name = "RemoveHeader".toList
          · simp only [extractStep, policyFiltersOf, addHeadersOf, setHeadersOf,
              removeHeadersOf, isRedirectPolicy, hadd, hset, hremove, if_true, if_false]
            simp
          · simp only [extractStep, policyFiltersOf, addHeadersOf, setHeadersOf,
              removeHeadersOf, isRedirectPolicy, hadd, hset, hremove, if_false]
            simp
    | interceptorService service =>
      simp [extractStep, policyFiltersOf, addHeadersOf, setHeadersOf, removeHeadersOf,
        isRedirectPolicy]
    | backendJWT jwt =>
      simp [extractStep, policyFiltersOf, addHeadersOf, setHeadersOf, removeHeadersOf,
        isRedirectPolicy]

/-- The five variables of `extractHTTPRouteFilter` after its loop. -/
theorem foldl_extractStep_eq (endpoint : EndpointDetails) (operation : Operation)
    (policies : List OperationPolicy) (st : ExtractState) :
    policies.foldl (extractStep endpoint operation) st =
      { httpRouteFilters := st.httpRouteFilters ++ chainFiltersOf endpoint policies,
        addHeaders := st.addHeaders ++ addHeadersOf policies,
        setHeaders := st.setHeaders ++ setHeadersOf policies,
        removeHeaders := st.removeHeaders ++ removeHeadersOf policies,
        hasRedirectPolicy := st.hasRedirectPolicy || policies.any isRedirectPolicy } := by
  induction policies generalizing st with
  | nil => simp [chainFiltersOf, addHeadersOf, setHeadersOf, removeHeadersOf]
  | cons policy rest ih =>
    rw [List.foldl_cons, ih, extractStep_eq, addHeadersOf_cons policy rest,
      setHeadersOf_cons policy rest, removeHeadersOf_cons policy rest]
    simp [chainFiltersOf, Bool.or_assoc]

/-- The result of `extractHTTPRouteFilter`, in one expression: the mirror and redirect filters
in input order, then the header modifier when a bucket holds an entry, and the redirect flag. -/
theorem extractHTTPRouteFilter_eq (apkConf : APKConf) (endpoint : EndpointDetails)
    (operation : Operation) (policies : List OperationPolicy) (isRequest : Bool) :
    extractHTTPRouteFilter apkConf endpoint operation policies isRequest =
      (chainFiltersOf endpoint policies ++
        (if hasHeaderEntries policies then [headerModifierFilterOf policies isRequest]
          else []),
       policies.any isRedirectPolicy) := by
  unfold extractHTTPRouteFilter
  rw [foldl_extractStep_eq]
  simp only [List.nil_append, Bool.false_or, hasHeaderEntries, headerModifierFilterOf]
  rcases hadd : addHeadersOf policies with _ | ⟨a, adds⟩ <;>
    rcases hset : setHeadersOf policies with _ | ⟨b, sets⟩ <;>
    rcases hremove : removeHeadersOf policies with _ | ⟨c, removes⟩ <;>
    cases isRequest <;> simp

theorem policyFiltersOf_noHeaderModifier (endpoint : EndpointDetails)
    (policy : OperationPolicy) :
    ∀ f ∈ policyFiltersOf endpoint policy,
      isHeaderModifier f = false ∧ f.RequestHeaderModifier = none ∧
        f.ResponseHeaderModifier = none := by
  obtain ⟨name, version, id, parameters⟩ := policy
  have hredirect : ∀ redirect : RedirectPolicy,
      isHeaderModifier (redirectFilterOf redirect) = false ∧
      (redirectFilterOf redirect).RequestHeaderModifier = none ∧
      (redirectFilterOf redirect).ResponseHeaderModifier = none := by
    intro redirect
    unfold redirectFilterOf
    simp only
    split_ifs <;> exact ⟨rfl, rfl, rfl⟩
  intro f hf
  rcases parameters with _ | p
  · simp [policyFiltersOf] at hf
  · cases p with
    | redirectPolicy redirect =>
      simp only [policyFiltersOf, List.mem_singleton] at hf
      rw [hf]
      exact hredirect redirect
    | urlList urlList =>
      simp only [policyFiltersOf, List.mem_map] at hf
      obtain ⟨_, _, rfl⟩ := hf
      exact ⟨rfl, rfl, rfl⟩
    | header header => simp [policyFiltersOf] at hf
    | interceptorService service => simp [policyFiltersOf] at hf
    | backendJWT jwt => simp [policyFiltersOf] at hf

theorem chainFiltersOf_noHeaderModifier (endpoint : EndpointDetails)
    (policies : List OperationPolicy) :
    ∀ f ∈ chainFiltersOf endpoint policies,
      isHeaderModifier f = false ∧ f.RequestHeaderModifier = none ∧
        f.ResponseHeaderModifier = none := by
  induction policies with
  | nil => simp [chainFiltersOf]
  | cons policy rest ih =>
    intro f hf
    simp only [chainFiltersOf, List.mem_append] at hf
    rcases hf with hf | hf
    · exact policyFiltersOf_noHeaderModifier endpoint policy f hf
    · exact ih f hf

/-- C29.  The output of `extractHTTPRouteFilter` is the mirror and redirect filters, none of
which is a header modifier, followed by one header-modifier filter exactly when one of the three
header buckets holds an entry; that filter combines the three buckets, and its type is
`RequestHeaderModifier` for the request direction and `ResponseHeaderModifier` for the response
direction. -/
theorem C29_one_header_modifier_last (apkConf : APKConf) (endpoint : EndpointDetails)
    (operation : Operation) (policies : List OperationPolicy) (isRequest : Bool) :
    (extractHTTPRouteFilter apkConf endpoint operation policies isRequest).1 =
      chainFiltersOf endpoint policies ++
        (if hasHeaderEntries policies then [headerModifierFilterOf policies isRequest]
          else []) ∧
    (chainFiltersOf endpoint policies).any isHeaderModifier = false ∧
    ((extractHTTPRouteFilter apkConf endpoint operation policies isRequest).1.filter
        isHeaderModifier).length = (if hasHeaderEntries policies then 1 else 0) ∧
    headerModifierFilterOf policies true =
      { Type_ := "RequestHeaderModifier".toList,
        RequestHeaderModifier := some
          { Add := addHeadersOf policies, Set := setHeadersOf policies,
            Remove := removeHeadersOf policies } } ∧
    headerModifierFilterOf policies false =
      { Type_ := "ResponseHeaderModifier".toList,
        ResponseHeaderModifier := some
          { Add := addHeadersOf policies, Set := setHeadersOf policies,
            Remove := removeHeadersOf policies } } := by
  have hnone : (chainFiltersOf endpoint policies).any isHeaderModifier = false := by
    rw [List.any_eq_false]
    intro f hf
    simp [(chainFiltersOf_noHeaderModifier endpoint policies f hf).1]
  have hfilter : (chainFiltersOf endpoint policies).filter isHeaderModifier = [] := by
    rw [List.filter_eq_nil_iff]
    intro f hf
    simp [(chainFiltersOf_noHeaderModifier endpoint policies f hf).1]
  have hmod : isHeaderModifier (headerModifierFilterOf policies isRequest) = true := by
    cases isRequest <;> simp [headerModifierFilterOf, isHeaderModifier]
  refine ⟨by rw [extractHTTPRouteFilter_eq], hnone, ?_, rfl, rfl⟩
  rw [extractHTTPRouteFilter_eq]
  simp only [List.filter_append, hfilter, List.nil_append]
  cases hasHeaderEntries policies <;> simp [hmod]

/-- C30.  The header modifier that `extractHTTPRouteFilter` synthesizes holds, as its Add list,
the name and value of the `AddHeader` policies in input order, as its Set list those of the
`SetHeader` policies, and as its Remove list the header names of the `RemoveHeader` policies,
duplicates kept; the loop gathers exactly these three lists. -/
theorem C30_header_buckets_in_order (apkConf : APKConf) (endpoint : EndpointDetails)
    (operation : Operation) (policies : List OperationPolicy) :
    (policies.foldl (extractStep endpoint operation) {}).addHeaders = addHeadersOf policies ∧
    (policies.foldl (extractStep endpoint operation) {}).setHeaders = setHeadersOf policies ∧
    (policies.foldl (extractStep endpoint operation) {}).removeHeaders =
      removeHeadersOf policies ∧
    (extractHTTPRouteFilter apkConf endpoint operation policies true).1.filterMap
        (fun f => f.RequestHeaderModifier) =
      (if hasHeaderEntries policies then
        [{ Add := addHeadersOf policies, Set := setHeadersOf policies,
           Remove := removeHeadersOf policies }]
       else []) ∧
    (extractHTTPRouteFilter apkConf endpoint operation policies false).1.filterMap
        (fun f => f.ResponseHeaderModifier) =
      (if hasHeaderEntries policies then
        [{ Add := addHeadersOf policies, Set := setHeadersOf policies,
           Remove := removeHeadersOf policies }]
       else []) ∧
    addHeadersOf [addEnvHeader, setEnvHeader, removeDebugHeader, addEnvHeader] =
      [{ Name := "X-Env".toList, Value := "prod".toList },
       { Name := "X-Env".toList, Value := "prod".toList }] ∧
    setHeadersOf [addEnvHeader, setEnvHeader, removeDebugHeader, addEnvHeader] =
      [{ Name := "X-Env".toList, Value := "test".toList }] ∧
    removeHeadersOf [addEnvHeader, setEnvHeader, removeDebugHeader, addEnvHeader] =
      ["X-Debug".toList] := by
  have hreq : (chainFiltersOf endpoint policies).filterMap
      (fun f => f.RequestHeaderModifier) = [] := by
    rw [List.filterMap_eq_nil_iff]
    exact fun f hf => (chainFiltersOf_noHeaderModifier endpoint policies f hf).2.1
  have hresp : (chainFiltersOf endpoint policies).filterMap
      (fun f => f.ResponseHeaderModifier) = [] := by
    rw [List.filterMap_eq_nil_iff]
    exact fun f hf => (chainFiltersOf_noHeaderModifier endpoint policies f hf).2.2
  refine ⟨by rw [foldl_extractStep_eq]; simp, by rw [foldl_extractStep_eq]; simp,
    by rw [foldl_extractStep_eq]; simp, ?_, ?_, by decide, by decide, by decide⟩
  · rw [extractHTTPRouteFilter_eq]
    simp only [List.filterMap_append, hreq, List.nil_append]
    cases hasHeaderEntries policies <;> simp [headerModifierFilterOf]
  · rw [extractHTTPRouteFilter_eq]
    simp only [List.filterMap_append, hresp, List.nil_append]
    cases hasHeaderEntries policies <;> simp [headerModifierFilterOf]

/-! ## The claims on mirror and redirect policies -/

theorem chainFiltersOf_append (endpoint : EndpointDetails) (front back : List OperationPolicy) :
    chainFiltersOf endpoint (front ++ back) =
      chainFiltersOf endpoint front ++ chainFiltersOf endpoint back := by
  induction front with
  | nil => simp [chainFiltersOf]
  | cons policy rest ih => simp [chainFiltersOf, ih]

theorem chainFiltersOf_around (endpoint : EndpointDetails) (before after : List OperationPolicy)
    (policy : OperationPolicy) :
    chainFiltersOf endpoint (before ++ policy :: after) =
      chainFiltersOf endpoint before ++ policyFiltersOf endpoint policy ++
        chainFiltersOf endpoint after := by
  rw [chainFiltersOf_append]
  simp [chainFiltersOf]

/-- C31.  A mirror policy gives, at its place in the output of `extractHTTPRouteFilter`, one
RequestMirror filter for each of its URLs with a usable port, in the order of the URLs, and
nothing for the other URLs; the backend of each filter is the service named after the resolved
endpoint.  A list made of the mirror policy alone gives these filters and no redirect. -/
theorem C31_mirror_filters (apkConf : APKConf) (endpoint : EndpointDetails)
    (operation : Operation) (before after : List OperationPolicy) (policy : OperationPolicy)
    (urlList : URLList) (isRequest : Bool)
    (hpolicy : policy.Parameters = some (.urlList urlList)) :
    (extractHTTPRouteFilter apkConf endpoint operation (before ++ policy :: after)
        isRequest).1 =
      chainFiltersOf endpoint before ++
        (urlList.URLs.filter (fun url => decide (GetPort (.str url) > 0))).map
          (fun _ =>
            { Type_ := "RequestMirror".toList,
              RequestMirror := some
                { BackendRef :=
                    { Kind := some "Service".toList, Name := endpoint.Name } } }) ++
        chainFiltersOf endpoint after ++
        (if hasHeaderEntries (before ++ policy :: after) then
          [headerModifierFilterOf (before ++ policy :: after) isRequest]
         else []) ∧
    extractHTTPRouteFilter apkConf endpoint operation [policy] isRequest =
      ((urlList.URLs.filter (fun url => decide (GetPort (.str url) > 0))).map
          (fun _ =>
            { Type_ := "RequestMirror".toList,
              RequestMirror := some
                { BackendRef :=
                    { Kind := some "Service".toList, Name := endpoint.Name } } }), false) := by
  have hfilters : policyFiltersOf endpoint policy =
      (urlList.URLs.filter (fun url => decide (GetPort (.str url) > 0))).map
        (fun _ => mirrorFilterOf endpoint) := by
    simp [policyFiltersOf, hpolicy]
  constructor
  · rw [extractHTTPRouteFilter_eq, chainFiltersOf_around, hfilters]
    rfl
  · rw [extractHTTPRouteFilter_eq]
    simp [chainFiltersOf, hfilters, hasHeaderEntries, addHeadersOf, setHeadersOf,
      removeHeadersOf, hpolicy, isRedirectPolicy, mirrorFilterOf]

/-- Witness of C31: a mirror policy with three URLs, the second without a usable port, between an
`AddHeader` policy and a redirect policy. -/
theorem C31_mirror_filters_witness :
    (extractHTTPRouteFilter employeeConf employeeEndpoint opPlain
        ([addEnvHeader] ++ mirrorThreeUrls :: [redirectToExample]) true).1 =
      chainFiltersOf employeeEndpoint [addEnvHeader] ++
        (["http://mirror-a:8080".toList, "mirror-b".toList,
          "https://mirror-c/copy".toList].filter
            (fun url => decide (GetPort (.str url) > 0))).map
          (fun _ =>
            { Type_ := "RequestMirror".toList,
              RequestMirror := some
                { BackendRef :=
                    { Kind := some "Service".toList, Name := employeeEndpoint.Name } } }) ++
        chainFiltersOf employeeEndpoint [redirectToExample] ++
        (if hasHeaderEntries ([addEnvHeader] ++ mirrorThreeUrls :: [redirectToExample]) then
          [headerModifierFilterOf ([addEnvHeader] ++ mirrorThreeUrls :: [redirectToExample])
            true]
         else []) ∧
    extractHTTPRouteFilter employeeConf employeeEndpoint opPlain [mirrorThreeUrls] true =
      ((["http://mirror-a:8080".toList, "mirror-b".toList,
          "https://mirror-c/copy".toList].filter
            (fun url => decide (GetPort (.str url) > 0))).map
          (fun _ =>
            { Type_ := "RequestMirror".toList,
              RequestMirror := some
                { BackendRef :=
                    { Kind := some "Service".toList, Name := employeeEndpoint.Name } } }),
        false) :=
  C31_mirror_filters employeeConf employeeEndpoint opPlain [addEnvHeader] [redirectToExample]
    mirrorThreeUrls
    { URLs := ["http://mirror-a:8080".toList, "mirror-b".toList,
               "https://mirror-c/copy".toList] } true rfl

theorem redirectFilterOf_usable (redirect : RedirectPolicy)
    (hport : GetPort (.str redirect.URL) > 0) :
    redirectFilterOf redirect =
      { Type_ := "RequestRedirect".toList,
        RequestRedirect := some
          { Hostname := some (GetHost (some (.EndpointURL redirect.URL))),
            Scheme := some (GetProtocol (.str redirect.URL)),
            Path := some
              { Type_ := "ReplaceFullPath".toList,
                ReplaceFullPath := some (GetPath redirect.URL) },
            StatusCode := if redirect.StatusCode > 0 then some redirect.StatusCode else none } } := by
  unfold redirectFilterOf
  simp only [hport, if_true]
  by_cases hcode : redirect.StatusCode > 0
  · simp [hcode]
  · simp [hcode]

theorem redirectFilterOf_unusable (redirect : RedirectPolicy)
    (hport : ¬ (GetPort (.str redirect.URL) > 0)) :
    redirectFilterOf redirect = { Type_ := "RequestRedirect".toList } := by
  unfold redirectFilterOf
  simp only [hport, if_false]

/-- C32.  A redirect policy whose URL has a usable port makes `extractHTTPRouteFilter` report a
redirect and gives, at its place in the output, one RequestRedirect filter: its hostname is
`GetHost` of the URL, its scheme is `GetProtocol` of the URL, which is `https` when the URL
begins with `https://` and `http` otherwise, its path replaces the full path by `GetPath` of the URL, and its
status code is the code of the policy when that is above zero and is unset otherwise. -/
theorem C32_redirect_filter (apkConf : APKConf) (endpoint : EndpointDetails)
    (operation : Operation) (before after : List OperationPolicy) (policy : OperationPolicy)
    (url : GoString) (code : Int) (isRequest : Bool)
    (hpolicy : policy.Parameters = some (.redirectPolicy { URL := url, StatusCode := code }))
    (hport : GetPort (.str url) > 0) :
    extractHTTPRouteFilter apkConf endpoint operation (before ++ policy :: after) isRequest =
      (chainFiltersOf endpoint before ++
        [{ Type_ := "RequestRedirect".toList,
           RequestRedirect := some
             { Hostname := some (GetHost (some (.EndpointURL url))),
               Scheme := some (GetProtocol (.str url)),
               Path := some
                 { Type_ := "ReplaceFullPath".toList, ReplaceFullPath := some (GetPath url) },
               StatusCode := if code > 0 then some code else none } }] ++
        chainFiltersOf endpoint after ++
        (if hasHeaderEntries (before ++ policy :: after) then
          [headerModifierFilterOf (before ++ policy :: after) isRequest]
         else []), true) ∧
    GetProtocol (.str url) =
      (if hasPrefix url "https://".toList then "https".toList else "http".toList) := by
  have hfilters : policyFiltersOf endpoint policy =
      [redirectFilterOf { URL := url, StatusCode := code }] := by
    simp [policyFiltersOf, hpolicy]
  have hflag : (before ++ policy :: after).any isRedirectPolicy = true := by
    simp [isRedirectPolicy, hpolicy]
  constructor
  · rw [extractHTTPRouteFilter_eq, chainFiltersOf_around, hfilters, hflag,
      redirectFilterOf_usable { URL := url, StatusCode := code } hport]
  · rfl

/-- Witness of C32: the redirect to `http://example.com/moved` with the status code 301. -/
theorem C32_redirect_filter_witness :
    extractHTTPRouteFilter employeeConf employeeEndpoint opPlain
        ([addEnvHeader] ++ redirectToExample :: [mirrorThreeUrls]) true =
      (chainFiltersOf employeeEndpoint [addEnvHeader] ++
        [{ Type_ := "RequestRedirect".toList,
           RequestRedirect := some
             { Hostname := some
                 (GetHost (some (.EndpointURL "http://example.com/moved".toList))),
               Scheme := some (GetProtocol (.str "http://example.com/moved".toList)),
               Path := some
                 { Type_ := "ReplaceFullPath".toList,
                   ReplaceFullPath := some (GetPath "http://example.com/moved".toList) },
               StatusCode := if (301 : Int) > 0 then some 301 else none } }] ++
        chainFiltersOf employeeEndpoint [mirrorThreeUrls] ++
        (if hasHeaderEntries ([addEnvHeader] ++ redirectToExample :: [mirrorThreeUrls]) then
          [headerModifierFilterOf ([addEnvHeader] ++ redirectToExample :: [mirrorThreeUrls])
            true]
         else []), true) ∧
    GetProtocol (.str "http://example.com/moved".toList) =
      (if hasPrefix "http://example.com/moved".toList "https://".toList then "https".toList
       else "http".toList) :=
  C32_redirect_filter employeeConf employeeEndpoint opPlain [addEnvHeader] [mirrorThreeUrls]
    redirectToExample "http://example.com/moved".toList 301 true rfl (by decide)

theorem toResponseDirection_chainFiltersOf (endpoint : EndpointDetails)
    (policies : List OperationPolicy) :
    (chainFiltersOf endpoint policies).map toResponseDirection =
      chainFiltersOf endpoint policies := by
  have hid : ∀ f ∈ chainFiltersOf endpoint policies, toResponseDirection f = f := by
    intro f hf
    have hno := (chainFiltersOf_noHeaderModifier endpoint policies f hf).1
    have htype : f.Type_ ≠ "RequestHeaderModifier".toList := by
      intro heq
      simp [isHeaderModifier, heq] at hno
    rw [toResponseDirection, if_neg htype]
  calc (chainFiltersOf endpoint policies).map toResponseDirection
      = (chainFiltersOf endpoint policies).map id := List.map_congr_left hid
    _ = chainFiltersOf endpoint policies := List.map_id _

theorem toResponseDirection_headerModifierFilterOf (policies : List OperationPolicy) :
    toResponseDirection (headerModifierFilterOf policies true) =
      headerModifierFilterOf policies false := by
  simp [toResponseDirection, headerModifierFilterOf]

/-- C33.  For every policy list, `extractHTTPRouteFilter` is total in the response direction as in
the request direction, and the two calls report the same redirect flag and return the same mirror
and redirect filters at the same positions: the response output is the request output with the
header modifier, which is the one filter after the mirror and redirect filters when a header
bucket holds an entry, turned from a request header modifier into the response header modifier
with the same headers. -/
theorem C33_response_direction (apkConf : APKConf) (endpoint : EndpointDetails)
    (operation : Operation) (policies : List OperationPolicy) :
    (extractHTTPRouteFilter apkConf endpoint operation policies false).2 =
      (extractHTTPRouteFilter apkConf endpoint operation policies true).2 ∧
    (extractHTTPRouteFilter apkConf endpoint operation policies false).1 =
      (extractHTTPRouteFilter apkConf endpoint operation policies true).1.map
        toResponseDirection ∧
    (extractHTTPRouteFilter apkConf endpoint operation policies true).1.take
        (chainFiltersOf endpoint policies).length = chainFiltersOf endpoint policies ∧
    (extractHTTPRouteFilter apkConf endpoint operation policies false).1.take
        (chainFiltersOf endpoint policies).length = chainFiltersOf endpoint policies ∧
    (extractHTTPRouteFilter apkConf endpoint operation policies true).1.drop
        (chainFiltersOf endpoint policies).length =
      (if hasHeaderEntries policies then [headerModifierFilterOf policies true] else []) ∧
    (extractHTTPRouteFilter apkConf endpoint operation policies false).1.drop
        (chainFiltersOf endpoint policies).length =
      (if hasHeaderEntries policies then [headerModifierFilterOf policies false] else []) ∧
    (headerModifierFilterOf policies true).RequestHeaderModifier =
      (headerModifierFilterOf policies false).ResponseHeaderModifier := by
  refine ⟨?_, ?_, ?_, ?_, ?_, ?_, rfl⟩
  · simp only [extractHTTPRouteFilter_eq]
  · simp only [extractHTTPRouteFilter_eq, List.map_append,
      toResponseDirection_chainFiltersOf]
    cases hasHeaderEntries policies
    · simp
    · simp [toResponseDirection_headerModifierFilterOf]
  · simp only [extractHTTPRouteFilter_eq, List.take_left']
  · simp only [extractHTTPRouteFilter_eq, List.take_left']
  · simp only [extractHTTPRouteFilter_eq, List.drop_left']
  · simp only [extractHTTPRouteFilter_eq, List.drop_left']

/-! ## The claims on hostnames and on the order of the filters -/

theorem GenerateHTTPRoute_hostnames (apkConf : APKConf) (organization : Organization)
    (gatewayConfiguration : GatewayConfigurations) (operations : List Operation)
    (endpoint : Option EndpointDetails) (endpointType uniqueId : GoString) (count : Int)
    (route : HTTPRoute)
    (h : GenerateHTTPRoute apkConf organization gatewayConfiguration operations endpoint
      endpointType uniqueId count = .ok (some route, none)) :
    route.Spec.Hostnames = GetHostNames apkConf endpointType organization := by
  unfold GenerateHTTPRoute at h
  cases hr : generateHTTPRouteRules apkConf operations endpoint endpointType with
  | error e =>
    rw [hr] at h
    cases h
  | ok result =>
    obtain ⟨rules, err⟩ := result
    rw [hr] at h
    cases err with
    | some e => simp [bind, Except.bind, pure, Except.pure] at h
    | none =>
      simp only [bind, Except.bind, pure, Except.pure, Except.ok.injEq, Prod.mk.injEq,
        Option.some.injEq, and_true] at h
      rw [← h]

theorem GenerateGRPCRoute_hostnames (apkConf : APKConf) (organization : Organization)
    (gatewayConfiguration : GatewayConfigurations) (operations : List Operation)
    (endpoint : Option EndpointDetails) (endpointType uniqueId : GoString) (count : Int)
    (route : GRPCRoute)
    (h : GenerateGRPCRoute apkConf organization gatewayConfiguration operations endpoint
      endpointType uniqueId count = .ok (some route, none)) :
    route.Spec.Hostnames = GetHostNames apkConf endpointType organization := by
  unfold GenerateGRPCRoute at h
  cases hr : generateGRPCRouteRules apkConf operations endpoint endpointType with
  | error e =>
    rw [hr] at h
    cases h
  | ok result =>
    obtain ⟨rules, err⟩ := result
    rw [hr] at h
    cases err with
    | some e => simp [bind, Except.bind, pure, Except.pure] at h
    | none =>
      simp only [bind, Except.bind, pure, Except.pure, Except.ok.injEq, Prod.mk.injEq,
        Option.some.injEq, and_true] at h
      rw [← h]

/-- C34.  `GetHostNames` returns the empty sequence for every configuration, endpoint type and
organization, and a route returned by `GenerateHTTPRoute` or by `GenerateGRPCRoute` carries no
hostnames. -/
theorem C34_no_hostnames (apkConf grpcConf : APKConf) (organization grpcOrganization : Organization)
    (gatewayConfiguration grpcGateway : GatewayConfigurations)
    (operations grpcOperations : List Operation)
    (endpoint grpcEndpoint : Option EndpointDetails)
    (endpointType uniqueId grpcEndpointType grpcUniqueId : GoString) (count grpcCount : Int)
    (httpRoute : HTTPRoute) (grpcRoute : GRPCRoute)
    (hhttp : GenerateHTTPRoute apkConf organization gatewayConfiguration operations endpoint
      endpointType uniqueId count = .ok (some httpRoute, none))
    (hgrpc : GenerateGRPCRoute grpcConf grpcOrganization grpcGateway grpcOperations grpcEndpoint
      grpcEndpointType grpcUniqueId grpcCount = .ok (some grpcRoute, none)) :
    GetHostNames apkConf endpointType organization = [] ∧
    httpRoute.Spec.Hostnames = [] ∧ grpcRoute.Spec.Hostnames = [] :=
  ⟨rfl,
   (GenerateHTTPRoute_hostnames apkConf organization gatewayConfiguration operations endpoint
      endpointType uniqueId count httpRoute hhttp).trans rfl,
   (GenerateGRPCRoute_hostnames grpcConf grpcOrganization grpcGateway grpcOperations
      grpcEndpoint grpcEndpointType grpcUniqueId grpcCount grpcRoute hgrpc).trans rfl⟩

/-- Witness of C34: the HTTP route and the gRPC route of the operation `GET /employees`. -/
theorem C34_no_hostnames_witness :
    GetHostNames employeeConf PRODUCTION_TYPE testOrganization = [] ∧
    ({ ObjectMeta := { Name := "test-id-production-httproute-1".toList },
       Spec :=
         { ParentRefs := generateAndRetrieveParentRefs testGateway "test-id".toList,
           Rules :=
             [employeeRule "GET".toList "/employees-info/employees".toList
               "/employees".toList] } } : HTTPRoute).Spec.Hostnames = [] ∧
    ({ ObjectMeta := { Name := "test-id-production-grpcroute-1".toList },
       Spec :=
         { ParentRefs := grpcGenerateAndRetrieveParentRefs testGateway "test-id".toList,
           Rules :=
             [{ Matches :=
                  [{ Method := some
                       { Type_ := some "Exact".toList, Service := some "/employees".toList,
                         Method := some "GET".toList } }],
                BackendRefs :=
                  [{ Kind := some "Service".toList, Name := "employee-service".toList }] }] } } :
      GRPCRoute).Spec.Hostnames = [] :=
  C34_no_hostnames employeeConf employeeConf testOrganization testOrganization testGateway
    testGateway [opPlain] [opPlain] (some employeeEndpoint) (some employeeEndpoint)
    PRODUCTION_TYPE "test-id".toList PRODUCTION_TYPE "test-id".toList 1 1
    { ObjectMeta := { Name := "test-id-production-httproute-1".toList },
      Spec :=
        { ParentRefs := generateAndRetrieveParentRefs testGateway "test-id".toList,
          Rules :=
            [employeeRule "GET".toList "/employees-info/employees".toList
              "/employees".toList] } }
    { ObjectMeta := { Name := "test-id-production-grpcroute-1".toList },
      Spec :=
        { ParentRefs := grpcGenerateAndRetrieveParentRefs testGateway "test-id".toList,
          Rules :=
            [{ Matches :=
                 [{ Method := some
                      { Type_ := some "Exact".toList, Service := some "/employees".toList,
                        Method := some "GET".toList } }],
               BackendRefs :=
                 [{ Kind := some "Service".toList, Name := "employee-service".toList }] }] } }
    (by decide) (by decide)

theorem directionFilters_eq_extract (apkConf : APKConf) (endpoint : EndpointDetails)
    (operation : Operation) (policies : List OperationPolicy) (isRequest : Bool) :
    directionFilters apkConf endpoint operation policies isRequest =
      (extractHTTPRouteFilter apkConf endpoint operation policies isRequest).1 := by
  unfold directionFilters
  split_ifs with h
  · rfl
  · have hnil : policies = [] := by simpa using h
    subst hnil
    rw [extractHTTPRouteFilter_eq]
    rfl

/-- C35.  The filter list of `generateHTTPRouteFilters` is the filters of
`extractHTTPRouteFilter` on the request list in effect, then those on the response list in
effect, then, when the request call reported no redirect, the URLRewrite filter; none of the
filters before it is a URLRewrite filter, so the URLRewrite filter, when present, is the last
filter. -/
theorem C35_filter_order (apkConf : APKConf) (endpointToUse : EndpointDetails)
    (operation : Operation) (endpointType : GoString) :
    generateHTTPRouteFilters apkConf endpointToUse operation endpointType =
      ((extractHTTPRouteFilter apkConf endpointToUse operation
            (requestPoliciesInEffect apkConf operation) true).1 ++
        (extractHTTPRouteFilter apkConf endpointToUse operation
            (responsePoliciesInEffect apkConf operation) false).1 ++
        (if (extractHTTPRouteFilter apkConf endpointToUse operation
              (requestPoliciesInEffect apkConf operation) true).2 then []
          else [replacePathFilterOf (GeneratePrefixMatch endpointToUse operation)]),
       (extractHTTPRouteFilter apkConf endpointToUse operation
          (requestPoliciesInEffect apkConf operation) true).2) ∧
    ((extractHTTPRouteFilter apkConf endpointToUse operation
          (requestPoliciesInEffect apkConf operation) true).1 ++
        (extractHTTPRouteFilter apkConf endpointToUse operation
          (responsePoliciesInEffect apkConf operation) false).1).any isURLRewrite = false ∧
    isURLRewrite (replacePathFilterOf (GeneratePrefixMatch endpointToUse operation)) = true ∧
    ((generateHTTPRouteFilters apkConf endpointToUse operation endpointType).2 = true ∨
      (generateHTTPRouteFilters apkConf endpointToUse operation endpointType).1.getLast? =
        some (replacePathFilterOf (GeneratePrefixMatch endpointToUse operation))) := by
  have heq := generateHTTPRouteFilters_eq apkConf endpointToUse operation endpointType
  simp only [directionFilters_eq_extract, ← extractHTTPRouteFilter_snd apkConf endpointToUse
    operation (requestPoliciesInEffect apkConf operation) true] at heq
  refine ⟨heq, ?_, rfl, ?_⟩
  · rw [Bool.eq_false_iff]
    intro hany
    obtain ⟨f, hf, hrewrite⟩ := List.any_eq_true.mp hany
    rcases List.mem_append.mp hf with hf | hf
    · rw [extractHTTPRouteFilter_noRewrite _ _ _ _ _ f hf] at hrewrite
      cases hrewrite
    · rw [extractHTTPRouteFilter_noRewrite _ _ _ _ _ f hf] at hrewrite
      cases hrewrite
  · rw [heq]
    cases (extractHTTPRouteFilter apkConf endpointToUse operation
      (requestPoliciesInEffect apkConf operation) true).2
    · right
      simp
    · left
      rfl

/-! ## Lemmas on white space at the ends of the rewrite -/

theorem head_dropWhile_not (p : Char → Bool) (l : GoString) :
    ∀ c, (l.dropWhile p).head? = some c → p c = false := by
  induction l with
  | nil => intro c hc; simp at hc
  | cons x xs ih =>
    intro c hc
    by_cases hx : p x = true
    · rw [List.dropWhile_cons_of_pos hx] at hc
      exact ih c hc
    · rw [List.dropWhile_cons_of_neg hx] at hc
      simp only [List.head?_cons, Option.some.injEq] at hc
      rw [← hc]
      simpa using hx

/-- The result of `strings.TrimSpace` does not end with white space. -/
theorem trimSpace_getLast (s : GoString) :
    ∀ c, (trimSpace s).getLast? = some c → isSpace c = false := by
  intro c hc
  unfold trimSpace at hc
  rw [List.getLast?_reverse] at hc
  exact head_dropWhile_not isSpace _ c hc

theorem getLast?_tail_of_cons (x : Char) (xs : GoString)
    (h : ∀ c, (x :: xs).getLast? = some c → isSpace c = false) :
    ∀ c, xs.getLast? = some c → isSpace c = false := by
  intro c hc
  cases xs with
  | nil => simp at hc
  | cons y ys =>
    apply h
    rw [List.getLast?_cons_cons]
    exact hc

theorem getLast?_append_clean (front back : GoString)
    (hfront : ∀ c, front.getLast? = some c → isSpace c = false)
    (hback : ∀ c, back.getLast? = some c → isSpace c = false) :
    ∀ c, (front ++ back).getLast? = some c → isSpace c = false := by
  intro c hc
  rw [List.getLast?_append] at hc
  cases hb : back.getLast? with
  | none =>
    rw [hb] at hc
    exact hfront c (by simpa using hc)
  | some d =>
    rw [hb] at hc
    have hcd : d = c := by simpa using hc
    exact hback c (by rw [hb, hcd])

theorem reReplaceAux_eq_nil (repl : GoString) (hne : repl ≠ []) (s : GoString)
    (h : reReplaceAux repl 0 s = []) : s = [] := by
  cases s with
  | nil => rfl
  | cons x xs =>
    exfalso
    unfold reReplaceAux at h
    split_ifs at h
    · cases hb : braceMatchLength xs with
      | none => rw [hb] at h; simp at h
      | some k =>
        rw [hb] at h
        simp only [List.append_eq_nil] at h
        exact hne h.1

/-- The replacement of the parameters keeps the end of a string free of white space, when the
replacement text is not empty and does not end with white space. -/
theorem reReplaceAux_getLast (repl : GoString) (hne : repl ≠ [])
    (hrepl : ∀ c, repl.getLast? = some c → isSpace c = false) :
    ∀ (s : GoString) (skip : Nat), (∀ c, s.getLast? = some c → isSpace c = false) →
      ∀ c, (reReplaceAux repl skip s).getLast? = some c → isSpace c = false := by
  intro s
  induction s with
  | nil =>
    intro skip _ c hc
    cases skip <;> simp [reReplaceAux] at hc
  | cons x xs ih =>
    intro skip hs
    have hxs := getLast?_tail_of_cons x xs hs
    have hkeep : ∀ c, (x :: reReplaceAux repl 0 xs).getLast? = some c → isSpace c = false := by
      intro c hc
      cases hR : reReplaceAux repl 0 xs with
      | nil =>
        have hnil := reReplaceAux_eq_nil repl hne xs hR
        subst hnil
        rw [hR] at hc
        exact hs c hc
      | cons r rs =>
        rw [hR, List.getLast?_cons_cons, ← hR] at hc
        exact ih 0 hxs c hc
    cases skip with
    | succ k =>
      intro c hc
      simp only [reReplaceAux] at hc
      exact ih k hxs c hc
    | zero =>
      intro c hc
      unfold reReplaceAux at hc
      split_ifs at hc
      · cases hb : braceMatchLength xs with
        | none =>
          rw [hb] at hc
          exact hkeep c hc
        | some k =>
          rw [hb] at hc
          exact getLast?_append_clean repl _ hrepl (ih k hxs) c hc
      · exact hkeep c hc

theorem backreference_getLast (index : Int) (h : 0 ≤ index) :
    ∀ c, ("\\".toList ++ Itoa index).getLast? = some c → isSpace c = false := by
  apply getLast?_append_clean
  · intro c hc
    have : c = '\\' := by simpa using hc.symm
    subst this
    decide
  · intro c hc
    exact isDigit_not_isSpace c (Itoa_isDigit index h c (List.mem_of_mem_getLast? hc))

theorem head?_append_slash_clean (generatedPath part : GoString)
    (h : ∀ c, generatedPath.head? = some c → isSpace c = false) :
    ∀ c, (generatedPath ++ "/".toList ++ part).head? = some c → isSpace c = false := by
  intro c hc
  cases generatedPath with
  | nil =>
    have : c = '/' := by simpa using hc.symm
    subst this
    decide
  | cons g gs =>
    apply h
    simpa using hc

theorem getLast?_append_slash_clean (generatedPath part : GoString)
    (h : ∀ c, part.getLast? = some c → isSpace c = false) :
    ∀ c, (generatedPath ++ "/".toList ++ part).getLast? = some c → isSpace c = false := by
  apply getLast?_append_clean _ _ _ h
  intro c hc
  have : c = '/' := by simpa using hc.symm
  subst this
  decide

/-- The loop of `GeneratePrefixMatch` keeps both ends of the generated path free of white space,
and the parameter count at one or more. -/
theorem generatePrefixMatchStep_clean (state : GoString × Int) (value : GoString)
    (hhead : ∀ c, state.1.head? = some c → isSpace c = false)
    (hlast : ∀ c, state.1.getLast? = some c → isSpace c = false)
    (hcount : 1 ≤ state.2) :
    (∀ c, (generatePrefixMatchStep state value).1.head? = some c → isSpace c = false) ∧
    (∀ c, (generatePrefixMatchStep state value).1.getLast? = some c → isSpace c = false) ∧
    1 ≤ (generatePrefixMatchStep state value).2 := by
  unfold generatePrefixMatchStep
  simp only
  split_ifs
  · refine ⟨head?_append_slash_clean _ _ hhead, getLast?_append_slash_clean _ _ ?_, by
      show 1 ≤ state.2 + 1
      omega⟩
    exact reReplaceAux_getLast _ (by simp) (backreference_getLast state.2 (by omega)) _ 0
      (trimSpace_getLast value)
  · exact ⟨head?_append_slash_clean _ _ hhead,
      getLast?_append_slash_clean _ _ (trimSpace_getLast value), hcount⟩
  · exact ⟨hhead, hlast, hcount⟩

theorem foldl_generatePrefixMatchStep_clean (values : List GoString) :
    ∀ state : GoString × Int,
      (∀ c, state.1.head? = some c → isSpace c = false) →
      (∀ c, state.1.getLast? = some c → isSpace c = false) →
      1 ≤ state.2 →
      (∀ c, (values.foldl generatePrefixMatchStep state).1.head? = some c →
        isSpace c = false) ∧
      (∀ c, (values.foldl generatePrefixMatchStep state).1.getLast? = some c →
        isSpace c = false) ∧
      1 ≤ (values.foldl generatePrefixMatchStep state).2 := by
  induction values with
  | nil => intro state hhead hlast hcount; exact ⟨hhead, hlast, hcount⟩
  | cons value rest ih =>
    intro state hhead hlast hcount
    obtain ⟨h1, h2, h3⟩ := generatePrefixMatchStep_clean state value hhead hlast hcount
    exact ih _ h1 h2 h3

/-- The replacement of the wildcard tail keeps both ends free of white space. -/
theorem wildcardTail_clean (generatedPath : GoString) (pathParamCount : Int)
    (hhead : ∀ c, generatedPath.head? = some c → isSpace c = false)
    (hlast : ∀ c, generatedPath.getLast? = some c → isSpace c = false)
    (hcount : 1 ≤ pathParamCount) :
    (∀ c, (if hasSuffix generatedPath "/*".toList then
        match lastIndexChar '/' generatedPath with
        | some lastSlashIndex =>
          generatedPath.take lastSlashIndex ++ "///".toList ++ Itoa pathParamCount
        | none => generatedPath
      else generatedPath).head? = some c → isSpace c = false) ∧
    (∀ c, (if hasSuffix generatedPath "/*".toList then
        match lastIndexChar '/' generatedPath with
        | some lastSlashIndex =>
          generatedPath.take lastSlashIndex ++ "///".toList ++ Itoa pathParamCount
        | none => generatedPath
      else generatedPath).getLast? = some c → isSpace c = false) := by
  split_ifs
  · cases lastIndexChar '/' generatedPath with
    | none => exact ⟨hhead, hlast⟩
    | some lastSlashIndex =>
      constructor
      · intro c hc
        cases generatedPath with
        | nil =>
          have : c = '/' := by simpa using hc.symm
          subst this
          decide
        | cons g gs =>
          cases lastSlashIndex with
          | zero =>
            have : c = '/' := by simpa using hc.symm
            subst this
            decide
          | succ i =>
            apply hhead
            simpa using hc
      · apply getLast?_append_clean
        · intro c hc
          rw [List.getLast?_append] at hc
          have : c = '/' := by simpa using hc.symm
          subst this
          decide
        · intro c hc
          exact isDigit_not_isSpace c
            (Itoa_isDigit pathParamCount (by omega) c (List.mem_of_mem_getLast? hc))
  · exact ⟨hhead, hlast⟩

/-- Without the trimming of a service entry, the result of `GeneratePrefixMatch` neither starts
nor ends with white space. -/
theorem GeneratePrefixMatch_clean (endpointToUse : EndpointDetails) (operation : Operation)
    (h : endpointToUse.ServiceEntry = false) :
    (∀ c, (GeneratePrefixMatch endpointToUse operation).head? = some c → isSpace c = false) ∧
    (∀ c, (GeneratePrefixMatch endpointToUse operation).getLast? = some c →
      isSpace c = false) := by
  unfold GeneratePrefixMatch
  simp only [h, Bool.false_eq_true, if_false]
  have hstate : ∀ target : GoString,
      (∀ c, (if target = "/*".toList then ("\\1".toList, (1 : Int))
          else if target = "/".toList then ("/".toList, 1)
          else (splitSlash target).foldl generatePrefixMatchStep ([], 1)).1.head? = some c →
        isSpace c = false) ∧
      (∀ c, (if target = "/*".toList then ("\\1".toList, (1 : Int))
          else if target = "/".toList then ("/".toList, 1)
          else (splitSlash target).foldl generatePrefixMatchStep ([], 1)).1.getLast? = some c →
        isSpace c = false) ∧
      1 ≤ (if target = "/*".toList then ("\\1".toList, (1 : Int))
          else if target = "/".toList then ("/".toList, 1)
          else (splitSlash target).foldl generatePrefixMatchStep ([], 1)).2 := by
    intro target
    split_ifs
    · refine ⟨?_, ?_, le_refl _⟩
      · intro c hc
        have : c = '\\' := by simpa using hc.symm
        subst this
        decide
      · intro c hc
        have : c = '1' := by simpa using hc.symm
        subst this
        decide
    · refine ⟨?_, ?_, le_refl _⟩
      · intro c hc
        have : c = '/' := by simpa using hc.symm
        subst this
        decide
      · intro c hc
        have : c = '/' := by simpa using hc.symm
        subst this
        decide
    · exact foldl_generatePrefixMatchStep_clean _ ([], 1) (by simp) (by simp) (le_refl _)
  obtain ⟨h1, h2, h3⟩ :=
    hstate (if operation.Target = [] then "/*".toList else operation.Target)
  exact wildcardTail_clean _ _ h1 h2 h3

/-- With the trimming of a service entry, `GeneratePrefixMatch` returns what it returns without
it. -/
theorem GeneratePrefixMatch_serviceEntry (endpointToUse : EndpointDetails)
    (operation : Operation) :
    GeneratePrefixMatch endpointToUse operation =
      GeneratePrefixMatch { endpointToUse with ServiceEntry := false } operation := by
  cases hentry : endpointToUse.ServiceEntry with
  | false =>
    have : endpointToUse = { endpointToUse with ServiceEntry := false } := by
      cases endpointToUse
      simp only at hentry
      subst hentry
      rfl
    rw [← this]
  | true =>
    have htrim : GeneratePrefixMatch endpointToUse operation =
        trimSpace (GeneratePrefixMatch { endpointToUse with ServiceEntry := false }
          operation) := by
      unfold GeneratePrefixMatch
      simp only [hentry, if_true, Bool.false_eq_true, if_false]
    obtain ⟨h1, h2⟩ := GeneratePrefixMatch_clean { endpointToUse with ServiceEntry := false }
      operation rfl
    rw [htrim, trimSpace_eq_self _ h1 h2]

/-- C36.  `GeneratePrefixMatch` returns the same string whether the endpoint is a service entry
or not, for every target and every endpoint: the rewrite before the trimming neither starts nor
ends with white space, so that the trimming of a service entry leaves it as it is. -/
theorem C36_service_entry_irrelevant (endpointToUse : EndpointDetails) (operation : Operation) :
    GeneratePrefixMatch { endpointToUse with ServiceEntry := true } operation =
      GeneratePrefixMatch { endpointToUse with ServiceEntry := false } operation ∧
    trimSpace (GeneratePrefixMatch { endpointToUse with ServiceEntry := false } operation) =
      GeneratePrefixMatch { endpointToUse with ServiceEntry := false } operation ∧
    GeneratePrefixMatch { endpointToUse with ServiceEntry := true } operation =
      trimSpace (GeneratePrefixMatch { endpointToUse with ServiceEntry := false }
        operation) := by
  have hsame := GeneratePrefixMatch_serviceEntry { endpointToUse with ServiceEntry := true }
    operation
  obtain ⟨h1, h2⟩ := GeneratePrefixMatch_clean { endpointToUse with ServiceEntry := false }
    operation rfl
  have htrim := trimSpace_eq_self _ h1 h2
  exact ⟨hsame, htrim, hsame.trans htrim.symm⟩

/-! ## The claims on the redirect without port, the endpoint type and the other policies -/

theorem mem_chainFiltersOf (endpoint : EndpointDetails) (policies : List OperationPolicy)
    (policy : OperationPolicy) (filter : HTTPRouteFilter) (hpolicy : policy ∈ policies)
    (hfilter : filter ∈ policyFiltersOf endpoint policy) :
    filter ∈ chainFiltersOf endpoint policies := by
  induction policies with
  | nil => cases hpolicy
  | cons first rest ih =>
    simp only [chainFiltersOf, List.mem_append]
    rcases List.mem_cons.mp hpolicy with heq | hrest
    · left
      rw [← heq]
      exact hfilter
    · right
      exact ih hrest

/-- C37.  For a redirect policy whose URL has no usable port, `extractHTTPRouteFilter` in the
request direction returns one filter of type `RequestRedirect` without redirect details, hence
without hostname, scheme, path and status code, and reports a redirect; when the policy is in the
request list in effect of an operation with a resolved endpoint, the rule of the operation
holds that filter and has neither URLRewrite filter nor backend reference. -/
theorem C37_redirect_without_port (apkConf : APKConf) (operation : Operation)
    (endpoint : Option EndpointDetails) (endpointType : GoString)
    (endpointToUse : EndpointDetails) (policy : OperationPolicy) (redirect : RedirectPolicy)
    (hpolicy : policy.Parameters = some (.redirectPolicy redirect))
    (hport : GetPort (.str redirect.URL) ≤ 0)
    (hmem : policy ∈ requestPoliciesInEffect apkConf operation)
    (hres : resolveEndpointToUse operation endpoint endpointType = .ok (some endpointToUse)) :
    extractHTTPRouteFilter apkConf endpointToUse operation [policy] true =
      ([{ Type_ := "RequestRedirect".toList, RequestRedirect := none }], true) ∧
    ∃ rule, generateHTTPRouteRule apkConf operation endpoint endpointType =
        .ok (some rule, none) ∧
      { Type_ := "RequestRedirect".toList, RequestRedirect := none } ∈ rule.Filters ∧
      rule.BackendRefs = [] ∧ ∀ f ∈ rule.Filters, isURLRewrite f = false := by
  have hfilter : policyFiltersOf endpointToUse policy =
      [{ Type_ := "RequestRedirect".toList, RequestRedirect := none }] := by
    simp only [policyFiltersOf, hpolicy]
    rw [redirectFilterOf_unusable redirect (by omega)]
  have hred : (requestPoliciesInEffect apkConf operation).any isRedirectPolicy = true :=
    List.any_eq_true.mpr ⟨policy, hmem, by simp [isRedirectPolicy, hpolicy]⟩
  constructor
  · rw [extractHTTPRouteFilter_eq]
    simp [chainFiltersOf, hfilter, hasHeaderEntries, addHeadersOf, setHeadersOf,
      removeHeadersOf, hpolicy, isRedirectPolicy]
  · refine ⟨_, generateHTTPRouteRule_of_resolved apkConf operation endpoint endpointType
      endpointToUse hres, ?_, ?_, ?_⟩
    · simp only [generateHTTPRouteFilters_eq, directionFilters_eq_extract,
        extractHTTPRouteFilter_eq, List.mem_append]
      left
      left
      left
      exact mem_chainFiltersOf endpointToUse _ policy _ hmem (by rw [hfilter]; simp)
    · simp [generateHTTPRouteFilters_eq, hred]
    · intro f hf
      simp only [generateHTTPRouteFilters_eq, hred, if_true, List.append_nil,
        List.mem_append] at hf
      rcases hf with hf | hf
      · exact directionFilters_noRewrite _ _ _ _ _ f hf
      · exact directionFilters_noRewrite _ _ _ _ _ f hf

/-- Witness of C37: `GET /employees` with a redirect to `example.com/moved`, a URL without
scheme. -/
theorem C37_redirect_without_port_witness :
    extractHTTPRouteFilter employeeConf employeeEndpoint opRedirectWithoutScheme
        [redirectWithoutScheme] true =
      ([{ Type_ := "RequestRedirect".toList, RequestRedirect := none }], true) ∧
    ∃ rule, generateHTTPRouteRule employeeConf opRedirectWithoutScheme (some employeeEndpoint)
        PRODUCTION_TYPE = .ok (some rule, none) ∧
      { Type_ := "RequestRedirect".toList, RequestRedirect := none } ∈ rule.Filters ∧
      rule.BackendRefs = [] ∧ ∀ f ∈ rule.Filters, isURLRewrite f = false :=
  C37_redirect_without_port employeeConf opRedirectWithoutScheme (some employeeEndpoint)
    PRODUCTION_TYPE employeeEndpoint redirectWithoutScheme
    { URL := "example.com/moved".toList, StatusCode := 301 } rfl (by decide) (by decide)
    (by decide)

theorem GetEndpointToUse_of_otherType (endpointConfigs : Option EndpointConfigurations)
    (endpointType : GoString) (hproduction : endpointType ≠ PRODUCTION_TYPE)
    (hsandbox : endpointType ≠ SANDBOX_TYPE) :
    GetEndpointToUse endpointConfigs endpointType = .ok none := by
  have hp : ¬ (PRODUCTION_TYPE = endpointType) := fun h => hproduction h.symm
  have hs : ¬ (SANDBOX_TYPE = endpointType) := fun h => hsandbox h.symm
  rcases endpointConfigs with _ | ⟨production, sandbox⟩
  · rfl
  · rcases production with _ | production <;> rcases sandbox with _ | sandbox <;>
      simp [GetEndpointToUse, createEndpoints, derefEndpoint, EndpointMap.set,
        EndpointMap.get?, bind, Except.bind, pure, Except.pure, hproduction, hsandbox, hp, hs,
        List.find?]

/-- C38.  For an endpoint type other than `production` and `sandbox`, `GetEndpointToUse` returns
no endpoint and does not fail, whatever the endpoint configuration, absent or with any of its
entries; the endpoint that rule generation resolves is then the one supplied by the caller. -/
theorem C38_other_endpoint_type (endpointConfigs : Option EndpointConfigurations)
    (operation : Operation) (fallback : Option EndpointDetails) (endpointType : GoString)
    (hproduction : endpointType ≠ PRODUCTION_TYPE) (hsandbox : endpointType ≠ SANDBOX_TYPE) :
    GetEndpointToUse endpointConfigs endpointType = .ok none ∧
    resolveEndpointToUse operation fallback endpointType = .ok fallback := by
  refine ⟨GetEndpointToUse_of_otherType endpointConfigs endpointType hproduction hsandbox, ?_⟩
  unfold resolveEndpointToUse
  rw [GetEndpointToUse_of_otherType operation.EndpointConfigurations endpointType hproduction
    hsandbox]
  cases fallback <;> rfl

/-- Witness of C38: the endpoint type `staging`, for an operation with a production endpoint of
its own. -/
theorem C38_other_endpoint_type_witness :
    GetEndpointToUse opOwnProduction.EndpointConfigurations "staging".toList = .ok none ∧
    resolveEndpointToUse opOwnProduction (some employeeEndpoint) "staging".toList =
      .ok (some employeeEndpoint) :=
  C38_other_endpoint_type opOwnProduction.EndpointConfigurations opOwnProduction
    (some employeeEndpoint) "staging".toList (by decide) (by decide)

/-- The policies that are not recognised: those without payload, with an interceptor or a
backend JWT payload, or with a header payload under another policy name. -/
theorem not_isRecognised_cases (policy : OperationPolicy) (h : isRecognised policy = false) :
    policy.Parameters = none ∨
    (∃ service, policy.Parameters = some (.interceptorService service)) ∨
    (∃ jwt, policy.Parameters = some (.backendJWT jwt)) ∨
    (∃ header, policy.Parameters = some (.header header) ∧
      policy.PolicyName ≠ "AddHeader".toList ∧ policy.PolicyName ≠ "SetHeader".toList ∧
      policy.PolicyName ≠ "RemoveHeader".toList) := by
  obtain ⟨name, version, id, parameters⟩ := policy
  rcases parameters with _ | p
  · left
    rfl
  · cases p with
    | redirectPolicy redirect => simp [isRecognised] at h
    | urlList urlList => simp [isRecognised] at h
    | header header =>
      right
      right
      right
      refine ⟨header, rfl, ?_⟩
      simpa [isRecognised, not_or] using h
    | interceptorService service =>
      right
      left
      exact ⟨service, rfl⟩
    | backendJWT jwt =>
      right
      right
      left
      exact ⟨jwt, rfl⟩

theorem addHeadersOf_unrecognised (policy : OperationPolicy) (rest : List OperationPolicy)
    (h : isRecognised policy = false) : addHeadersOf (policy :: rest) = addHeadersOf rest := by
  rcases not_isRecognised_cases policy h with hp | ⟨_, hp⟩ | ⟨_, hp⟩ | ⟨_, hp, hadd, _, _⟩
  · simp only [addHeadersOf, hp]
  · simp only [addHeadersOf, hp]
  · simp only [addHeadersOf, hp]
  · simp only [addHeadersOf, hp, if_neg hadd]

theorem setHeadersOf_unrecognised (policy : OperationPolicy) (rest : List OperationPolicy)
    (h : isRecognised policy = false) : setHeadersOf (policy :: rest) = setHeadersOf rest := by
  rcases not_isRecognised_cases policy h with hp | ⟨_, hp⟩ | ⟨_, hp⟩ | ⟨_, hp, _, hset, _⟩
  · simp only [setHeadersOf, hp]
  · simp only [setHeadersOf, hp]
  · simp only [setHeadersOf, hp]
  · simp only [setHeadersOf, hp, if_neg hset]

theorem removeHeadersOf_unrecognised (policy : OperationPolicy) (rest : List OperationPolicy)
    (h : isRecognised policy = false) :
    removeHeadersOf (policy :: rest) = removeHeadersOf rest := by
  rcases not_isRecognised_cases policy h with hp | ⟨_, hp⟩ | ⟨_, hp⟩ | ⟨_, hp, _, _, hremove⟩
  · simp only [removeHeadersOf, hp]
  · simp only [removeHeadersOf, hp]
  · simp only [removeHeadersOf, hp]
  · simp only [removeHeadersOf, hp, if_neg hremove]

theorem policyFiltersOf_unrecognised (endpoint : EndpointDetails) (policy : OperationPolicy)
    (h : isRecognised policy = false) : policyFiltersOf endpoint policy = [] := by
  rcases not_isRecognised_cases policy h with hp | ⟨_, hp⟩ | ⟨_, hp⟩ | ⟨_, hp, _, _, _⟩ <;>
    simp only [policyFiltersOf, hp]

theorem isRedirectPolicy_unrecognised (policy : OperationPolicy)
    (h : isRecognised policy = false) : isRedirectPolicy policy = false := by
  rcases not_isRecognised_cases policy h with hp | ⟨_, hp⟩ | ⟨_, hp⟩ | ⟨_, hp, _, _, _⟩ <;>
    simp only [isRedirectPolicy, hp]

theorem addHeadersOf_filter (policies : List OperationPolicy) :
    addHeadersOf (policies.filter isRecognised) = addHeadersOf policies := by
  induction policies with
  | nil => rfl
  | cons policy rest ih =>
    cases h : isRecognised policy with
    | false => rw [List.filter_cons_of_neg (by simp [h]), ih, addHeadersOf_unrecognised _ _ h]
    | true =>
      rw [List.filter_cons_of_pos h]
      simp only [addHeadersOf, ih]

theorem setHeadersOf_filter (policies : List OperationPolicy) :
    setHeadersOf (policies.filter isRecognised) = setHeadersOf policies := by
  induction policies with
  | nil => rfl
  | cons policy rest ih =>
    cases h : isRecognised policy with
    | false => rw [List.filter_cons_of_neg (by simp [h]), ih, setHeadersOf_unrecognised _ _ h]
    | true =>
      rw [List.filter_cons_of_pos h]
      simp only [setHeadersOf, ih]

theorem removeHeadersOf_filter (policies : List OperationPolicy) :
    removeHeadersOf (policies.filter isRecognised) = removeHeadersOf policies := by
  induction policies with
  | nil => rfl
  | cons policy rest ih =>
    cases h : isRecognised policy with
    | false =>
      rw [List.filter_cons_of_neg (by simp [h]), ih, removeHeadersOf_unrecognised _ _ h]
    | true =>
      rw [List.filter_cons_of_pos h]
      simp only [removeHeadersOf, ih]

theorem chainFiltersOf_filter (endpoint : EndpointDetails) (policies : List OperationPolicy) :
    chainFiltersOf endpoint (policies.filter isRecognised) =
      chainFiltersOf endpoint policies := by
  induction policies with
  | nil => rfl
  | cons policy rest ih =>
    cases h : isRecognised policy with
    | false =>
      rw [List.filter_cons_of_neg (by simp [h]), ih]
      simp only [chainFiltersOf, policyFiltersOf_unrecognised endpoint policy h,
        List.nil_append]
    | true =>
      rw [List.filter_cons_of_pos h]
      simp only [chainFiltersOf, ih]

theorem any_isRedirectPolicy_filter (policies : List OperationPolicy) :
    (policies.filter isRecognised).any isRedirectPolicy = policies.any isRedirectPolicy := by
  induction policies with
  | nil => rfl
  | cons policy rest ih =>
    cases h : isRecognised policy with
    | false =>
      rw [List.filter_cons_of_neg (by simp [h]), ih]
      simp only [List.any_cons, isRedirectPolicy_unrecognised policy h, Bool.false_or]
    | true =>
      rw [List.filter_cons_of_pos h]
      simp only [List.any_cons, ih]

/-- C39.  Removing from a policy list every policy that is not recognised, which are the policies
with a header payload under a policy name other than `AddHeader`, `SetHeader` and
`RemoveHeader`, without payload, or with an interceptor or a backend JWT payload, leaves the
filters and the redirect flag returned by `extractHTTPRouteFilter` as they are; a list of such
policies only gives no filter and no redirect. -/
theorem C39_unrecognised_policies_ignored (apkConf : APKConf) (endpoint : EndpointDetails)
    (operation : Operation) (policies : List OperationPolicy) (isRequest : Bool) :
    extractHTTPRouteFilter apkConf endpoint operation (policies.filter isRecognised)
        isRequest =
      extractHTTPRouteFilter apkConf endpoint operation policies isRequest ∧
    extractHTTPRouteFilter apkConf endpoint operation
        (policies.filter (fun policy => !isRecognised policy)) isRequest = ([], false) ∧
    isRecognised { PolicyName := "AddHeader".toList } = false ∧
    isRecognised interceptorPolicy = false ∧
    isRecognised
      { PolicyName := "RenameHeader".toList,
        Parameters := some (.header { HeaderName := "X-Env".toList }) } = false ∧
    isRecognised addEnvHeader = true ∧ isRecognised mirrorThreeUrls = true ∧
    isRecognised redirectWithoutScheme = true := by
  refine ⟨?_, ?_, by decide, by decide, by decide, by decide, by decide, by decide⟩
  · simp only [extractHTTPRouteFilter_eq, chainFiltersOf_filter, hasHeaderEntries,
      headerModifierFilterOf, addHeadersOf_filter, setHeadersOf_filter,
      removeHeadersOf_filter, any_isRedirectPolicy_filter]
  · have hnone : ∀ rest : List OperationPolicy,
        (∀ policy ∈ rest, isRecognised policy = false) →
        extractHTTPRouteFilter apkConf endpoint operation rest isRequest = ([], false) := by
      intro rest
      induction rest with
      | nil =>
        intro _
        rw [extractHTTPRouteFilter_eq]
        rfl
      | cons policy rest ih =>
        intro hall
        have hp := hall policy (List.mem_cons_self _ _)
        have hrest := ih (fun q hq => hall q (List.mem_cons_of_mem _ hq))
        rw [extractHTTPRouteFilter_eq] at hrest ⊢
        simp only [chainFiltersOf, policyFiltersOf_unrecognised endpoint policy hp,
          List.nil_append, hasHeaderEntries, headerModifierFilterOf,
          addHeadersOf_unrecognised policy rest hp, setHeadersOf_unrecognised policy rest hp,
          removeHeadersOf_unrecognised policy rest hp, List.any_cons,
          isRedirectPolicy_unrecognised policy hp, Bool.false_or] at hrest ⊢
        exact hrest
    apply hnone
    intro policy hpolicy
    simpa using (List.mem_filter.mp hpolicy).2

end GwArtifacts
